import Mathlib

/-! # Dual-bank bootloader (demos/nordic/nrf52840-dk/bootloader/main.c)

A shallow embedding of the boot decision of `main.c` and of the flash routines it
uses (`bMagickCorrect`, `bValidateHeader`, `vEraseRegion`, `vSetBankFlag`,
`vEraseSecondBank`, `vCommitSecondBank`, `vBoot`, `main`).

* Flash is a map from byte address to byte value.
* Pointers and `size_t` are 32 bits wide (Cortex-M4): pointer and `uint32_t`
  arithmetic is taken modulo `4294967296` where the C code can wrap.
* The constants, the enum values and the layout of `ImageDescriptor_t` come from
  `bootloader.h`, which is not part of the sources at hand: they are the fields of
  `Config`.
* The signature verifier, the soft-device calls and the flash driver are external
  collaborators: their behaviour is the record `Env`.
* A routine that contains the page loop of `vEraseRegion` returns an `Option`:
  `none` means that the loop does not end.
-/

namespace Bootloader

/-- Flash contents: the byte stored at each address. -/
abbrev Flash := Nat → Nat

/-- A RAM copy of a descriptor: the byte at each offset of the structure. -/
abbrev Buffer := Nat → Nat

/-- The return codes the bootloader distinguishes. Every code other than
`NRF_SUCCESS` is a failure for the callers in `main.c`. -/
inductive ret_code_t
  | NRF_SUCCESS
  | NRF_ERROR_INVALID_DATA
  | NRF_ERROR_OTHER
  deriving DecidableEq, Repr

/-- The two arguments `vBlinkLeds` has a case for. -/
inductive LedStatus_t
  | LED_BOOT
  | LED_NO_CORRECT_FIRMWARE
  deriving DecidableEq, Repr

/-- The compile-time constants of `bootloader.h` (not among the sources): region
addresses, sizes, the magic, the enum values of `ImageFlags_t`, the bank numbers
and the layout of `ImageDescriptor_t`. -/
structure Config where
  CODE_PAGE_SIZE : Nat
  CODE_REGION_1_START : Nat
  CODE_REGION_2_START : Nat
  DESCRIPTOR_SIZE : Nat
  BOOTLOADER_REGION_START : Nat
  STACK_BEGIN : Nat
  HARDWARE_ID : Nat
  MAGICK_SIZE : Nat
  /-- The byte of `AFR_MAGICK` at each index. -/
  AFR_MAGICK : Nat → Nat
  IMAGE_FLAG_NEW : Nat
  IMAGE_FLAG_COMMIT_PENDING : Nat
  IMAGE_FLAG_VALID : Nat
  IMAGE_FLAG_INVALID : Nat
  FIRST_BANK : Nat
  SECOND_BANK : Nat
  /-- The value of `sizeof( ImageDescriptor_t )`. -/
  sizeof_ImageDescriptor_t : Nat
  offsetof_usImageFlags : Nat
  /-- The width in bytes of the member `usImageFlags`. -/
  sizeof_usImageFlags : Nat
  offsetof_ulSequenceNumber : Nat
  offsetof_ulStartAddress : Nat
  offsetof_ulEndAddress : Nat
  offsetof_ulExecutionAddress : Nat
  offsetof_ulHardwareID : Nat

/-- The external collaborators of the boot decision. -/
structure Env where
  /-- The signature verifier of `crypto.h`: a function of the flash contents and of
  the base address of the region it is asked about. -/
  xVerifyImageSignature : Flash → Nat → ret_code_t
  /-- The result of `sd_mbr_command( SD_MBR_COMMAND_INIT_SD )`. -/
  sd_mbr_command : ret_code_t
  /-- The result of `sd_softdevice_vector_table_base_set` for each address. -/
  sd_softdevice_vector_table_base_set : Nat → ret_code_t
  /-- What a flash cell holding the first byte holds after the second byte has been
  programmed into it. -/
  nvmcProgram : Nat → Nat → Nat

/-- What `main` does that can be observed from outside, in order. The calls of the
routines of `main.c` are recorded at their entry. -/
inductive Event
  | vBlinkLeds (xStatus : LedStatus_t)
  | xCryptoInit
  | xCryptoUnInit
  | vDisableInterrupts
  | xVerifyImageSignature (address : Nat) (ret : ret_code_t)
  | nrf_nvmc_page_erase (address : Nat)
  | nrf_nvmc_write_bytes (address : Nat) (numBytes : Nat)
  | vEraseSecondBank
  | vCommitSecondBank
  | vSetBankFlag (usBank : Nat) (xFlag : Nat)
  | vBoot (address : Nat)
  | sd_mbr_command (ret : ret_code_t)
  | sd_softdevice_vector_table_base_set (address : Nat) (ret : ret_code_t)
  | vStartApplication (address : Nat)
  | NVIC_SystemReset
  deriving DecidableEq, Repr

/-- The machine state the model follows: flash contents and the events so far. -/
structure State where
  flash : Flash
  trace : List Event

/-- Appends an event to the trace. -/
def State.log (st : State) (e : Event) : State :=
  { st with trace := st.trace ++ [e] }

/-- How a run of `main` ends: none of the three returns. -/
inductive Terminal
  /-- Control was given to the application by `vStartApplication`. -/
  | startApplication (address : Nat)
  /-- The chip was reset by `NVIC_SystemReset`. -/
  | systemReset
  /-- The endless loop of `vBlinkLeds( LED_NO_CORRECT_FIRMWARE )`. -/
  | blinkForever
  deriving DecidableEq, Repr

/-- The state at the terminal action together with that action. -/
structure Outcome where
  state : State
  terminal : Terminal

/-! ## Reading and writing structure members -/

/-- The little-endian value of the `n` bytes at address `a`. -/
def readLE (f : Nat → Nat) (a : Nat) : Nat → Nat
  | 0 => 0
  | n + 1 => f a % 256 + 256 * readLE f (a + 1) n

/-- An assignment to a structure member of `size` bytes at offset `off` of a RAM
copy: the member takes the low `size` bytes of `v`, little-endian. -/
def assignField (d : Buffer) (off size v : Nat) : Buffer :=
  fun i => if off ≤ i ∧ i < off + size then v / 256 ^ (i - off) % 256 else d i

/-- The bytes `memcpy( &new_desciptor, pxDescriptor, sizeof( new_desciptor ) )`
leaves in the RAM copy. -/
def memcpyDescriptor (f : Flash) (pxDescriptor : Nat) : Buffer :=
  fun i => f (pxDescriptor + i)

/-- The member `usImageFlags` of the descriptor at `base`. -/
def usImageFlags (cfg : Config) (f : Flash) (base : Nat) : Nat :=
  readLE f (base + cfg.offsetof_usImageFlags) cfg.sizeof_usImageFlags

/-- The member `ulSequenceNumber` of the descriptor at `base`. -/
def ulSequenceNumber (cfg : Config) (f : Flash) (base : Nat) : Nat :=
  readLE f (base + cfg.offsetof_ulSequenceNumber) 4

/-- The member `ulStartAddress` of the descriptor at `base`. -/
def ulStartAddress (cfg : Config) (f : Flash) (base : Nat) : Nat :=
  readLE f (base + cfg.offsetof_ulStartAddress) 4

/-- The member `ulEndAddress` of the descriptor at `base`. -/
def ulEndAddress (cfg : Config) (f : Flash) (base : Nat) : Nat :=
  readLE f (base + cfg.offsetof_ulEndAddress) 4

/-- The member `ulExecutionAddress` of the descriptor at `base`. -/
def ulExecutionAddress (cfg : Config) (f : Flash) (base : Nat) : Nat :=
  readLE f (base + cfg.offsetof_ulExecutionAddress) 4

/-- The member `ulHardwareID` of the descriptor at `base`. -/
def ulHardwareID (cfg : Config) (f : Flash) (base : Nat) : Nat :=
  readLE f (base + cfg.offsetof_ulHardwareID) 4

/-! ## Header validation (main.c lines 124-151) -/

/-- The function `bMagickCorrect`: `memcmp( address, AFR_MAGICK, MAGICK_SIZE ) == 0`. -/
def bMagickCorrect (cfg : Config) (f : Flash) (address : Nat) : Bool :=
  (List.range cfg.MAGICK_SIZE).all (fun i => f (address + i) == cfg.AFR_MAGICK i)

/-- The function `bValidateHeader`. -/
def bValidateHeader (cfg : Config) (f : Flash) (address : Nat) : ret_code_t :=
  if !bMagickCorrect cfg f address then
    ret_code_t.NRF_ERROR_INVALID_DATA
  else if ulHardwareID cfg f address ≠ cfg.HARDWARE_ID then
    ret_code_t.NRF_ERROR_INVALID_DATA
  else
    ret_code_t.NRF_SUCCESS

/-! ## Flash driver -/

/-- Modelled from the spec: `nrf_nvmc_page_erase` of the flash driver (nrf_nvmc.h is
not among the sources). Flash is erased in granules of `CODE_PAGE_SIZE` bytes: the
page that holds `address` becomes all `0xFF`, every other byte is kept. -/
def nrf_nvmc_page_erase (cfg : Config) (address : Nat) (st : State) : State :=
  { flash := fun a =>
      if a / cfg.CODE_PAGE_SIZE = address / cfg.CODE_PAGE_SIZE then 0xFF else st.flash a
    trace := st.trace ++ [Event.nrf_nvmc_page_erase address] }

/-- Modelled from the spec: `nrf_nvmc_write_bytes` of the flash driver (nrf_nvmc.h is
not among the sources). The `numBytes` bytes of `src` are programmed into the cells
from `address` on (`src` holds the source bytes as they are when the call is made);
what a cell holds afterwards is `Env.nvmcProgram` of its old content and the new
byte. The spec fixes that result for an erased cell only (see `Env.ProgramsErased`). -/
def nrf_nvmc_write_bytes (env : Env) (address : Nat) (src : Buffer) (numBytes : Nat)
    (st : State) : State :=
  { flash := fun a =>
      if address ≤ a ∧ a < address + numBytes then
        env.nvmcProgram (st.flash a) (src (a - address))
      else st.flash a
    trace := st.trace ++ [Event.nrf_nvmc_write_bytes address numBytes] }

/-! ## Region erase (main.c lines 182-195) -/

/-- The `while` loop of `vEraseRegion`: `p` is `pusCurrentPageAddress`, `limit` is
`address + length`. Each unit of fuel pays for one test of the loop condition. -/
def vEraseRegionLoop (cfg : Config) (limit : Nat) : Nat → Nat → State → Option State
  | 0, _, _ => none
  | fuel + 1, p, st =>
    if p < limit then
      vEraseRegionLoop cfg limit fuel ((p + cfg.CODE_PAGE_SIZE) % 4294967296)
        (nrf_nvmc_page_erase cfg p st)
    else
      some st

/-- The function `vEraseRegion`. The loop is given `4294967296` tests of its condition,
the number of values a 32-bit pointer can take; `none` stands for a loop that has not
ended by then. A result `some` is the same for every larger bound
(`vEraseRegionLoop_mono`). -/
def vEraseRegion (cfg : Config) (address length : Nat) (st : State) : Option State :=
  vEraseRegionLoop cfg ((address + length) % 4294967296) 4294967296
    (address - address % cfg.CODE_PAGE_SIZE) st

/-! ## Bank routines (main.c lines 197-249) -/

/-- The function `vSetBankFlag`. -/
def vSetBankFlag (cfg : Config) (env : Env) (usBank xFlag : Nat) (st : State) :
    Option State :=
  let st := st.log (Event.vSetBankFlag usBank xFlag)
  let ulCodeRegion :=
    if usBank = cfg.SECOND_BANK then cfg.CODE_REGION_2_START else cfg.CODE_REGION_1_START
  let new_desciptor :=
    assignField (memcpyDescriptor st.flash ulCodeRegion)
      cfg.offsetof_usImageFlags cfg.sizeof_usImageFlags xFlag
  (vEraseRegion cfg ulCodeRegion cfg.DESCRIPTOR_SIZE st).map
    (nrf_nvmc_write_bytes env ulCodeRegion new_desciptor cfg.sizeof_ImageDescriptor_t)

/-- The function `vEraseSecondBank`. -/
def vEraseSecondBank (cfg : Config) (st : State) : Option State :=
  vEraseRegion cfg cfg.CODE_REGION_2_START cfg.DESCRIPTOR_SIZE
    (st.log Event.vEraseSecondBank)

/-- The value `CODE_REGION_2_START - CODE_REGION_1_START` as a 32-bit quantity. -/
def bankOffset (cfg : Config) : Nat :=
  (cfg.CODE_REGION_2_START + 4294967296 - cfg.CODE_REGION_1_START % 4294967296) % 4294967296

/-- A 32-bit subtraction `a - b`. -/
def sub32 (a b : Nat) : Nat :=
  (a % 4294967296 + 4294967296 - b % 4294967296) % 4294967296

/-- The value `BANK2_DESCRIPTOR->ulEndAddress - BANK2_DESCRIPTOR->ulStartAddress` of
`vCommitSecondBank`, read from flash `f`. -/
def bank2ImageLength (cfg : Config) (f : Flash) : Nat :=
  sub32 (ulEndAddress cfg f cfg.CODE_REGION_2_START)
    (ulStartAddress cfg f cfg.CODE_REGION_2_START)

/-- The local `new_desciptor` of `vCommitSecondBank` (lines 232-241) at the moment it
is written: the copy of the descriptor of the second bank found in flash `f`, with
the three address members moved down by the distance between the banks. -/
def commitDescriptor (cfg : Config) (f : Flash) : Buffer :=
  let d0 := memcpyDescriptor f cfg.CODE_REGION_2_START
  let d1 := assignField d0 cfg.offsetof_ulStartAddress 4
    (sub32 (ulStartAddress cfg f cfg.CODE_REGION_2_START) (bankOffset cfg))
  let d2 := assignField d1 cfg.offsetof_ulEndAddress 4
    (sub32 (ulEndAddress cfg f cfg.CODE_REGION_2_START) (bankOffset cfg))
  assignField d2 cfg.offsetof_ulExecutionAddress 4
    (sub32 (ulExecutionAddress cfg f cfg.CODE_REGION_2_START) (bankOffset cfg))

/-- The function `vCommitSecondBank`. The length handed to `vEraseRegion` is the 32-bit
value of `DESCRIPTOR_SIZE + ulEndAddress - ulStartAddress`; the descriptor and the
length of the copy are read from flash after the erase, as in the C code. -/
def vCommitSecondBank (cfg : Config) (env : Env) (st : State) : Option State :=
  let st := st.log Event.vCommitSecondBank
  (vEraseRegion cfg cfg.CODE_REGION_1_START
      ((cfg.DESCRIPTOR_SIZE + bank2ImageLength cfg st.flash) % 4294967296) st).map
    fun st1 =>
      let st2 := nrf_nvmc_write_bytes env cfg.CODE_REGION_1_START
        (commitDescriptor cfg st1.flash) cfg.sizeof_ImageDescriptor_t st1
      nrf_nvmc_write_bytes env (cfg.CODE_REGION_1_START + cfg.DESCRIPTOR_SIZE)
        (fun i => st2.flash (cfg.CODE_REGION_2_START + cfg.DESCRIPTOR_SIZE + i))
        (bank2ImageLength cfg st2.flash) st2

/-! ## Terminal actions and execution handoff (main.c lines 73-122, 153-180) -/

/-- The call `NVIC_SystemReset()`: it does not return. -/
def NVIC_SystemReset (st : State) : Outcome :=
  { state := st.log Event.NVIC_SystemReset, terminal := Terminal.systemReset }

/-- The function `on_error`: the conditional delay and breakpoint aside, it resets. -/
def on_error (st : State) : Outcome :=
  NVIC_SystemReset st

/-- The function `app_error_handler`, which `APP_ERROR_CHECK` calls on a code other
than `NRF_SUCCESS`. -/
def app_error_handler (st : State) : Outcome :=
  on_error st

/-- The function `vDisableInterrupts`: it touches the interrupt controller only. -/
def vDisableInterrupts (st : State) : State :=
  st.log Event.vDisableInterrupts

/-- The call `vStartApplication( start_addr )`: it does not return. -/
def vStartApplication (start_addr : Nat) (st : State) : Outcome :=
  { state := st.log (Event.vStartApplication start_addr)
    terminal := Terminal.startApplication start_addr }

/-- The function `vBoot`. -/
def vBoot (cfg : Config) (env : Env) (address : Nat) (st : State) : Outcome :=
  let st := st.log (Event.vBoot address)
  let st := st.log Event.xCryptoUnInit
  let st := vDisableInterrupts st
  let xErrCode := env.sd_mbr_command
  let st := st.log (Event.sd_mbr_command xErrCode)
  if xErrCode ≠ ret_code_t.NRF_SUCCESS then app_error_handler st
  else
    let xErrCode := env.sd_softdevice_vector_table_base_set cfg.BOOTLOADER_REGION_START
    let st := st.log (Event.sd_softdevice_vector_table_base_set cfg.BOOTLOADER_REGION_START xErrCode)
    if xErrCode ≠ ret_code_t.NRF_SUCCESS then app_error_handler st
    else
      let xErrCode := env.sd_softdevice_vector_table_base_set address
      let st := st.log (Event.sd_softdevice_vector_table_base_set address xErrCode)
      vStartApplication address st

/-- The call `vBlinkLeds( LED_NO_CORRECT_FIRMWARE )`: the `for( ; ; )` loop of that
case never ends. -/
def vBlinkLedsNoCorrectFirmware (st : State) : Outcome :=
  { state := st.log (Event.vBlinkLeds LedStatus_t.LED_NO_CORRECT_FIRMWARE)
    terminal := Terminal.blinkForever }

/-! ## The boot decision (main.c lines 292-429) -/

/-- The second half of `main` (lines 374-429), entered with the value
`bBank1AFRHeader` computed at the start of `main`. -/
def evaluateBankA (cfg : Config) (env : Env) (bBank1AFRHeader : Bool) (st : State) :
    Outcome :=
  if bBank1AFRHeader then
    let xErrCode := env.xVerifyImageSignature st.flash cfg.CODE_REGION_1_START
    let st := st.log (Event.xVerifyImageSignature cfg.CODE_REGION_1_START xErrCode)
    if xErrCode ≠ ret_code_t.NRF_SUCCESS ∨
        (usImageFlags cfg st.flash cfg.CODE_REGION_1_START ≠ cfg.IMAGE_FLAG_VALID ∧
          usImageFlags cfg st.flash cfg.CODE_REGION_1_START ≠ cfg.IMAGE_FLAG_COMMIT_PENDING) then
      vBlinkLedsNoCorrectFirmware st
    else
      vBoot cfg env (ulExecutionAddress cfg st.flash cfg.CODE_REGION_1_START) st
  else
    if readLE st.flash (cfg.CODE_REGION_1_START + cfg.DESCRIPTOR_SIZE) 4 = cfg.STACK_BEGIN then
      vBoot cfg env (cfg.CODE_REGION_1_START + cfg.DESCRIPTOR_SIZE) st
    else if readLE st.flash cfg.CODE_REGION_1_START 4 = cfg.STACK_BEGIN then
      vBoot cfg env cfg.CODE_REGION_1_START st
    else
      NVIC_SystemReset st

/-- The `case IMAGE_FLAG_NEW: case IMAGE_FLAG_VALID:` arm of the switch in `main`
(lines 338-357). -/
def commitAndBoot (cfg : Config) (env : Env) (st : State) : Option Outcome :=
  (vCommitSecondBank cfg env st).bind fun st =>
    let xErrCode := env.xVerifyImageSignature st.flash cfg.CODE_REGION_1_START
    let st := st.log (Event.xVerifyImageSignature cfg.CODE_REGION_1_START xErrCode)
    if xErrCode = ret_code_t.NRF_SUCCESS then
      (if usImageFlags cfg st.flash cfg.CODE_REGION_2_START = cfg.IMAGE_FLAG_NEW then
          vSetBankFlag cfg env cfg.FIRST_BANK cfg.IMAGE_FLAG_COMMIT_PENDING st
        else some st).bind fun st =>
      (vEraseSecondBank cfg st).map fun st =>
        vBoot cfg env (ulExecutionAddress cfg st.flash cfg.CODE_REGION_1_START) st
    else
      some (NVIC_SystemReset st)

/-- The first half of `main` after the two header checks (lines 303-372): the block
under `if( bBank2AFRHeader )`. It ends either in a terminal action of its own or by
falling through to the evaluation of the first bank. -/
def evaluateBankB (cfg : Config) (env : Env) (bBank1AFRHeader : Bool) (st : State) :
    Option Outcome :=
  if bBank1AFRHeader ∧
      ulSequenceNumber cfg st.flash cfg.CODE_REGION_1_START >
        ulSequenceNumber cfg st.flash cfg.CODE_REGION_2_START then
    (vEraseSecondBank cfg st).map (evaluateBankA cfg env bBank1AFRHeader)
  else
    let xErrCode := env.xVerifyImageSignature st.flash cfg.CODE_REGION_2_START
    let st := st.log (Event.xVerifyImageSignature cfg.CODE_REGION_2_START xErrCode)
    if xErrCode ≠ ret_code_t.NRF_SUCCESS then
      (vEraseRegion cfg cfg.CODE_REGION_2_START cfg.DESCRIPTOR_SIZE st).map
        (evaluateBankA cfg env bBank1AFRHeader)
    else if usImageFlags cfg st.flash cfg.CODE_REGION_2_START = cfg.IMAGE_FLAG_NEW ∨
        usImageFlags cfg st.flash cfg.CODE_REGION_2_START = cfg.IMAGE_FLAG_VALID then
      commitAndBoot cfg env st
    else if usImageFlags cfg st.flash cfg.CODE_REGION_2_START = cfg.IMAGE_FLAG_INVALID then
      (vEraseSecondBank cfg st).map (evaluateBankA cfg env bBank1AFRHeader)
    else if usImageFlags cfg st.flash cfg.CODE_REGION_2_START =
        cfg.IMAGE_FLAG_COMMIT_PENDING then
      (vEraseSecondBank cfg st).map (evaluateBankA cfg env bBank1AFRHeader)
    else
      some (evaluateBankA cfg env bBank1AFRHeader st)

/-- The state in which `main` reaches `if( bBank2AFRHeader )`: `vBlinkLeds( LED_BOOT )`
has returned and `xCryptoInit` has been called. -/
def startState (flash : Flash) : State :=
  ((State.mk flash []).log (Event.vBlinkLeds LedStatus_t.LED_BOOT)).log Event.xCryptoInit

/-- The function `main`, run on the flash contents found at power-on. -/
def main (cfg : Config) (env : Env) (flash : Flash) : Option Outcome :=
  let bBank1AFRHeader : Bool :=
    bValidateHeader cfg flash cfg.CODE_REGION_1_START = ret_code_t.NRF_SUCCESS
  let bBank2AFRHeader : Bool :=
    bValidateHeader cfg flash cfg.CODE_REGION_2_START = ret_code_t.NRF_SUCCESS
  let st := startState flash
  if bBank2AFRHeader then
    evaluateBankB cfg env bBank1AFRHeader st
  else
    some (evaluateBankA cfg env bBank1AFRHeader st)

/-! ## Conditions on the constants and on the driver -/

/-- The conditions on the constants of `bootloader.h` under which the boot decision is
analysed: the banks lie in a 32-bit address space, the second bank starts on a page
boundary above the descriptor of the first one, a descriptor fits in
`DESCRIPTOR_SIZE` bytes, its members do not overlap, and the four image flags are
distinct values of the flag member (they are the labels of one `switch`). -/
structure Config.WellFormed (cfg : Config) : Prop where
  page_pos : 0 < cfg.CODE_PAGE_SIZE
  desc_pos : 0 < cfg.DESCRIPTOR_SIZE
  banks : cfg.CODE_REGION_1_START + cfg.DESCRIPTOR_SIZE ≤ cfg.CODE_REGION_2_START
  bank2_aligned : cfg.CODE_REGION_2_START % cfg.CODE_PAGE_SIZE = 0
  bank2_top : cfg.CODE_REGION_2_START + cfg.DESCRIPTOR_SIZE + cfg.CODE_PAGE_SIZE ≤ 4294967296
  sizeof_le : cfg.sizeof_ImageDescriptor_t ≤ cfg.DESCRIPTOR_SIZE
  flags_in : cfg.offsetof_usImageFlags + cfg.sizeof_usImageFlags ≤ cfg.sizeof_ImageDescriptor_t
  start_in : cfg.offsetof_ulStartAddress + 4 ≤ cfg.sizeof_ImageDescriptor_t
  end_in : cfg.offsetof_ulEndAddress + 4 ≤ cfg.sizeof_ImageDescriptor_t
  exec_in : cfg.offsetof_ulExecutionAddress + 4 ≤ cfg.sizeof_ImageDescriptor_t
  start_end : cfg.offsetof_ulStartAddress + 4 ≤ cfg.offsetof_ulEndAddress ∨
    cfg.offsetof_ulEndAddress + 4 ≤ cfg.offsetof_ulStartAddress
  start_exec : cfg.offsetof_ulStartAddress + 4 ≤ cfg.offsetof_ulExecutionAddress ∨
    cfg.offsetof_ulExecutionAddress + 4 ≤ cfg.offsetof_ulStartAddress
  end_exec : cfg.offsetof_ulEndAddress + 4 ≤ cfg.offsetof_ulExecutionAddress ∨
    cfg.offsetof_ulExecutionAddress + 4 ≤ cfg.offsetof_ulEndAddress
  flags_start : cfg.offsetof_usImageFlags + cfg.sizeof_usImageFlags ≤ cfg.offsetof_ulStartAddress ∨
    cfg.offsetof_ulStartAddress + 4 ≤ cfg.offsetof_usImageFlags
  flags_end : cfg.offsetof_usImageFlags + cfg.sizeof_usImageFlags ≤ cfg.offsetof_ulEndAddress ∨
    cfg.offsetof_ulEndAddress + 4 ≤ cfg.offsetof_usImageFlags
  flags_exec : cfg.offsetof_usImageFlags + cfg.sizeof_usImageFlags ≤ cfg.offsetof_ulExecutionAddress ∨
    cfg.offsetof_ulExecutionAddress + 4 ≤ cfg.offsetof_usImageFlags
  new_ne_invalid : cfg.IMAGE_FLAG_NEW ≠ cfg.IMAGE_FLAG_INVALID
  new_ne_pending : cfg.IMAGE_FLAG_NEW ≠ cfg.IMAGE_FLAG_COMMIT_PENDING
  new_ne_valid : cfg.IMAGE_FLAG_NEW ≠ cfg.IMAGE_FLAG_VALID
  valid_ne_invalid : cfg.IMAGE_FLAG_VALID ≠ cfg.IMAGE_FLAG_INVALID
  valid_ne_pending : cfg.IMAGE_FLAG_VALID ≠ cfg.IMAGE_FLAG_COMMIT_PENDING
  invalid_ne_pending : cfg.IMAGE_FLAG_INVALID ≠ cfg.IMAGE_FLAG_COMMIT_PENDING
  pending_fits : cfg.IMAGE_FLAG_COMMIT_PENDING < 256 ^ cfg.sizeof_usImageFlags
  first_ne_second : cfg.FIRST_BANK ≠ cfg.SECOND_BANK

/-- The contract of the flash driver taken from the spec: programming a byte into an
erased cell stores that byte. -/
def Env.ProgramsErased (env : Env) : Prop :=
  ∀ b : Nat, env.nvmcProgram 0xFF b = b

/-- Every byte of `[a, a + n)` is in the erased state. -/
def Erased (f : Flash) (a n : Nat) : Prop :=
  ∀ x, a ≤ x → x < a + n → f x = 0xFF

/-- The state after the `n` consecutive pages with indices `q`, `q + 1`, ... have been
erased one after the other, lowest first: the closed form of the page loop. -/
def erasePagesFrom (cfg : Config) (q n : Nat) (st : State) : State :=
  { flash := fun a =>
      if q ≤ a / cfg.CODE_PAGE_SIZE ∧ a / cfg.CODE_PAGE_SIZE < q + n then 0xFF
      else st.flash a
    trace := st.trace ++
      (List.range n).map (fun k => Event.nrf_nvmc_page_erase ((q + k) * cfg.CODE_PAGE_SIZE)) }

/-- The number of pages that overlap `[address, address + length)` for `0 < length`:
from the page that holds `address` to the page that holds `address + length - 1`. -/
def pagesOverlapping (cfg : Config) (address length : Nat) : Nat :=
  (address + length - 1) / cfg.CODE_PAGE_SIZE - address / cfg.CODE_PAGE_SIZE + 1

/-- The state after the pages that overlap the descriptor area of the second bank have
been erased: what `vEraseRegion( CODE_REGION_2_START, DESCRIPTOR_SIZE )` leaves. -/
def bank2Erased (cfg : Config) (st : State) : State :=
  erasePagesFrom cfg (cfg.CODE_REGION_2_START / cfg.CODE_PAGE_SIZE)
    (pagesOverlapping cfg cfg.CODE_REGION_2_START cfg.DESCRIPTOR_SIZE) st

/-- The events recorded after the state `before` on the way to the state `after`. -/
def eventsSince (before after : State) : List Event :=
  after.trace.drop before.trace.length

/-- The events that change flash contents. -/
def Event.isFlashMutation : Event → Bool
  | Event.nrf_nvmc_page_erase _ => true
  | Event.nrf_nvmc_write_bytes _ _ => true
  | _ => false

/-- The events the evaluation of the first bank (lines 374-429) can add to the trace. -/
def Event.ofBankAEvaluation (cfg : Config) : Event → Bool
  | Event.xVerifyImageSignature address _ => address == cfg.CODE_REGION_1_START
  | Event.vBlinkLeds xStatus => xStatus == LedStatus_t.LED_NO_CORRECT_FIRMWARE
  | Event.vBoot _ => true
  | Event.xCryptoUnInit => true
  | Event.vDisableInterrupts => true
  | Event.sd_mbr_command _ => true
  | Event.sd_softdevice_vector_table_base_set _ _ => true
  | Event.vStartApplication _ => true
  | Event.NVIC_SystemReset => true
  | _ => false

/-! ## A configuration and flash images to run the model on -/

/-- A configuration in the style of the nRF52840 board: 4 KiB pages, a one-page
descriptor area, a packed 96-byte descriptor that starts with a 7-byte magic. -/
def sampleCfg : Config where
  CODE_PAGE_SIZE := 0x1000
  CODE_REGION_1_START := 0x26000
  CODE_REGION_2_START := 0x2A000
  DESCRIPTOR_SIZE := 0x1000
  BOOTLOADER_REGION_START := 0xF0000
  STACK_BEGIN := 0x20040000
  HARDWARE_ID := 1
  MAGICK_SIZE := 7
  AFR_MAGICK := fun i => [0x40, 0x41, 0x46, 0x52, 0x54, 0x4F, 0x53].getD i 0
  IMAGE_FLAG_NEW := 0xFF
  IMAGE_FLAG_COMMIT_PENDING := 0xFE
  IMAGE_FLAG_VALID := 0xFC
  IMAGE_FLAG_INVALID := 0xF8
  FIRST_BANK := 0
  SECOND_BANK := 1
  sizeof_ImageDescriptor_t := 96
  offsetof_usImageFlags := 7
  sizeof_usImageFlags := 1
  offsetof_ulSequenceNumber := 8
  offsetof_ulStartAddress := 12
  offsetof_ulEndAddress := 16
  offsetof_ulExecutionAddress := 20
  offsetof_ulHardwareID := 24

/-- A verifier that accepts every region, soft-device calls that succeed, and NOR
flash programming (bits can only be cleared). -/
def acceptAll : Env where
  xVerifyImageSignature := fun _ _ => ret_code_t.NRF_SUCCESS
  sd_mbr_command := ret_code_t.NRF_SUCCESS
  sd_softdevice_vector_table_base_set := fun _ => ret_code_t.NRF_SUCCESS
  nvmcProgram := fun old new => if old = 0xFF then new else Nat.land old new

/-- A verifier that rejects every region; the rest as in `acceptAll`. -/
def rejectAll : Env :=
  { acceptAll with xVerifyImageSignature := fun _ _ => ret_code_t.NRF_ERROR_OTHER }

/-- The byte `i` of the little-endian form of `v`. -/
def byteLE (v i : Nat) : Nat :=
  v / 256 ^ i % 256

/-- The bytes of a descriptor in the layout of `sampleCfg` with the given members;
the signature bytes are zero. -/
def descriptorBytes (flags seq start stop exec hw : Nat) : Buffer :=
  fun i =>
    if i < 7 then sampleCfg.AFR_MAGICK i
    else if i = 7 then flags
    else if i < 12 then byteLE seq (i - 8)
    else if i < 16 then byteLE start (i - 12)
    else if i < 20 then byteLE stop (i - 16)
    else if i < 24 then byteLE exec (i - 20)
    else if i < 28 then byteLE hw (i - 24)
    else 0

/-- A flash image: erased everywhere except for a descriptor `dA` at the start of the
first bank and a descriptor `dB` at the start of the second bank, when given. -/
def flashWith (dA dB : Option Buffer) : Flash :=
  fun a =>
    if 0x26000 ≤ a ∧ a < 0x26000 + 96 then
      match dA with
      | some d => d (a - 0x26000)
      | none => 0xFF
    else if 0x2A000 ≤ a ∧ a < 0x2A000 + 96 then
      match dB with
      | some d => d (a - 0x2A000)
      | none => 0xFF
    else 0xFF

/-- A first-bank descriptor: flags `VALID`, sequence number 3, one page of payload. -/
def imageA : Buffer :=
  descriptorBytes 0xFC 3 0x27000 0x28000 0x27000 1

/-- A first-bank descriptor with flags `COMMIT_PENDING`. -/
def imageAPending : Buffer :=
  descriptorBytes 0xFE 3 0x27000 0x28000 0x27000 1

/-- A staged descriptor: flags `NEW`, sequence number 5, one page of payload. -/
def stagedNew : Buffer :=
  descriptorBytes 0xFF 5 0x2B000 0x2C000 0x2B000 1

/-- A staged descriptor with the sequence number of `imageA`. -/
def stagedSameSeq : Buffer :=
  descriptorBytes 0xFF 3 0x2B000 0x2C000 0x2B000 1

/-- A staged descriptor older than `imageA`. -/
def stagedStale : Buffer :=
  descriptorBytes 0xFF 2 0x2B000 0x2C000 0x2B000 1

/-- A staged descriptor with flags `INVALID`. -/
def stagedInvalid : Buffer :=
  descriptorBytes 0xF8 5 0x2B000 0x2C000 0x2B000 1

/-- The staged image fits in the first bank: the destination of the commit,
`[CODE_REGION_1_START, CODE_REGION_1_START + DESCRIPTOR_SIZE + length)` with `length`
the 32-bit value of `ulEndAddress - ulStartAddress` of the second bank's descriptor,
does not reach the second bank. -/
def ImageFits (cfg : Config) (f : Flash) : Prop :=
  cfg.CODE_REGION_1_START + cfg.DESCRIPTOR_SIZE + bank2ImageLength cfg f ≤
    cfg.CODE_REGION_2_START

/-- A staged descriptor, flags `VALID`, whose payload length `0x3001` is one byte more
than the first bank can take after its descriptor area. -/
def stagedOversize : Buffer :=
  descriptorBytes 0xFC 5 0x2B000 0x2E001 0x2B000 1

/-- A staged descriptor with flags `VALID`, sequence number 5, one page of payload. -/
def stagedValid : Buffer :=
  descriptorBytes 0xFC 5 0x2B000 0x2C000 0x2B000 1

/-- A flash image with `imageA` in the first bank and `stagedNew` in the second bank
followed by one page of payload whose byte at offset `i` is `i % 251`. -/
def stagedFlash : Flash :=
  fun a =>
    if 0x2B000 ≤ a ∧ a < 0x2C000 then (a - 0x2B000) % 251
    else flashWith (some imageA) (some stagedNew) a

/-- The events the bank routines (`vEraseRegion`, `vEraseSecondBank`, `vSetBankFlag`,
`vCommitSecondBank`) add to the trace. -/
def Event.ofBankRoutine : Event → Bool
  | Event.nrf_nvmc_page_erase _ => true
  | Event.nrf_nvmc_write_bytes _ _ => true
  | Event.vEraseSecondBank => true
  | Event.vCommitSecondBank => true
  | Event.vSetBankFlag _ _ => true
  | _ => false

/-- The events that can occur before `main` has chosen its terminal action: the start
of `main`, the calls of the verifier and the events of the bank routines. -/
def Event.isPreTerminal : Event → Bool
  | Event.vBlinkLeds xStatus => xStatus == LedStatus_t.LED_BOOT
  | Event.xCryptoInit => true
  | Event.xVerifyImageSignature _ _ => true
  | e => Event.ofBankRoutine e

/-- The events a call of `vBoot` adds to the trace. -/
def Event.ofBoot : Event → Bool
  | Event.vBoot _ => true
  | Event.xCryptoUnInit => true
  | Event.vDisableInterrupts => true
  | Event.sd_mbr_command _ => true
  | Event.sd_softdevice_vector_table_base_set _ _ => true
  | Event.vStartApplication _ => true
  | Event.NVIC_SystemReset => true
  | _ => false

/-- A verifier that accepts the region at `0x2A000` (the second bank of `sampleCfg`)
and rejects every other region; the rest as in `acceptAll`. -/
def acceptSecondOnly : Env :=
  { acceptAll with
    xVerifyImageSignature := fun _ address =>
      if address = 0x2A000 then ret_code_t.NRF_SUCCESS else ret_code_t.NRF_ERROR_OTHER }

/-- The configuration `sampleCfg` with a descriptor area of 256 bytes, smaller than a
flash page. -/
def smallDescriptorCfg : Config :=
  { sampleCfg with DESCRIPTOR_SIZE := 0x100 }

/-- A flash image for `smallDescriptorCfg`: `imageA` at the start of the first bank,
payload bytes `0x55` from `0x26100` to the end of the page, erased elsewhere. -/
def smallDescriptorFlash : Flash :=
  fun a =>
    if 0x26100 ≤ a ∧ a < 0x27000 then 0x55
    else flashWith (some imageA) none a

/-- A staged descriptor whose flags byte `0x00` is none of the four image flags:
sequence number 5, one page of payload. -/
def stagedUnknownFlags : Buffer :=
  descriptorBytes 0x00 5 0x2B000 0x2C000 0x2B000 1

/-- A flash image with `imageA` in the first bank and a second bank whose header is
not valid but whose first byte is `0x00`. -/
def garbageSecondBank : Flash :=
  fun a => if a = 0x2A000 then 0x00 else flashWith (some imageA) none a

/-- The test for a flash mutation that happens while `vDisableInterrupts` has not yet
been called: a mutation event among the events before the first
`vDisableInterrupts`. -/
def mutatesBeforeDisable (trace : List Event) : Bool :=
  (trace.takeWhile (fun e => e != Event.vDisableInterrupts)).any Event.isFlashMutation

/-- Why `main` calls `vBoot` with `address` from the state `st`: either the most recent
call of the verifier, followed by events of the bank routines only, checked the first
bank and returned `NRF_SUCCESS`, and `address` is the `ulExecutionAddress` of the first
bank's descriptor; or the header of the first bank was invalid at power-on (flash `f`)
and `address` is the place where the stack-pointer word was found. -/
def HandoffReason (cfg : Config) (f : Flash) (st : State) (address : Nat) : Prop :=
  (∃ pre mid, st.trace = pre ++
        Event.xVerifyImageSignature cfg.CODE_REGION_1_START ret_code_t.NRF_SUCCESS :: mid ∧
      (∀ e ∈ mid, Event.ofBankRoutine e = true) ∧
      address = ulExecutionAddress cfg st.flash cfg.CODE_REGION_1_START) ∨
  (bValidateHeader cfg f cfg.CODE_REGION_1_START ≠ ret_code_t.NRF_SUCCESS ∧
    ((readLE st.flash (cfg.CODE_REGION_1_START + cfg.DESCRIPTOR_SIZE) 4 = cfg.STACK_BEGIN ∧
        address = cfg.CODE_REGION_1_START + cfg.DESCRIPTOR_SIZE) ∨
      (readLE st.flash (cfg.CODE_REGION_1_START + cfg.DESCRIPTOR_SIZE) 4 ≠ cfg.STACK_BEGIN ∧
        readLE st.flash cfg.CODE_REGION_1_START 4 = cfg.STACK_BEGIN ∧
        address = cfg.CODE_REGION_1_START)))

/-- The three ways a run of `main` ends, from a state `st` whose events are all
pre-terminal: a call of `vBoot` with a reason, a reset, or the failure indication. -/
def EndsFrom (cfg : Config) (env : Env) (f : Flash) (o : Outcome) (st : State) : Prop :=
  (∀ e ∈ st.trace, Event.isPreTerminal e = true) ∧
  ((∃ address, o = vBoot cfg env address st ∧ HandoffReason cfg f st address) ∨
    o = NVIC_SystemReset st ∨ o = vBlinkLedsNoCorrectFirmware st)

/-- Everything the header check and the evaluation of the first bank read lies inside
the first bank, below `CODE_REGION_2_START`: the magic, the members `ulHardwareID`,
`usImageFlags` and `ulExecutionAddress`, and the word after the descriptor area. -/
def Config.FirstBankHoldsReads (cfg : Config) : Prop :=
  cfg.CODE_REGION_1_START + cfg.MAGICK_SIZE ≤ cfg.CODE_REGION_2_START ∧
  cfg.CODE_REGION_1_START + cfg.offsetof_ulHardwareID + 4 ≤ cfg.CODE_REGION_2_START ∧
  cfg.CODE_REGION_1_START + cfg.offsetof_usImageFlags + cfg.sizeof_usImageFlags ≤
    cfg.CODE_REGION_2_START ∧
  cfg.CODE_REGION_1_START + cfg.offsetof_ulExecutionAddress + 4 ≤ cfg.CODE_REGION_2_START ∧
  cfg.CODE_REGION_1_START + cfg.DESCRIPTOR_SIZE + 4 ≤ cfg.CODE_REGION_2_START

/-- A flash image for `smallDescriptorCfg`: `imageA` in the first bank, `stagedNew` in
the second bank, followed from `0x2A100` by one page of payload bytes `0x55`. -/
def smallDescriptorStaged : Flash :=
  fun a =>
    if 0x2A100 ≤ a ∧ a < 0x2B100 then 0x55
    else flashWith (some imageA) (some stagedNew) a

/-! # Theorems -/

/-! ## Structure members -/

theorem readLE_congr (f g : Nat → Nat) :
    ∀ (n a b : Nat), (∀ i, i < n → f (a + i) = g (b + i)) → readLE f a n = readLE g b n := by
  intro n
  induction n with
  | zero => intro a b _; rfl
  | succ n ih =>
    intro a b h
    have h0 : f a = g b := by simpa using h 0 (Nat.succ_pos n)
    have hs : readLE f (a + 1) n = readLE g (b + 1) n := by
      apply ih
      intro i hi
      have := h (i + 1) (by omega)
      rw [show a + 1 + i = a + (i + 1) by omega, show b + 1 + i = b + (i + 1) by omega]
      exact this
    simp only [readLE, h0, hs]

theorem readLE_bytes (g : Nat → Nat) (v : Nat) :
    ∀ (n a k : Nat), (∀ i, i < n → g (a + i) = v / 256 ^ (k + i) % 256) →
      readLE g a n = v / 256 ^ k % 256 ^ n := by
  intro n
  induction n with
  | zero => intro a k _; simp [readLE, Nat.mod_one]
  | succ n ih =>
    intro a k h
    have h0 : g a = v / 256 ^ k % 256 := by simpa using h 0 (Nat.succ_pos n)
    have hs : readLE g (a + 1) n = v / 256 ^ (k + 1) % 256 ^ n := by
      apply ih
      intro i hi
      have := h (i + 1) (by omega)
      rw [show a + 1 + i = a + (i + 1) by omega, show k + 1 + i = k + (i + 1) by omega]
      exact this
    have hd : v / 256 ^ (k + 1) = v / 256 ^ k / 256 := by
      rw [pow_succ, Nat.div_div_eq_div_mul]
    simp only [readLE, h0, hs, hd]
    rw [Nat.mod_mod, pow_succ, Nat.mul_comm (256 ^ n) 256, Nat.mod_mul]

theorem readLE_lt (f : Nat → Nat) : ∀ (n a : Nat), readLE f a n < 256 ^ n := by
  intro n
  induction n with
  | zero => intro a; simp [readLE]
  | succ n ih =>
    intro a
    have h1 := ih (a + 1)
    have h2 : f a % 256 < 256 := Nat.mod_lt _ (by decide)
    simp only [readLE, pow_succ]
    omega

theorem readLE_assignField_same (d : Buffer) (off size v : Nat) :
    readLE (assignField d off size v) off size = v % 256 ^ size := by
  have h := readLE_bytes (assignField d off size v) v size off 0 (by
    intro i hi
    simp only [assignField]
    rw [if_pos ⟨by omega, by omega⟩]
    congr 3
    omega)
  simpa using h

theorem assignField_other (d : Buffer) (off size v i : Nat)
    (h : i < off ∨ off + size ≤ i) : assignField d off size v i = d i := by
  simp only [assignField]
  rw [if_neg (by omega)]

theorem readLE_assignField_other (d : Buffer) (off size v a n : Nat)
    (h : a + n ≤ off ∨ off + size ≤ a) :
    readLE (assignField d off size v) a n = readLE d a n := by
  apply readLE_congr
  intro i hi
  exact assignField_other d off size v (a + i) (by omega)

/-! ## The page loop -/

theorem erasePagesFrom_zero (cfg : Config) (q : Nat) (st : State) :
    erasePagesFrom cfg q 0 st = st := by
  cases st with
  | mk flash trace =>
    simp only [erasePagesFrom, List.range_zero, List.map_nil, List.append_nil]
    congr 1
    funext a
    rw [if_neg (by omega)]

theorem erasePagesFrom_succ (cfg : Config) (hP : 0 < cfg.CODE_PAGE_SIZE) (q n : Nat)
    (st : State) :
    erasePagesFrom cfg (q + 1) n (nrf_nvmc_page_erase cfg (q * cfg.CODE_PAGE_SIZE) st) =
      erasePagesFrom cfg q (n + 1) st := by
  simp only [erasePagesFrom, nrf_nvmc_page_erase, Nat.mul_div_cancel _ hP]
  congr 1
  · funext a
    by_cases h1 : q + 1 ≤ a / cfg.CODE_PAGE_SIZE ∧ a / cfg.CODE_PAGE_SIZE < q + 1 + n
    · rw [if_pos h1, if_pos (by omega)]
    · rw [if_neg h1]
      by_cases h2 : a / cfg.CODE_PAGE_SIZE = q
      · rw [if_pos h2, if_pos (by omega)]
      · rw [if_neg h2, if_neg (by omega)]
  · rw [List.range_succ_eq_map, List.map_cons, List.map_map, List.append_assoc]
    simp only [List.singleton_append, Nat.add_zero, List.cons.injEq, true_and]
    congr 2
    apply List.map_congr_left
    intro k _
    simp only [Function.comp, Nat.succ_eq_add_one]
    congr 2
    omega

theorem vEraseRegionLoop_eq (cfg : Config) (hP : 0 < cfg.CODE_PAGE_SIZE) (limit : Nat) :
    ∀ (n q fuel : Nat) (st : State),
      (∀ k, k < n → (q + k) * cfg.CODE_PAGE_SIZE < limit) →
      limit ≤ (q + n) * cfg.CODE_PAGE_SIZE →
      (q + n) * cfg.CODE_PAGE_SIZE < 4294967296 →
      n < fuel →
      vEraseRegionLoop cfg limit fuel (q * cfg.CODE_PAGE_SIZE) st =
        some (erasePagesFrom cfg q n st) := by
  intro n
  induction n with
  | zero =>
    intro q fuel st _ hle _ hfuel
    obtain ⟨fuel, rfl⟩ : ∃ m, fuel = m + 1 := ⟨fuel - 1, by omega⟩
    simp only [vEraseRegionLoop]
    rw [if_neg (by simpa using hle), erasePagesFrom_zero]
  | succ n ih =>
    intro q fuel st hlt hle htop hfuel
    obtain ⟨fuel, rfl⟩ : ∃ m, fuel = m + 1 := ⟨fuel - 1, by omega⟩
    have h0 : q * cfg.CODE_PAGE_SIZE < limit := by simpa using hlt 0 (Nat.succ_pos n)
    have hmono : (q + 1) * cfg.CODE_PAGE_SIZE ≤ (q + (n + 1)) * cfg.CODE_PAGE_SIZE :=
      Nat.mul_le_mul_right _ (by omega)
    have hnext : (q * cfg.CODE_PAGE_SIZE + cfg.CODE_PAGE_SIZE) % 4294967296 =
        (q + 1) * cfg.CODE_PAGE_SIZE := by
      rw [Nat.add_mul, Nat.one_mul] at hmono ⊢
      exact Nat.mod_eq_of_lt (by omega)
    simp only [vEraseRegionLoop]
    rw [if_pos h0, hnext, ih (q + 1) fuel _ (fun k hk => by
        have := hlt (k + 1) (by omega)
        rwa [show q + 1 + k = q + (k + 1) by omega]) (by
        rwa [show q + 1 + n = q + (n + 1) by omega]) (by
        rwa [show q + 1 + n = q + (n + 1) by omega]) (by omega)]
    rw [erasePagesFrom_succ cfg hP]

theorem vEraseRegionLoop_mono (cfg : Config) (limit : Nat) :
    ∀ (fuel k p : Nat) (st st' : State),
      vEraseRegionLoop cfg limit fuel p st = some st' →
      vEraseRegionLoop cfg limit (fuel + k) p st = some st' := by
  intro fuel
  induction fuel with
  | zero => intro k p st st' h; simp [vEraseRegionLoop] at h
  | succ fuel ih =>
    intro k p st st' h
    rw [show fuel + 1 + k = (fuel + k) + 1 by omega]
    simp only [vEraseRegionLoop] at h ⊢
    by_cases hp : p < limit
    · rw [if_pos hp] at h ⊢
      exact ih k _ _ _ h
    · rw [if_neg hp] at h ⊢
      exact h

theorem sub_mod_eq_div_mul (a P : Nat) : a - a % P = a / P * P := by
  have := Nat.div_add_mod a P
  rw [Nat.mul_comm] at this
  omega

theorem lt_succ_div_mul (a P : Nat) (hP : 0 < P) : a < (a / P + 1) * P := by
  have h1 := Nat.div_add_mod a P
  have h2 := Nat.mod_lt a hP
  rw [Nat.mul_comm] at h1
  rw [Nat.add_mul, Nat.one_mul]
  omega

theorem vEraseRegion_eq (cfg : Config) (hP : 0 < cfg.CODE_PAGE_SIZE) (address length : Nat)
    (st : State) (hlen : 0 < length)
    (htop : ((address + length - 1) / cfg.CODE_PAGE_SIZE + 1) * cfg.CODE_PAGE_SIZE < 4294967296) :
    vEraseRegion cfg address length st =
      some (erasePagesFrom cfg (address / cfg.CODE_PAGE_SIZE)
        (pagesOverlapping cfg address length) st) := by
  have hq : address / cfg.CODE_PAGE_SIZE ≤ (address + length - 1) / cfg.CODE_PAGE_SIZE :=
    Nat.div_le_div_right (by omega)
  have hlast := lt_succ_div_mul (address + length - 1) cfg.CODE_PAGE_SIZE hP
  have hfloor : (address + length - 1) / cfg.CODE_PAGE_SIZE * cfg.CODE_PAGE_SIZE ≤
      address + length - 1 := Nat.div_mul_le_self _ _
  have hsum : address / cfg.CODE_PAGE_SIZE + pagesOverlapping cfg address length =
      (address + length - 1) / cfg.CODE_PAGE_SIZE + 1 := by
    simp only [pagesOverlapping]; omega
  have hcount : (address + length - 1) / cfg.CODE_PAGE_SIZE + 1 ≤
      ((address + length - 1) / cfg.CODE_PAGE_SIZE + 1) * cfg.CODE_PAGE_SIZE :=
    Nat.le_mul_of_pos_right _ hP
  simp only [vEraseRegion]
  rw [Nat.mod_eq_of_lt (by omega), sub_mod_eq_div_mul]
  apply vEraseRegionLoop_eq cfg hP
  · intro k hk
    have : (address / cfg.CODE_PAGE_SIZE + k) * cfg.CODE_PAGE_SIZE ≤
        (address + length - 1) / cfg.CODE_PAGE_SIZE * cfg.CODE_PAGE_SIZE :=
      Nat.mul_le_mul_right _ (by omega)
    omega
  · rw [hsum]; omega
  · rw [hsum]; exact htop
  · have hn : pagesOverlapping cfg address length ≤
        (address + length - 1) / cfg.CODE_PAGE_SIZE + 1 := by
      rw [← hsum]; exact Nat.le_add_left _ _
    exact Nat.lt_of_le_of_lt (Nat.le_trans hn hcount) htop

theorem erasePagesFrom_trace (cfg : Config) (q n : Nat) (st : State) :
    (erasePagesFrom cfg q n st).trace = st.trace ++
      (List.range n).map (fun k => Event.nrf_nvmc_page_erase ((q + k) * cfg.CODE_PAGE_SIZE)) :=
  rfl

theorem erasePagesFrom_flash_in (cfg : Config) (address length : Nat) (st : State)
    (hlen : 0 < length) (a : Nat) (h1 : address ≤ a) (h2 : a < address + length) :
    (erasePagesFrom cfg (address / cfg.CODE_PAGE_SIZE)
      (pagesOverlapping cfg address length) st).flash a = 0xFF := by
  have hq1 : address / cfg.CODE_PAGE_SIZE ≤ a / cfg.CODE_PAGE_SIZE := Nat.div_le_div_right h1
  have hq2 : a / cfg.CODE_PAGE_SIZE ≤ (address + length - 1) / cfg.CODE_PAGE_SIZE :=
    Nat.div_le_div_right (by omega)
  simp only [erasePagesFrom, pagesOverlapping]
  rw [if_pos (by omega)]

theorem erasePagesFrom_flash_below (cfg : Config) (q n : Nat) (st : State) (a : Nat)
    (h : a / cfg.CODE_PAGE_SIZE < q) : (erasePagesFrom cfg q n st).flash a = st.flash a := by
  simp only [erasePagesFrom]
  rw [if_neg (by omega)]

theorem erasePagesFrom_flash_above (cfg : Config) (q n : Nat) (st : State) (a : Nat)
    (h : q + n ≤ a / cfg.CODE_PAGE_SIZE) : (erasePagesFrom cfg q n st).flash a = st.flash a := by
  simp only [erasePagesFrom]
  rw [if_neg (by omega)]

theorem div_lt_of_lt_aligned (a b P : Nat) (hP : 0 < P) (hb : b % P = 0) (h : a < b) :
    a / P < b / P := by
  have h1 := Nat.div_add_mod b P
  rw [hb, Nat.add_zero] at h1
  rw [Nat.div_lt_iff_lt_mul hP, Nat.mul_comm, h1]
  exact h

/-! ## vEraseRegion -/

/-- C7 (amended): for `0 < length`, when the page that holds `address + length - 1`
ends below the top of the 32-bit address space, `vEraseRegion( address, length )`
returns, and the pages it erases are the consecutive `CODE_PAGE_SIZE`-aligned pages
from `address - address % CODE_PAGE_SIZE` up to the page that holds
`address + length - 1`, lowest first: every byte of every page that overlaps
`[address, address + length)` is erased, in particular every byte of the requested
range. -/
theorem vEraseRegion_erases_overlapping_pages (cfg : Config) (hP : 0 < cfg.CODE_PAGE_SIZE)
    (address length : Nat) (st : State) (hlen : 0 < length)
    (htop : ((address + length - 1) / cfg.CODE_PAGE_SIZE + 1) * cfg.CODE_PAGE_SIZE <
      4294967296) :
    ∃ st', vEraseRegion cfg address length st = some st' ∧
      st'.trace = st.trace ++ (List.range (pagesOverlapping cfg address length)).map
        (fun k => Event.nrf_nvmc_page_erase
          (address - address % cfg.CODE_PAGE_SIZE + k * cfg.CODE_PAGE_SIZE)) ∧
      address - address % cfg.CODE_PAGE_SIZE +
          (pagesOverlapping cfg address length - 1) * cfg.CODE_PAGE_SIZE =
        (address + length - 1) - (address + length - 1) % cfg.CODE_PAGE_SIZE ∧
      (∀ a, st'.flash a =
        if address / cfg.CODE_PAGE_SIZE ≤ a / cfg.CODE_PAGE_SIZE ∧
            a / cfg.CODE_PAGE_SIZE ≤ (address + length - 1) / cfg.CODE_PAGE_SIZE
        then 0xFF else st.flash a) ∧
      (∀ a, address ≤ a → a < address + length → st'.flash a = 0xFF) := by
  have hq : address / cfg.CODE_PAGE_SIZE ≤ (address + length - 1) / cfg.CODE_PAGE_SIZE :=
    Nat.div_le_div_right (by omega)
  refine ⟨_, vEraseRegion_eq cfg hP address length st hlen htop, ?_, ?_, ?_, ?_⟩
  · rw [erasePagesFrom_trace, sub_mod_eq_div_mul]
    congr 1
    apply List.map_congr_left
    intro k _
    rw [Nat.add_mul]
  · rw [sub_mod_eq_div_mul, sub_mod_eq_div_mul, ← Nat.add_mul]
    congr 1
    simp only [pagesOverlapping]
    omega
  · intro a
    simp only [erasePagesFrom, pagesOverlapping]
    by_cases h : address / cfg.CODE_PAGE_SIZE ≤ a / cfg.CODE_PAGE_SIZE ∧
        a / cfg.CODE_PAGE_SIZE ≤ (address + length - 1) / cfg.CODE_PAGE_SIZE
    · rw [if_pos h, if_pos (by omega)]
    · rw [if_neg h, if_neg (by omega)]
  · intro a h1 h2
    exact erasePagesFrom_flash_in cfg address length st hlen a h1 h2

/-- An instance of `vEraseRegion_erases_overlapping_pages`: 16 bytes that straddle a
page boundary. -/
theorem vEraseRegion_erases_overlapping_pages_witness :
    0 < sampleCfg.CODE_PAGE_SIZE ∧ 0 < 16 ∧
    ((0x26FF8 + 16 - 1) / sampleCfg.CODE_PAGE_SIZE + 1) * sampleCfg.CODE_PAGE_SIZE <
      4294967296 ∧
    ∃ st', vEraseRegion sampleCfg 0x26FF8 16 (State.mk (fun _ => 0) []) = some st' ∧
      st'.trace = [Event.nrf_nvmc_page_erase 0x26000, Event.nrf_nvmc_page_erase 0x27000] ∧
      (∀ a, 0x26FF8 ≤ a → a < 0x26FF8 + 16 → st'.flash a = 0xFF) := by
  refine ⟨by decide, by decide, by decide, ?_⟩
  obtain ⟨st', h1, h2, _, _, h5⟩ :=
    vEraseRegion_erases_overlapping_pages sampleCfg (by decide) 0x26FF8 16
      (State.mk (fun _ => 0) []) (by decide) (by decide)
  exact ⟨st', h1, by rw [h2]; decide, h5⟩

theorem vEraseRegionLoop_top_page :
    ∀ (fuel p : Nat) (st : State), p % 4096 = 0 → p < 4294967296 →
      vEraseRegionLoop sampleCfg 0xFFFFF001 fuel p st = none := by
  intro fuel
  induction fuel with
  | zero => intro p st _ _; rfl
  | succ fuel ih =>
    intro p st hal hlt
    simp only [vEraseRegionLoop]
    rw [if_pos (by omega)]
    apply ih
    · show (p + 4096) % 4294967296 % 4096 = 0
      omega
    · exact Nat.mod_lt _ (by decide)

/-- C7 (as stated) fails: with 4 KiB pages, `vEraseRegion( 0xFFFFF000, 1 )` has
`0 < length` and `address + length` does not overflow, yet after the last page of the
address space the page pointer wraps to 0, which is below `address + length` again:
the loop never ends, whatever the number of iterations allowed. -/
theorem vEraseRegion_top_page_diverges :
    (0 < 1 ∧ 0xFFFFF000 + 1 < 4294967296) ∧
    vEraseRegion sampleCfg 0xFFFFF000 1 (State.mk (fun _ => 0xFF) []) = none ∧
    ¬ ∃ fuel, (vEraseRegionLoop sampleCfg ((0xFFFFF000 + 1) % 4294967296) fuel
        (0xFFFFF000 - 0xFFFFF000 % sampleCfg.CODE_PAGE_SIZE)
        (State.mk (fun _ => 0xFF) [])).isSome = true := by
  refine ⟨by decide, ?_, ?_⟩
  · exact vEraseRegionLoop_top_page _ _ _ (by decide) (by decide)
  · rintro ⟨fuel, h⟩
    rw [show (0xFFFFF000 + 1) % 4294967296 = 0xFFFFF001 by decide,
      vEraseRegionLoop_top_page fuel _ _ (by decide) (by decide)] at h
    exact absurd h (by decide)

/-! ## bValidateHeader -/

theorem bMagickCorrect_iff (cfg : Config) (f : Flash) (address : Nat) :
    bMagickCorrect cfg f address = true ↔
      ∀ i, i < cfg.MAGICK_SIZE → f (address + i) = cfg.AFR_MAGICK i := by
  simp [bMagickCorrect, List.all_eq_true]

theorem readLE_four_const (f : Nat → Nat) (a c : Nat)
    (h : ∀ i, i < 4 → f (a + i) = c) :
    readLE f a 4 = c % 256 + 256 * (c % 256 + 256 * (c % 256 + 256 * (c % 256))) := by
  have h0 : f a = c := by simpa using h 0 (by decide)
  have h1 : f (a + 1) = c := h 1 (by decide)
  have h2 : f (a + 1 + 1) = c := h 2 (by decide)
  have h3 : f (a + 1 + 1 + 1) = c := h 3 (by decide)
  simp only [readLE, h0, h1, h2, h3, Nat.mul_zero, Nat.add_zero]

/-- C8: `bValidateHeader( address )` returns `NRF_ERROR_INVALID_DATA` exactly when one of
the first `MAGICK_SIZE` bytes at `address` differs from `AFR_MAGICK` or `ulHardwareID`
differs from `HARDWARE_ID`, and `NRF_SUCCESS` otherwise; its result is the same for two
flash contents that agree on the magic bytes and on the four bytes of `ulHardwareID`
(signature, flags, sequence number and addresses play no part). When `AFR_MAGICK` and
`HARDWARE_ID` are not themselves all-zero, respectively all-ones, a region of all-zero
bytes and a region of all-`0xFF` bytes are rejected. -/
theorem bValidateHeader_spec (cfg : Config) (address n : Nat)
    (hzero : (∃ i, i < cfg.MAGICK_SIZE ∧ cfg.AFR_MAGICK i ≠ 0) ∨ cfg.HARDWARE_ID ≠ 0)
    (hones : (∃ i, i < cfg.MAGICK_SIZE ∧ cfg.AFR_MAGICK i ≠ 0xFF) ∨
      cfg.HARDWARE_ID ≠ 0xFFFFFFFF)
    (hn : cfg.MAGICK_SIZE ≤ n ∧ cfg.offsetof_ulHardwareID + 4 ≤ n) :
    (∀ f : Flash, bValidateHeader cfg f address = ret_code_t.NRF_ERROR_INVALID_DATA ↔
      ((∃ i, i < cfg.MAGICK_SIZE ∧ f (address + i) ≠ cfg.AFR_MAGICK i) ∨
        ulHardwareID cfg f address ≠ cfg.HARDWARE_ID)) ∧
    (∀ f : Flash, bValidateHeader cfg f address = ret_code_t.NRF_SUCCESS ↔
      ¬ ((∃ i, i < cfg.MAGICK_SIZE ∧ f (address + i) ≠ cfg.AFR_MAGICK i) ∨
        ulHardwareID cfg f address ≠ cfg.HARDWARE_ID)) ∧
    (∀ f g : Flash,
      (∀ i, i < cfg.MAGICK_SIZE → g (address + i) = f (address + i)) →
      (∀ i, i < 4 → g (address + cfg.offsetof_ulHardwareID + i) =
        f (address + cfg.offsetof_ulHardwareID + i)) →
      bValidateHeader cfg g address = bValidateHeader cfg f address) ∧
    (∀ f : Flash, (∀ i, i < n → f (address + i) = 0) →
      bValidateHeader cfg f address = ret_code_t.NRF_ERROR_INVALID_DATA) ∧
    (∀ f : Flash, (∀ i, i < n → f (address + i) = 0xFF) →
      bValidateHeader cfg f address = ret_code_t.NRF_ERROR_INVALID_DATA) := by
  have key : ∀ f : Flash, bValidateHeader cfg f address = ret_code_t.NRF_ERROR_INVALID_DATA ↔
      ((∃ i, i < cfg.MAGICK_SIZE ∧ f (address + i) ≠ cfg.AFR_MAGICK i) ∨
        ulHardwareID cfg f address ≠ cfg.HARDWARE_ID) := by
    intro f
    by_cases hm : bMagickCorrect cfg f address = true
    · have hall := (bMagickCorrect_iff cfg f address).1 hm
      by_cases hh : ulHardwareID cfg f address = cfg.HARDWARE_ID
      · have hval : bValidateHeader cfg f address = ret_code_t.NRF_SUCCESS := by
          simp [bValidateHeader, hm, hh]
        rw [hval]
        constructor
        · intro h; cases h
        · rintro (⟨i, hi, hne⟩ | hne)
          · exact absurd (hall i hi) hne
          · exact absurd hh hne
      · simp only [bValidateHeader, hm]
        simp [hh]
    · have hex : ∃ i, i < cfg.MAGICK_SIZE ∧ f (address + i) ≠ cfg.AFR_MAGICK i := by
        by_contra hcon
        apply hm
        rw [bMagickCorrect_iff]
        intro i hi
        by_contra hne
        exact hcon ⟨i, hi, hne⟩
      simp only [bValidateHeader]
      simp [hm, hex]
  have total : ∀ f : Flash, bValidateHeader cfg f address = ret_code_t.NRF_SUCCESS ↔
      ¬ bValidateHeader cfg f address = ret_code_t.NRF_ERROR_INVALID_DATA := by
    intro f
    simp only [bValidateHeader]
    split_ifs <;> simp
  refine ⟨key, ?_, ?_, ?_, ?_⟩
  · intro f
    rw [total, key]
  · intro f g hmag hhw
    have hh : ulHardwareID cfg g address = ulHardwareID cfg f address :=
      readLE_congr g f 4 _ _ hhw
    have hm : bMagickCorrect cfg g address = bMagickCorrect cfg f address := by
      rw [Bool.eq_iff_iff, bMagickCorrect_iff, bMagickCorrect_iff]
      constructor
      · intro h i hi; rw [← hmag i hi]; exact h i hi
      · intro h i hi; rw [hmag i hi]; exact h i hi
    simp only [bValidateHeader, hh, hm]
  · intro f hf
    rw [key]
    rcases hzero with ⟨i, hi, hne⟩ | hne
    · exact Or.inl ⟨i, hi, by rw [hf i (by omega)]; exact fun h => hne h.symm⟩
    · right
      have : ulHardwareID cfg f address = 0 := by
        simp only [ulHardwareID]
        rw [readLE_four_const f _ 0 (fun i hi => by
          rw [Nat.add_assoc]; exact hf _ (by omega))]
      rw [this]; exact fun h => hne h.symm
  · intro f hf
    rw [key]
    rcases hones with ⟨i, hi, hne⟩ | hne
    · exact Or.inl ⟨i, hi, by rw [hf i (by omega)]; exact fun h => hne h.symm⟩
    · right
      have : ulHardwareID cfg f address = 0xFFFFFFFF := by
        simp only [ulHardwareID]
        rw [readLE_four_const f _ 0xFF (fun i hi => by
          rw [Nat.add_assoc]; exact hf _ (by omega))]
      rw [this]; exact fun h => hne h.symm

/-- An instance of `bValidateHeader_spec`: the second bank of the sample configuration,
for a region of the size of a descriptor. -/
theorem bValidateHeader_spec_witness :
    ((∃ i, i < sampleCfg.MAGICK_SIZE ∧ sampleCfg.AFR_MAGICK i ≠ 0) ∨
      sampleCfg.HARDWARE_ID ≠ 0) ∧
    ((∃ i, i < sampleCfg.MAGICK_SIZE ∧ sampleCfg.AFR_MAGICK i ≠ 0xFF) ∨
      sampleCfg.HARDWARE_ID ≠ 0xFFFFFFFF) ∧
    (sampleCfg.MAGICK_SIZE ≤ 96 ∧ sampleCfg.offsetof_ulHardwareID + 4 ≤ 96) ∧
    bValidateHeader sampleCfg (fun _ => 0) 0x2A000 = ret_code_t.NRF_ERROR_INVALID_DATA ∧
    bValidateHeader sampleCfg (fun _ => 0xFF) 0x2A000 = ret_code_t.NRF_ERROR_INVALID_DATA :=
  ⟨Or.inl ⟨0, by decide, by decide⟩, Or.inl ⟨0, by decide, by decide⟩, by decide,
    (bValidateHeader_spec sampleCfg 0x2A000 96 (Or.inl ⟨0, by decide, by decide⟩)
      (Or.inl ⟨0, by decide, by decide⟩) (by decide)).2.2.2.1 (fun _ => 0) (fun _ _ => rfl),
    (bValidateHeader_spec sampleCfg 0x2A000 96 (Or.inl ⟨0, by decide, by decide⟩)
      (Or.inl ⟨0, by decide, by decide⟩) (by decide)).2.2.2.2 (fun _ => 0xFF)
      (fun _ _ => rfl)⟩

/-! ## Execution handoff and the evaluation of the first bank -/

theorem sampleCfg_wellFormed : sampleCfg.WellFormed := by
  constructor <;> decide

theorem acceptAll_programsErased : acceptAll.ProgramsErased := by
  intro b
  simp [acceptAll]

@[simp] theorem State.log_flash (st : State) (e : Event) : (st.log e).flash = st.flash := rfl

@[simp] theorem State.log_trace (st : State) (e : Event) :
    (st.log e).trace = st.trace ++ [e] := rfl

theorem vBoot_flash (cfg : Config) (env : Env) (address : Nat) (st : State) :
    (vBoot cfg env address st).state.flash = st.flash := by
  simp only [vBoot, vDisableInterrupts, app_error_handler, on_error, NVIC_SystemReset,
    vStartApplication, State.log]
  split_ifs <;> rfl

theorem vBoot_trace (cfg : Config) (env : Env) (address : Nat) (st : State) :
    ∃ tail, (vBoot cfg env address st).state.trace =
        st.trace ++ Event.vBoot address :: Event.xCryptoUnInit :: Event.vDisableInterrupts :: tail ∧
      ∀ e ∈ tail, Event.ofBankAEvaluation cfg e = true ∧ ∀ a, e ≠ Event.vBoot a := by
  simp only [vBoot, vDisableInterrupts, app_error_handler, on_error, NVIC_SystemReset,
    vStartApplication, State.log]
  split_ifs <;> simp only [List.append_assoc, List.singleton_append] <;>
    exact ⟨_, rfl, by simp [Event.ofBankAEvaluation]⟩

theorem vBoot_terminal (cfg : Config) (env : Env) (address : Nat) (st : State) :
    (vBoot cfg env address st).terminal ≠ Terminal.blinkForever ∧
    (env.sd_mbr_command = ret_code_t.NRF_SUCCESS →
      env.sd_softdevice_vector_table_base_set cfg.BOOTLOADER_REGION_START =
        ret_code_t.NRF_SUCCESS →
      (vBoot cfg env address st).terminal = Terminal.startApplication address) := by
  simp only [vBoot, vDisableInterrupts, app_error_handler, on_error, NVIC_SystemReset,
    vStartApplication, State.log]
  split_ifs <;> simp_all

theorem evaluateBankA_flash (cfg : Config) (env : Env) (b : Bool) (st : State) :
    (evaluateBankA cfg env b st).state.flash = st.flash := by
  simp only [evaluateBankA]
  split_ifs <;>
    simp [vBoot_flash, vBlinkLedsNoCorrectFirmware, NVIC_SystemReset, State.log]

theorem eventsSince_append (st st' : State) (tail : List Event)
    (h : st'.trace = st.trace ++ tail) : eventsSince st st' = tail := by
  simp [eventsSince, h]

theorem evaluateBankA_trace (cfg : Config) (env : Env) (b : Bool) (st : State) :
    ∃ tail, (evaluateBankA cfg env b st).state.trace = st.trace ++ tail ∧
      ∀ e ∈ tail, Event.ofBankAEvaluation cfg e = true := by
  have hboot : ∀ (address : Nat) (pre : List Event) (st1 : State),
      st1.trace = st.trace ++ pre → (∀ e ∈ pre, Event.ofBankAEvaluation cfg e = true) →
      ∃ tail, (vBoot cfg env address st1).state.trace = st.trace ++ tail ∧
        ∀ e ∈ tail, Event.ofBankAEvaluation cfg e = true := by
    intro address pre st1 h1 hpre
    obtain ⟨tail, h, ht⟩ := vBoot_trace cfg env address st1
    refine ⟨pre ++ Event.vBoot address :: Event.xCryptoUnInit ::
      Event.vDisableInterrupts :: tail, by rw [h, h1, List.append_assoc], ?_⟩
    intro e he
    simp only [List.mem_append, List.mem_cons] at he
    rcases he with he | rfl | rfl | rfl | he
    · exact hpre e he
    · rfl
    · rfl
    · rfl
    · exact (ht e he).1
  simp only [evaluateBankA]
  split_ifs
  · refine ⟨[Event.xVerifyImageSignature cfg.CODE_REGION_1_START
        (env.xVerifyImageSignature st.flash cfg.CODE_REGION_1_START),
        Event.vBlinkLeds LedStatus_t.LED_NO_CORRECT_FIRMWARE], ?_, ?_⟩
    · simp [vBlinkLedsNoCorrectFirmware]
    · simp [Event.ofBankAEvaluation]
  · exact hboot _ [Event.xVerifyImageSignature cfg.CODE_REGION_1_START
      (env.xVerifyImageSignature st.flash cfg.CODE_REGION_1_START)] _ rfl
      (by simp [Event.ofBankAEvaluation])
  · exact hboot _ [] _ (by simp) (by simp)
  · exact hboot _ [] _ (by simp) (by simp)
  · exact ⟨[Event.NVIC_SystemReset], by simp [NVIC_SystemReset],
      by simp [Event.ofBankAEvaluation]⟩

/-- C4: the evaluation of the first bank entered with a valid header calls `vBoot` with
`BANK1_DESCRIPTOR->ulExecutionAddress` if and only if the signature check of the first
bank passes and its flags are `VALID` or `COMMIT_PENDING`. In that case the run is
that call of `vBoot` (which starts the application at that address when the two
checked soft-device calls succeed). In every other case the only events are the
signature check and `vBlinkLeds( LED_NO_CORRECT_FIRMWARE )`, the run ends in the
endless blink loop, and there is no reset, no `vBoot` and no `vStartApplication`. -/
theorem evaluateBankA_valid_header (cfg : Config) (env : Env) (st : State) :
    (Event.vBoot (ulExecutionAddress cfg st.flash cfg.CODE_REGION_1_START) ∈
        eventsSince st (evaluateBankA cfg env true st).state ↔
      (env.xVerifyImageSignature st.flash cfg.CODE_REGION_1_START = ret_code_t.NRF_SUCCESS ∧
        (usImageFlags cfg st.flash cfg.CODE_REGION_1_START = cfg.IMAGE_FLAG_VALID ∨
          usImageFlags cfg st.flash cfg.CODE_REGION_1_START =
            cfg.IMAGE_FLAG_COMMIT_PENDING))) ∧
    ((env.xVerifyImageSignature st.flash cfg.CODE_REGION_1_START = ret_code_t.NRF_SUCCESS ∧
        (usImageFlags cfg st.flash cfg.CODE_REGION_1_START = cfg.IMAGE_FLAG_VALID ∨
          usImageFlags cfg st.flash cfg.CODE_REGION_1_START =
            cfg.IMAGE_FLAG_COMMIT_PENDING)) →
      evaluateBankA cfg env true st =
          vBoot cfg env (ulExecutionAddress cfg st.flash cfg.CODE_REGION_1_START)
            (st.log (Event.xVerifyImageSignature cfg.CODE_REGION_1_START
              ret_code_t.NRF_SUCCESS)) ∧
        (evaluateBankA cfg env true st).terminal ≠ Terminal.blinkForever ∧
        (env.sd_mbr_command = ret_code_t.NRF_SUCCESS →
          env.sd_softdevice_vector_table_base_set cfg.BOOTLOADER_REGION_START =
            ret_code_t.NRF_SUCCESS →
          (evaluateBankA cfg env true st).terminal = Terminal.startApplication
            (ulExecutionAddress cfg st.flash cfg.CODE_REGION_1_START))) ∧
    (¬ (env.xVerifyImageSignature st.flash cfg.CODE_REGION_1_START = ret_code_t.NRF_SUCCESS ∧
        (usImageFlags cfg st.flash cfg.CODE_REGION_1_START = cfg.IMAGE_FLAG_VALID ∨
          usImageFlags cfg st.flash cfg.CODE_REGION_1_START =
            cfg.IMAGE_FLAG_COMMIT_PENDING)) →
      (evaluateBankA cfg env true st).terminal = Terminal.blinkForever ∧
        eventsSince st (evaluateBankA cfg env true st).state =
          [Event.xVerifyImageSignature cfg.CODE_REGION_1_START
              (env.xVerifyImageSignature st.flash cfg.CODE_REGION_1_START),
            Event.vBlinkLeds LedStatus_t.LED_NO_CORRECT_FIRMWARE] ∧
        Event.NVIC_SystemReset ∉ eventsSince st (evaluateBankA cfg env true st).state ∧
        (∀ a, Event.vBoot a ∉ eventsSince st (evaluateBankA cfg env true st).state) ∧
        (∀ a, Event.vStartApplication a ∉
          eventsSince st (evaluateBankA cfg env true st).state)) := by
  by_cases hc : env.xVerifyImageSignature st.flash cfg.CODE_REGION_1_START =
        ret_code_t.NRF_SUCCESS ∧
      (usImageFlags cfg st.flash cfg.CODE_REGION_1_START = cfg.IMAGE_FLAG_VALID ∨
        usImageFlags cfg st.flash cfg.CODE_REGION_1_START = cfg.IMAGE_FLAG_COMMIT_PENDING)
  · have hcond : ¬ (env.xVerifyImageSignature st.flash cfg.CODE_REGION_1_START ≠
          ret_code_t.NRF_SUCCESS ∨
        (usImageFlags cfg st.flash cfg.CODE_REGION_1_START ≠ cfg.IMAGE_FLAG_VALID ∧
          usImageFlags cfg st.flash cfg.CODE_REGION_1_START ≠
            cfg.IMAGE_FLAG_COMMIT_PENDING)) := by
      rcases hc with ⟨h1, h2 | h2⟩ <;> simp [h1, h2]
    have heq : evaluateBankA cfg env true st =
        vBoot cfg env (ulExecutionAddress cfg st.flash cfg.CODE_REGION_1_START)
          (st.log (Event.xVerifyImageSignature cfg.CODE_REGION_1_START
            ret_code_t.NRF_SUCCESS)) := by
      simp only [evaluateBankA, State.log_flash, if_true]
      rw [if_neg hcond, hc.1]
    obtain ⟨tail, ht, _⟩ := vBoot_trace cfg env
      (ulExecutionAddress cfg st.flash cfg.CODE_REGION_1_START)
      (st.log (Event.xVerifyImageSignature cfg.CODE_REGION_1_START ret_code_t.NRF_SUCCESS))
    have hb := vBoot_terminal cfg env
      (ulExecutionAddress cfg st.flash cfg.CODE_REGION_1_START)
      (st.log (Event.xVerifyImageSignature cfg.CODE_REGION_1_START ret_code_t.NRF_SUCCESS))
    refine ⟨?_, ?_, fun h => absurd hc h⟩
    · constructor
      · intro _; exact hc
      · intro _
        rw [heq, eventsSince_append st _ _ (by rw [ht, State.log_trace, List.append_assoc])]
        simp
    · intro _
      refine ⟨heq, ?_, ?_⟩
      · rw [heq]; exact hb.1
      · rw [heq]; exact hb.2
  · have hcond : env.xVerifyImageSignature st.flash cfg.CODE_REGION_1_START ≠
          ret_code_t.NRF_SUCCESS ∨
        (usImageFlags cfg st.flash cfg.CODE_REGION_1_START ≠ cfg.IMAGE_FLAG_VALID ∧
          usImageFlags cfg st.flash cfg.CODE_REGION_1_START ≠
            cfg.IMAGE_FLAG_COMMIT_PENDING) := by
      by_contra hcon
      apply hc
      simp only [not_or, not_and, ne_eq, Decidable.not_not] at hcon
      refine ⟨hcon.1, ?_⟩
      by_cases hv : usImageFlags cfg st.flash cfg.CODE_REGION_1_START = cfg.IMAGE_FLAG_VALID
      · exact Or.inl hv
      · exact Or.inr (hcon.2 hv)
    have heq : evaluateBankA cfg env true st =
        vBlinkLedsNoCorrectFirmware
          (st.log (Event.xVerifyImageSignature cfg.CODE_REGION_1_START
            (env.xVerifyImageSignature st.flash cfg.CODE_REGION_1_START))) := by
      simp only [evaluateBankA, State.log_flash, if_true]
      rw [if_pos hcond]
    have hev : eventsSince st (evaluateBankA cfg env true st).state =
        [Event.xVerifyImageSignature cfg.CODE_REGION_1_START
            (env.xVerifyImageSignature st.flash cfg.CODE_REGION_1_START),
          Event.vBlinkLeds LedStatus_t.LED_NO_CORRECT_FIRMWARE] := by
      rw [heq]
      apply eventsSince_append
      simp [vBlinkLedsNoCorrectFirmware]
    refine ⟨?_, fun h => absurd h hc, ?_⟩
    · constructor
      · intro h
        rw [hev] at h
        simp at h
      · intro h; exact absurd h hc
    · intro _
      refine ⟨by rw [heq]; rfl, hev, ?_, ?_, ?_⟩
      · rw [hev]; simp
      · intro a; rw [hev]; simp
      · intro a; rw [hev]; simp

/-- An instance of `evaluateBankA_valid_header`: a first bank with flags
`COMMIT_PENDING` is started when its signature passes and gives the failure
indication, not a reset, when its signature fails. -/
theorem evaluateBankA_valid_header_witness :
    (evaluateBankA sampleCfg acceptAll true
        (startState (flashWith (some imageAPending) none))).terminal =
      Terminal.startApplication 0x27000 ∧
    (evaluateBankA sampleCfg rejectAll true
        (startState (flashWith (some imageAPending) none))).terminal =
      Terminal.blinkForever :=
  ⟨((evaluateBankA_valid_header sampleCfg acceptAll
      (startState (flashWith (some imageAPending) none))).2.1
      ⟨rfl, Or.inr (by decide)⟩).2.2 rfl rfl,
   ((evaluateBankA_valid_header sampleCfg rejectAll
      (startState (flashWith (some imageAPending) none))).2.2
      (fun h => absurd h.1 (by decide))).1⟩

/-! ## Erasing the descriptor of the second bank -/

theorem vEraseRegion_bank2 (cfg : Config) (hwf : cfg.WellFormed) (st : State) :
    vEraseRegion cfg cfg.CODE_REGION_2_START cfg.DESCRIPTOR_SIZE st =
      some (bank2Erased cfg st) := by
  apply vEraseRegion_eq cfg hwf.page_pos _ _ _ hwf.desc_pos
  have h1 : (cfg.CODE_REGION_2_START + cfg.DESCRIPTOR_SIZE - 1) / cfg.CODE_PAGE_SIZE *
      cfg.CODE_PAGE_SIZE ≤ cfg.CODE_REGION_2_START + cfg.DESCRIPTOR_SIZE - 1 :=
    Nat.div_mul_le_self _ _
  have h2 := hwf.bank2_top
  have h3 := hwf.desc_pos
  rw [Nat.add_mul, Nat.one_mul]
  omega

theorem vEraseSecondBank_eq (cfg : Config) (hwf : cfg.WellFormed) (st : State) :
    vEraseSecondBank cfg st = some (bank2Erased cfg (st.log Event.vEraseSecondBank)) :=
  vEraseRegion_bank2 cfg hwf _

theorem bank2Erased_erased (cfg : Config) (hwf : cfg.WellFormed) (st : State) :
    Erased (bank2Erased cfg st).flash cfg.CODE_REGION_2_START cfg.DESCRIPTOR_SIZE := by
  intro a h1 h2
  exact erasePagesFrom_flash_in cfg _ _ st hwf.desc_pos a h1 h2

theorem bank2Erased_below (cfg : Config) (hwf : cfg.WellFormed) (st : State) (a : Nat)
    (h : a < cfg.CODE_REGION_2_START) : (bank2Erased cfg st).flash a = st.flash a :=
  erasePagesFrom_flash_below cfg _ _ st a
    (div_lt_of_lt_aligned a _ _ hwf.page_pos hwf.bank2_aligned h)

theorem bank2Erased_trace (cfg : Config) (st : State) :
    ∃ tail, (bank2Erased cfg st).trace = st.trace ++ tail ∧
      ∀ e ∈ tail, ∃ a, e = Event.nrf_nvmc_page_erase a := by
  refine ⟨_, erasePagesFrom_trace cfg _ _ st, ?_⟩
  intro e he
  simp only [List.mem_map] at he
  obtain ⟨k, _, rfl⟩ := he
  exact ⟨_, rfl⟩

theorem readLE_bank2Erased_below (cfg : Config) (hwf : cfg.WellFormed) (st : State)
    (a n : Nat) (h : a + n ≤ cfg.CODE_REGION_2_START) :
    readLE (bank2Erased cfg st).flash a n = readLE st.flash a n := by
  apply readLE_congr
  intro i hi
  exact bank2Erased_below cfg hwf st (a + i) (by omega)

theorem mem_trace_erase_evaluate (cfg : Config) (env : Env) (b : Bool) (st : State)
    (e : Event) (he : e ∈ (evaluateBankA cfg env b (bank2Erased cfg st)).state.trace) :
    e ∈ st.trace ∨ (∃ a, e = Event.nrf_nvmc_page_erase a) ∨
      Event.ofBankAEvaluation cfg e = true := by
  obtain ⟨t1, h1, ht1⟩ := evaluateBankA_trace cfg env b (bank2Erased cfg st)
  obtain ⟨t2, h2, ht2⟩ := bank2Erased_trace cfg st
  rw [h1, h2] at he
  simp only [List.mem_append] at he
  rcases he with (he | he) | he
  · exact Or.inl he
  · exact Or.inr (Or.inl (ht2 e he))
  · exact Or.inr (Or.inr (ht1 e he))

theorem evaluateBankA_terminal_congr (cfg : Config) (env : Env) (b : Bool) (st1 st2 : State)
    (hsig : env.xVerifyImageSignature st1.flash cfg.CODE_REGION_1_START =
      env.xVerifyImageSignature st2.flash cfg.CODE_REGION_1_START)
    (hflags : usImageFlags cfg st1.flash cfg.CODE_REGION_1_START =
      usImageFlags cfg st2.flash cfg.CODE_REGION_1_START)
    (hexec : ulExecutionAddress cfg st1.flash cfg.CODE_REGION_1_START =
      ulExecutionAddress cfg st2.flash cfg.CODE_REGION_1_START)
    (hw1 : b = false → readLE st1.flash (cfg.CODE_REGION_1_START + cfg.DESCRIPTOR_SIZE) 4 =
      readLE st2.flash (cfg.CODE_REGION_1_START + cfg.DESCRIPTOR_SIZE) 4)
    (hw0 : b = false → readLE st1.flash cfg.CODE_REGION_1_START 4 =
      readLE st2.flash cfg.CODE_REGION_1_START 4) :
    (evaluateBankA cfg env b st1).terminal = (evaluateBankA cfg env b st2).terminal := by
  have hboot : ∀ (address : Nat) (s1 s2 : State),
      (vBoot cfg env address s1).terminal = (vBoot cfg env address s2).terminal := by
    intro address s1 s2
    simp only [vBoot, vDisableInterrupts, app_error_handler, on_error, NVIC_SystemReset,
      vStartApplication]
    split_ifs <;> rfl
  cases b
  · have h1 := hw1 rfl
    have h0 := hw0 rfl
    simp only [evaluateBankA, h1, h0]
    split_ifs <;> first | rfl | exact hboot _ _ _ | contradiction
  · simp only [evaluateBankA, State.log_flash, hsig, hflags, hexec]
    split_ifs <;> first | rfl | exact hboot _ _ _

theorem bank1_member_below_bank2 (cfg : Config) (hwf : cfg.WellFormed) (off size : Nat)
    (h : off + size ≤ cfg.sizeof_ImageDescriptor_t) :
    cfg.CODE_REGION_1_START + off + size ≤ cfg.CODE_REGION_2_START := by
  have h1 := hwf.banks
  have h2 := hwf.sizeof_le
  omega

/-- Erasing the descriptor of the second bank does not change what the evaluation of a
first bank with a valid header reads: if the verifier gives the same verdict on the
first bank, the terminal action is the same as without the erase. -/
theorem evaluateBankA_after_erase (cfg : Config) (env : Env) (hwf : cfg.WellFormed)
    (st st0 : State) (hf : st.flash = st0.flash)
    (hsig : env.xVerifyImageSignature (bank2Erased cfg st).flash cfg.CODE_REGION_1_START =
      env.xVerifyImageSignature st0.flash cfg.CODE_REGION_1_START) :
    (evaluateBankA cfg env true (bank2Erased cfg st)).terminal =
      (evaluateBankA cfg env true st0).terminal := by
  apply evaluateBankA_terminal_congr cfg env true _ _ hsig
  · simp only [usImageFlags]
    rw [readLE_bank2Erased_below cfg hwf st _ _
      (bank1_member_below_bank2 cfg hwf _ _ hwf.flags_in), hf]
  · simp only [ulExecutionAddress]
    rw [readLE_bank2Erased_below cfg hwf st _ _
      (bank1_member_below_bank2 cfg hwf _ _ hwf.exec_in), hf]
  · intro h; cases h
  · intro h; cases h

/-! ## The boot decision: paths that erase the second bank and evaluate the first -/

theorem main_eq_evaluateBankB (cfg : Config) (env : Env) (f : Flash)
    (hB : bValidateHeader cfg f cfg.CODE_REGION_2_START = ret_code_t.NRF_SUCCESS) :
    main cfg env f = evaluateBankB cfg env
      (decide (bValidateHeader cfg f cfg.CODE_REGION_1_START = ret_code_t.NRF_SUCCESS))
      (startState f) := by
  simp [main, hB]

theorem startState_flash (f : Flash) : (startState f).flash = f := rfl

theorem startState_trace (f : Flash) :
    (startState f).trace = [Event.vBlinkLeds LedStatus_t.LED_BOOT, Event.xCryptoInit] := rfl

theorem bank1_below_bank2 (cfg : Config) (hwf : cfg.WellFormed) :
    cfg.CODE_REGION_1_START < cfg.CODE_REGION_2_START := by
  have h1 := hwf.banks
  have h2 := hwf.desc_pos
  omega

/-- The facts shared by every path of `main` that erases the descriptor of the second
bank from a state `st` that follows the start state without a flash change and then
evaluates the first bank: the outcome, the flash at the terminal action, and the
events that cannot occur when they have not occurred up to `st`. -/
theorem erase_then_evaluate (cfg : Config) (env : Env) (hwf : cfg.WellFormed) (f : Flash)
    (b : Bool) (st : State) (hf : st.flash = f) :
    Erased (bank2Erased cfg st).flash cfg.CODE_REGION_2_START cfg.DESCRIPTOR_SIZE ∧
    (∀ a, a < cfg.CODE_REGION_2_START → (bank2Erased cfg st).flash a = f a) ∧
    (evaluateBankA cfg env b (bank2Erased cfg st)).state.flash = (bank2Erased cfg st).flash ∧
    (Event.vCommitSecondBank ∉ st.trace →
      Event.vCommitSecondBank ∉ (evaluateBankA cfg env b (bank2Erased cfg st)).state.trace) ∧
    ((∀ a n, Event.nrf_nvmc_write_bytes a n ∉ st.trace) →
      ∀ a n, Event.nrf_nvmc_write_bytes a n ∉
        (evaluateBankA cfg env b (bank2Erased cfg st)).state.trace) ∧
    ((∀ r, Event.xVerifyImageSignature cfg.CODE_REGION_2_START r ∉ st.trace) →
      ∀ r, Event.xVerifyImageSignature cfg.CODE_REGION_2_START r ∉
        (evaluateBankA cfg env b (bank2Erased cfg st)).state.trace) := by
  have hne : cfg.CODE_REGION_2_START ≠ cfg.CODE_REGION_1_START :=
    Nat.ne_of_gt (bank1_below_bank2 cfg hwf)
  refine ⟨bank2Erased_erased cfg hwf st, ?_, evaluateBankA_flash _ _ _ _, ?_, ?_, ?_⟩
  · intro a ha
    rw [bank2Erased_below cfg hwf st a ha, hf]
  · intro h hmem
    rcases mem_trace_erase_evaluate cfg env b st _ hmem with h1 | ⟨a, h1⟩ | h1
    · exact h h1
    · cases h1
    · simp [Event.ofBankAEvaluation] at h1
  · intro h a n hmem
    rcases mem_trace_erase_evaluate cfg env b st _ hmem with h1 | ⟨a, h1⟩ | h1
    · exact h a n h1
    · cases h1
    · simp [Event.ofBankAEvaluation] at h1
  · intro h r hmem
    rcases mem_trace_erase_evaluate cfg env b st _ hmem with h1 | ⟨a, h1⟩ | h1
    · exact h r h1
    · cases h1
    · simp [Event.ofBankAEvaluation, hne] at h1

theorem evaluateBankB_stale (cfg : Config) (env : Env) (hwf : cfg.WellFormed) (st : State)
    (hseq : ulSequenceNumber cfg st.flash cfg.CODE_REGION_1_START >
      ulSequenceNumber cfg st.flash cfg.CODE_REGION_2_START) :
    evaluateBankB cfg env true st =
      some (evaluateBankA cfg env true (bank2Erased cfg (st.log Event.vEraseSecondBank))) := by
  unfold evaluateBankB
  rw [if_pos ⟨rfl, hseq⟩, vEraseSecondBank_eq cfg hwf]
  rfl

theorem evaluateBankB_signature_fails (cfg : Config) (env : Env) (hwf : cfg.WellFormed)
    (b : Bool) (st : State)
    (hfresh : ¬ (b = true ∧ ulSequenceNumber cfg st.flash cfg.CODE_REGION_1_START >
      ulSequenceNumber cfg st.flash cfg.CODE_REGION_2_START))
    (hsig : env.xVerifyImageSignature st.flash cfg.CODE_REGION_2_START ≠
      ret_code_t.NRF_SUCCESS) :
    evaluateBankB cfg env b st =
      some (evaluateBankA cfg env b (bank2Erased cfg
        (st.log (Event.xVerifyImageSignature cfg.CODE_REGION_2_START
          (env.xVerifyImageSignature st.flash cfg.CODE_REGION_2_START))))) := by
  simp only [evaluateBankB]
  rw [if_neg hfresh, if_pos hsig, vEraseRegion_bank2 cfg hwf]
  rfl

theorem evaluateBankB_flags_rejected (cfg : Config) (env : Env) (hwf : cfg.WellFormed)
    (b : Bool) (st : State)
    (hfresh : ¬ (b = true ∧ ulSequenceNumber cfg st.flash cfg.CODE_REGION_1_START >
      ulSequenceNumber cfg st.flash cfg.CODE_REGION_2_START))
    (hsig : env.xVerifyImageSignature st.flash cfg.CODE_REGION_2_START =
      ret_code_t.NRF_SUCCESS)
    (hflags : usImageFlags cfg st.flash cfg.CODE_REGION_2_START = cfg.IMAGE_FLAG_INVALID ∨
      usImageFlags cfg st.flash cfg.CODE_REGION_2_START = cfg.IMAGE_FLAG_COMMIT_PENDING) :
    evaluateBankB cfg env b st =
      some (evaluateBankA cfg env b (bank2Erased cfg
        ((st.log (Event.xVerifyImageSignature cfg.CODE_REGION_2_START
          ret_code_t.NRF_SUCCESS)).log Event.vEraseSecondBank))) := by
  have hnew : ¬ (usImageFlags cfg st.flash cfg.CODE_REGION_2_START = cfg.IMAGE_FLAG_NEW ∨
      usImageFlags cfg st.flash cfg.CODE_REGION_2_START = cfg.IMAGE_FLAG_VALID) := by
    have h1 := hwf.new_ne_invalid
    have h2 := hwf.new_ne_pending
    have h3 := hwf.valid_ne_invalid
    have h4 := hwf.valid_ne_pending
    rcases hflags with h | h <;> rw [h] <;> intro hc <;> rcases hc with hc | hc
    · exact h1 hc.symm
    · exact h3 hc.symm
    · exact h2 hc.symm
    · exact h4 hc.symm
  simp only [evaluateBankB, State.log_flash]
  rw [if_neg hfresh, if_neg (by simpa using hsig), if_neg hnew, hsig]
  rcases hflags with h | h
  · rw [if_pos h, vEraseSecondBank_eq cfg hwf]; rfl
  · rw [if_neg (by rw [h]; exact fun hc => hwf.invalid_ne_pending hc.symm), if_pos h,
      vEraseSecondBank_eq cfg hwf]
    rfl

/-- The facts about a run of `main` in which both headers are valid and the first bank
has the greater sequence number. -/
theorem main_stale (cfg : Config) (env : Env) (f : Flash) (hwf : cfg.WellFormed)
    (hA : bValidateHeader cfg f cfg.CODE_REGION_1_START = ret_code_t.NRF_SUCCESS)
    (hB : bValidateHeader cfg f cfg.CODE_REGION_2_START = ret_code_t.NRF_SUCCESS)
    (hseq : ulSequenceNumber cfg f cfg.CODE_REGION_1_START >
      ulSequenceNumber cfg f cfg.CODE_REGION_2_START) :
    vEraseSecondBank cfg (startState f) =
      some (bank2Erased cfg ((startState f).log Event.vEraseSecondBank)) ∧
    main cfg env f = some (evaluateBankA cfg env true
      (bank2Erased cfg ((startState f).log Event.vEraseSecondBank))) := by
  refine ⟨vEraseSecondBank_eq cfg hwf _, ?_⟩
  rw [main_eq_evaluateBankB cfg env f hB]
  simp only [hA, decide_True]
  exact evaluateBankB_stale cfg env hwf (startState f) hseq

/-- C3: when both headers are valid and the first bank has the greater sequence number,
`main` erases the descriptor of the second bank (`vEraseSecondBank` returns a state
whose second-bank descriptor area is all `0xFF`) and then runs the evaluation of the
first bank, whose terminal action is the terminal action of `main`. Every byte below
`CODE_REGION_2_START` is unchanged at the erase and at the terminal action, the trace
holds no signature check of the second bank, no `vCommitSecondBank` and no flash
write, and when the verifier's verdict on the first bank is not affected by the erase
the terminal action is the one the evaluation of the first bank yields on the flash
found at power-on. -/
theorem main_stale_second_bank (cfg : Config) (env : Env) (f : Flash) (hwf : cfg.WellFormed)
    (hA : bValidateHeader cfg f cfg.CODE_REGION_1_START = ret_code_t.NRF_SUCCESS)
    (hB : bValidateHeader cfg f cfg.CODE_REGION_2_START = ret_code_t.NRF_SUCCESS)
    (hseq : ulSequenceNumber cfg f cfg.CODE_REGION_1_START >
      ulSequenceNumber cfg f cfg.CODE_REGION_2_START) :
    ∃ st, vEraseSecondBank cfg (startState f) = some st ∧
      main cfg env f = some (evaluateBankA cfg env true st) ∧
      Erased st.flash cfg.CODE_REGION_2_START cfg.DESCRIPTOR_SIZE ∧
      (∀ a, a < cfg.CODE_REGION_2_START → st.flash a = f a) ∧
      (evaluateBankA cfg env true st).state.flash = st.flash ∧
      (∀ r, Event.xVerifyImageSignature cfg.CODE_REGION_2_START r ∉
        (evaluateBankA cfg env true st).state.trace) ∧
      Event.vCommitSecondBank ∉ (evaluateBankA cfg env true st).state.trace ∧
      (∀ a n, Event.nrf_nvmc_write_bytes a n ∉ (evaluateBankA cfg env true st).state.trace) ∧
      (env.xVerifyImageSignature st.flash cfg.CODE_REGION_1_START =
          env.xVerifyImageSignature f cfg.CODE_REGION_1_START →
        (evaluateBankA cfg env true st).terminal =
          (evaluateBankA cfg env true (startState f)).terminal) := by
  obtain ⟨h1, h2⟩ := main_stale cfg env f hwf hA hB hseq
  obtain ⟨e1, e2, e3, e4, e5, e6⟩ := erase_then_evaluate cfg env hwf f true
    ((startState f).log Event.vEraseSecondBank) rfl
  refine ⟨_, h1, h2, e1, e2, e3, e6 ?_, e4 ?_, e5 ?_, ?_⟩
  · intro r; simp [startState]
  · simp [startState]
  · intro a n; simp [startState]
  · intro hsig
    exact evaluateBankA_after_erase cfg env hwf _ (startState f) rfl hsig

/-- An instance of `main_stale_second_bank`: a staged image with sequence number 2
under a first bank with sequence number 3. -/
theorem main_stale_second_bank_witness :
    sampleCfg.WellFormed ∧
    bValidateHeader sampleCfg (flashWith (some imageA) (some stagedStale))
      sampleCfg.CODE_REGION_1_START = ret_code_t.NRF_SUCCESS ∧
    bValidateHeader sampleCfg (flashWith (some imageA) (some stagedStale))
      sampleCfg.CODE_REGION_2_START = ret_code_t.NRF_SUCCESS ∧
    ulSequenceNumber sampleCfg (flashWith (some imageA) (some stagedStale))
        sampleCfg.CODE_REGION_1_START >
      ulSequenceNumber sampleCfg (flashWith (some imageA) (some stagedStale))
        sampleCfg.CODE_REGION_2_START ∧
    ∃ st, main sampleCfg acceptAll (flashWith (some imageA) (some stagedStale)) =
        some (evaluateBankA sampleCfg acceptAll true st) ∧
      Erased st.flash sampleCfg.CODE_REGION_2_START sampleCfg.DESCRIPTOR_SIZE ∧
      (evaluateBankA sampleCfg acceptAll true st).terminal = Terminal.startApplication 0x27000 := by
  refine ⟨sampleCfg_wellFormed, by decide, by decide, by decide, ?_⟩
  obtain ⟨st, _, h2, h3, _, _, _, _, _, h9⟩ :=
    main_stale_second_bank sampleCfg acceptAll (flashWith (some imageA) (some stagedStale))
      sampleCfg_wellFormed (by decide) (by decide) (by decide)
  exact ⟨st, h2, h3, by rw [h9 rfl]; decide⟩

/-- C2 (amended): when both headers are valid and the sequence number of the first bank
is strictly greater than that of the second, `main` returns from the erase of the
second bank's descriptor, that descriptor area is all `0xFF` at the terminal action,
and `vCommitSecondBank` is never run, whatever the verifier would answer. -/
theorem main_older_second_bank_never_committed (cfg : Config) (env : Env) (f : Flash)
    (hwf : cfg.WellFormed)
    (hA : bValidateHeader cfg f cfg.CODE_REGION_1_START = ret_code_t.NRF_SUCCESS)
    (hB : bValidateHeader cfg f cfg.CODE_REGION_2_START = ret_code_t.NRF_SUCCESS)
    (hseq : ulSequenceNumber cfg f cfg.CODE_REGION_1_START >
      ulSequenceNumber cfg f cfg.CODE_REGION_2_START) :
    ∃ o, main cfg env f = some o ∧
      Erased o.state.flash cfg.CODE_REGION_2_START cfg.DESCRIPTOR_SIZE ∧
      Event.vEraseSecondBank ∈ o.state.trace ∧
      Event.vCommitSecondBank ∉ o.state.trace := by
  obtain ⟨_, h2⟩ := main_stale cfg env f hwf hA hB hseq
  obtain ⟨e1, _, e3, e4, _, _⟩ := erase_then_evaluate cfg env hwf f true
    ((startState f).log Event.vEraseSecondBank) rfl
  obtain ⟨t1, ht1, _⟩ := evaluateBankA_trace cfg env true
    (bank2Erased cfg ((startState f).log Event.vEraseSecondBank))
  obtain ⟨t2, ht2, _⟩ := bank2Erased_trace cfg ((startState f).log Event.vEraseSecondBank)
  refine ⟨_, h2, by rw [e3]; exact e1, ?_, e4 (by simp [startState])⟩
  rw [ht1, ht2]
  simp [startState]

/-- An instance of `main_older_second_bank_never_committed` with a verifier that accepts
the stale staged image. -/
theorem main_older_second_bank_never_committed_witness :
    sampleCfg.WellFormed ∧
    bValidateHeader sampleCfg (flashWith (some imageA) (some stagedStale))
      sampleCfg.CODE_REGION_1_START = ret_code_t.NRF_SUCCESS ∧
    bValidateHeader sampleCfg (flashWith (some imageA) (some stagedStale))
      sampleCfg.CODE_REGION_2_START = ret_code_t.NRF_SUCCESS ∧
    ulSequenceNumber sampleCfg (flashWith (some imageA) (some stagedStale))
        sampleCfg.CODE_REGION_1_START >
      ulSequenceNumber sampleCfg (flashWith (some imageA) (some stagedStale))
        sampleCfg.CODE_REGION_2_START ∧
    ∃ o, main sampleCfg acceptAll (flashWith (some imageA) (some stagedStale)) = some o ∧
      Erased o.state.flash sampleCfg.CODE_REGION_2_START sampleCfg.DESCRIPTOR_SIZE ∧
      Event.vEraseSecondBank ∈ o.state.trace ∧
      Event.vCommitSecondBank ∉ o.state.trace :=
  ⟨sampleCfg_wellFormed, by decide, by decide, by decide,
    main_older_second_bank_never_committed sampleCfg acceptAll
      (flashWith (some imageA) (some stagedStale)) sampleCfg_wellFormed
      (by decide) (by decide) (by decide)⟩

/-- C2 (as stated) fails at equality: both headers are valid, both sequence numbers are
3, the staged image is `NEW` and the verifier accepts it; `main` runs
`vCommitSecondBank`. -/
theorem main_equal_sequence_commits :
    (bValidateHeader sampleCfg (flashWith (some imageA) (some stagedSameSeq))
        sampleCfg.CODE_REGION_1_START = ret_code_t.NRF_SUCCESS ∧
      bValidateHeader sampleCfg (flashWith (some imageA) (some stagedSameSeq))
        sampleCfg.CODE_REGION_2_START = ret_code_t.NRF_SUCCESS ∧
      ulSequenceNumber sampleCfg (flashWith (some imageA) (some stagedSameSeq))
          sampleCfg.CODE_REGION_1_START ≥
        ulSequenceNumber sampleCfg (flashWith (some imageA) (some stagedSameSeq))
          sampleCfg.CODE_REGION_2_START) ∧
    (main sampleCfg acceptAll (flashWith (some imageA) (some stagedSameSeq))).map
        (fun o => decide (Event.vCommitSecondBank ∈ o.state.trace)) = some true := by
  decide

/-- C9: when the header of the second bank is valid, the second bank is not stale and
its signature check fails, `main` returns from the erase of the second bank's
descriptor area, which is then all `0xFF`, and goes on with the evaluation of the
first bank, whose terminal action is the terminal action of `main`. Up to that
evaluation the only events are the start of `main`, the failed check and page erases
(no reset, no failure indication); the trace of the whole run holds no
`vCommitSecondBank` and no flash write, every byte below `CODE_REGION_2_START` is
unchanged, and when the header of the first bank is valid and the verifier's verdict
on it is not affected by the erase, the terminal action is the one the evaluation of
the first bank yields on the flash found at power-on. -/
theorem main_second_bank_signature_fails (cfg : Config) (env : Env) (f : Flash)
    (hwf : cfg.WellFormed)
    (hB : bValidateHeader cfg f cfg.CODE_REGION_2_START = ret_code_t.NRF_SUCCESS)
    (hfresh : ¬ (bValidateHeader cfg f cfg.CODE_REGION_1_START = ret_code_t.NRF_SUCCESS ∧
      ulSequenceNumber cfg f cfg.CODE_REGION_1_START >
        ulSequenceNumber cfg f cfg.CODE_REGION_2_START))
    (hsig : env.xVerifyImageSignature f cfg.CODE_REGION_2_START ≠ ret_code_t.NRF_SUCCESS) :
    ∃ st tail,
      vEraseRegion cfg cfg.CODE_REGION_2_START cfg.DESCRIPTOR_SIZE
        ((startState f).log (Event.xVerifyImageSignature cfg.CODE_REGION_2_START
          (env.xVerifyImageSignature f cfg.CODE_REGION_2_START))) = some st ∧
      main cfg env f = some (evaluateBankA cfg env
        (decide (bValidateHeader cfg f cfg.CODE_REGION_1_START = ret_code_t.NRF_SUCCESS))
        st) ∧
      Erased st.flash cfg.CODE_REGION_2_START cfg.DESCRIPTOR_SIZE ∧
      (∀ a, a < cfg.CODE_REGION_2_START → st.flash a = f a) ∧
      st.trace = [Event.vBlinkLeds LedStatus_t.LED_BOOT, Event.xCryptoInit,
        Event.xVerifyImageSignature cfg.CODE_REGION_2_START
          (env.xVerifyImageSignature f cfg.CODE_REGION_2_START)] ++ tail ∧
      (∀ e ∈ tail, ∃ a, e = Event.nrf_nvmc_page_erase a) ∧
      (evaluateBankA cfg env
        (decide (bValidateHeader cfg f cfg.CODE_REGION_1_START = ret_code_t.NRF_SUCCESS))
        st).state.flash = st.flash ∧
      Event.vCommitSecondBank ∉ (evaluateBankA cfg env
        (decide (bValidateHeader cfg f cfg.CODE_REGION_1_START = ret_code_t.NRF_SUCCESS))
        st).state.trace ∧
      (∀ a n, Event.nrf_nvmc_write_bytes a n ∉ (evaluateBankA cfg env
        (decide (bValidateHeader cfg f cfg.CODE_REGION_1_START = ret_code_t.NRF_SUCCESS))
        st).state.trace) ∧
      (bValidateHeader cfg f cfg.CODE_REGION_1_START = ret_code_t.NRF_SUCCESS →
        env.xVerifyImageSignature st.flash cfg.CODE_REGION_1_START =
          env.xVerifyImageSignature f cfg.CODE_REGION_1_START →
        (evaluateBankA cfg env true st).terminal =
          (evaluateBankA cfg env true (startState f)).terminal) := by
  have hmain : main cfg env f = some (evaluateBankA cfg env
      (decide (bValidateHeader cfg f cfg.CODE_REGION_1_START = ret_code_t.NRF_SUCCESS))
      (bank2Erased cfg ((startState f).log
        (Event.xVerifyImageSignature cfg.CODE_REGION_2_START
          (env.xVerifyImageSignature f cfg.CODE_REGION_2_START))))) := by
    rw [main_eq_evaluateBankB cfg env f hB]
    exact evaluateBankB_signature_fails cfg env hwf _ (startState f)
      (by simpa [startState_flash] using hfresh) hsig
  obtain ⟨e1, e2, e3, e4, e5, _⟩ := erase_then_evaluate cfg env hwf f
    (decide (bValidateHeader cfg f cfg.CODE_REGION_1_START = ret_code_t.NRF_SUCCESS))
    ((startState f).log (Event.xVerifyImageSignature cfg.CODE_REGION_2_START
      (env.xVerifyImageSignature f cfg.CODE_REGION_2_START))) rfl
  obtain ⟨tail, ht, htail⟩ := bank2Erased_trace cfg
    ((startState f).log (Event.xVerifyImageSignature cfg.CODE_REGION_2_START
      (env.xVerifyImageSignature f cfg.CODE_REGION_2_START)))
  refine ⟨_, tail, vEraseRegion_bank2 cfg hwf _, hmain, e1, e2, ?_, htail, e3, e4 ?_, e5 ?_, ?_⟩
  · rw [ht]; rfl
  · simp [startState]
  · intro a n; simp [startState]
  · intro _ hs
    exact evaluateBankA_after_erase cfg env hwf _ (startState f) rfl hs

/-- An instance of `main_second_bank_signature_fails`: a newer staged image that the
verifier rejects. -/
theorem main_second_bank_signature_fails_witness :
    sampleCfg.WellFormed ∧
    bValidateHeader sampleCfg (flashWith (some imageA) (some stagedNew))
      sampleCfg.CODE_REGION_2_START = ret_code_t.NRF_SUCCESS ∧
    ¬ (bValidateHeader sampleCfg (flashWith (some imageA) (some stagedNew))
        sampleCfg.CODE_REGION_1_START = ret_code_t.NRF_SUCCESS ∧
      ulSequenceNumber sampleCfg (flashWith (some imageA) (some stagedNew))
          sampleCfg.CODE_REGION_1_START >
        ulSequenceNumber sampleCfg (flashWith (some imageA) (some stagedNew))
          sampleCfg.CODE_REGION_2_START) ∧
    rejectAll.xVerifyImageSignature (flashWith (some imageA) (some stagedNew))
      sampleCfg.CODE_REGION_2_START ≠ ret_code_t.NRF_SUCCESS ∧
    ∃ st, main sampleCfg rejectAll (flashWith (some imageA) (some stagedNew)) =
        some (evaluateBankA sampleCfg rejectAll true st) ∧
      Erased st.flash sampleCfg.CODE_REGION_2_START sampleCfg.DESCRIPTOR_SIZE ∧
      Event.vCommitSecondBank ∉ (evaluateBankA sampleCfg rejectAll true st).state.trace := by
  refine ⟨sampleCfg_wellFormed, by decide, by decide, by decide, ?_⟩
  obtain ⟨st, _, _, h2, h3, _, _, _, _, h8, _⟩ :=
    main_second_bank_signature_fails sampleCfg rejectAll
      (flashWith (some imageA) (some stagedNew)) sampleCfg_wellFormed
      (by decide) (by decide) (by decide)
  exact ⟨st, h2, h3, h8⟩

/-- C10: when the header of the second bank is valid and its flags are `INVALID` or
`COMMIT_PENDING`, `main` goes on with the evaluation of the first bank from a state in
which the descriptor area of the second bank is all `0xFF`, and the trace of the whole
run holds no `vCommitSecondBank`, whatever the verifier answers. -/
theorem main_second_bank_flags_rejected (cfg : Config) (env : Env) (f : Flash)
    (hwf : cfg.WellFormed)
    (hB : bValidateHeader cfg f cfg.CODE_REGION_2_START = ret_code_t.NRF_SUCCESS)
    (hflags : usImageFlags cfg f cfg.CODE_REGION_2_START = cfg.IMAGE_FLAG_INVALID ∨
      usImageFlags cfg f cfg.CODE_REGION_2_START = cfg.IMAGE_FLAG_COMMIT_PENDING) :
    ∃ st, main cfg env f = some (evaluateBankA cfg env
        (decide (bValidateHeader cfg f cfg.CODE_REGION_1_START = ret_code_t.NRF_SUCCESS))
        st) ∧
      Erased st.flash cfg.CODE_REGION_2_START cfg.DESCRIPTOR_SIZE ∧
      Event.vCommitSecondBank ∉ st.trace ∧
      Event.vCommitSecondBank ∉ (evaluateBankA cfg env
        (decide (bValidateHeader cfg f cfg.CODE_REGION_1_START = ret_code_t.NRF_SUCCESS))
        st).state.trace ∧
      Erased (evaluateBankA cfg env
        (decide (bValidateHeader cfg f cfg.CODE_REGION_1_START = ret_code_t.NRF_SUCCESS))
        st).state.flash cfg.CODE_REGION_2_START cfg.DESCRIPTOR_SIZE := by
  have hnot : ∀ st0 : State, Event.vCommitSecondBank ∉ st0.trace →
      Event.vCommitSecondBank ∉ (bank2Erased cfg st0).trace := by
    intro st0 h0 hmem
    obtain ⟨tail, ht, htail⟩ := bank2Erased_trace cfg st0
    rw [ht, List.mem_append] at hmem
    rcases hmem with h | h
    · exact h0 h
    · obtain ⟨a, ha⟩ := htail _ h
      cases ha
  rw [main_eq_evaluateBankB cfg env f hB]
  have hfin : ∀ (b : Bool) (st0 : State), st0.flash = f →
      Event.vCommitSecondBank ∉ st0.trace →
      evaluateBankB cfg env b (startState f) =
        some (evaluateBankA cfg env b (bank2Erased cfg st0)) →
      ∃ st, evaluateBankB cfg env b (startState f) = some (evaluateBankA cfg env b st) ∧
        Erased st.flash cfg.CODE_REGION_2_START cfg.DESCRIPTOR_SIZE ∧
        Event.vCommitSecondBank ∉ st.trace ∧
        Event.vCommitSecondBank ∉ (evaluateBankA cfg env b st).state.trace ∧
        Erased (evaluateBankA cfg env b st).state.flash
          cfg.CODE_REGION_2_START cfg.DESCRIPTOR_SIZE := by
    intro b st0 hf h0 hmain
    obtain ⟨e1, _, e3, e4, _, _⟩ := erase_then_evaluate cfg env hwf f b st0 hf
    exact ⟨_, hmain, e1, hnot st0 h0, e4 h0, by rw [e3]; exact e1⟩
  by_cases hstale : bValidateHeader cfg f cfg.CODE_REGION_1_START = ret_code_t.NRF_SUCCESS ∧
      ulSequenceNumber cfg f cfg.CODE_REGION_1_START >
        ulSequenceNumber cfg f cfg.CODE_REGION_2_START
  · simp only [hstale.1, decide_True]
    exact hfin true ((startState f).log Event.vEraseSecondBank) rfl (by simp [startState])
      (evaluateBankB_stale cfg env hwf (startState f) hstale.2)
  · have hfresh : ¬ (decide (bValidateHeader cfg f cfg.CODE_REGION_1_START =
          ret_code_t.NRF_SUCCESS) = true ∧
        ulSequenceNumber cfg (startState f).flash cfg.CODE_REGION_1_START >
          ulSequenceNumber cfg (startState f).flash cfg.CODE_REGION_2_START) := by
      simpa [startState_flash] using hstale
    by_cases hsig : env.xVerifyImageSignature f cfg.CODE_REGION_2_START =
        ret_code_t.NRF_SUCCESS
    · exact hfin _ (((startState f).log (Event.xVerifyImageSignature
        cfg.CODE_REGION_2_START ret_code_t.NRF_SUCCESS)).log Event.vEraseSecondBank) rfl
        (by simp [startState])
        (evaluateBankB_flags_rejected cfg env hwf _ (startState f) hfresh hsig hflags)
    · exact hfin _ ((startState f).log (Event.xVerifyImageSignature
        cfg.CODE_REGION_2_START (env.xVerifyImageSignature f cfg.CODE_REGION_2_START))) rfl
        (by simp [startState])
        (evaluateBankB_signature_fails cfg env hwf _ (startState f) hfresh hsig)

/-- An instance of `main_second_bank_flags_rejected`: a newer staged image with flags
`INVALID` and a verifier that accepts it. -/
theorem main_second_bank_flags_rejected_witness :
    sampleCfg.WellFormed ∧
    bValidateHeader sampleCfg (flashWith (some imageA) (some stagedInvalid))
      sampleCfg.CODE_REGION_2_START = ret_code_t.NRF_SUCCESS ∧
    (usImageFlags sampleCfg (flashWith (some imageA) (some stagedInvalid))
        sampleCfg.CODE_REGION_2_START = sampleCfg.IMAGE_FLAG_INVALID ∨
      usImageFlags sampleCfg (flashWith (some imageA) (some stagedInvalid))
        sampleCfg.CODE_REGION_2_START = sampleCfg.IMAGE_FLAG_COMMIT_PENDING) ∧
    ∃ st, main sampleCfg acceptAll (flashWith (some imageA) (some stagedInvalid)) =
        some (evaluateBankA sampleCfg acceptAll true st) ∧
      Erased st.flash sampleCfg.CODE_REGION_2_START sampleCfg.DESCRIPTOR_SIZE ∧
      Event.vCommitSecondBank ∉ (evaluateBankA sampleCfg acceptAll true st).state.trace := by
  refine ⟨sampleCfg_wellFormed, by decide, by decide, ?_⟩
  obtain ⟨st, h1, h2, _, h4, _⟩ :=
    main_second_bank_flags_rejected sampleCfg acceptAll
      (flashWith (some imageA) (some stagedInvalid)) sampleCfg_wellFormed
      (by decide) (by decide)
  exact ⟨st, h1, h2, h4⟩

/-! ## Writes and the commit -/

theorem write_flash_erased (env : Env) (hprog : env.ProgramsErased) (address n : Nat)
    (src : Buffer) (st : State) (hE : Erased st.flash address n) (i : Nat) (hi : i < n) :
    (nrf_nvmc_write_bytes env address src n st).flash (address + i) = src i := by
  simp only [nrf_nvmc_write_bytes]
  rw [if_pos ⟨by omega, by omega⟩, hE (address + i) (by omega) (by omega), hprog,
    Nat.add_sub_cancel_left]

theorem write_flash_other (env : Env) (address n : Nat) (src : Buffer) (st : State)
    (a : Nat) (h : a < address ∨ address + n ≤ a) :
    (nrf_nvmc_write_bytes env address src n st).flash a = st.flash a := by
  simp only [nrf_nvmc_write_bytes]
  rw [if_neg (by omega)]

theorem write_trace (env : Env) (address n : Nat) (src : Buffer) (st : State) :
    (nrf_nvmc_write_bytes env address src n st).trace =
      st.trace ++ [Event.nrf_nvmc_write_bytes address n] := rfl

theorem bank2_eq_div_mul (cfg : Config) (hwf : cfg.WellFormed) :
    cfg.CODE_REGION_2_START / cfg.CODE_PAGE_SIZE * cfg.CODE_PAGE_SIZE =
      cfg.CODE_REGION_2_START := by
  have h := sub_mod_eq_div_mul cfg.CODE_REGION_2_START cfg.CODE_PAGE_SIZE
  rw [hwf.bank2_aligned, Nat.sub_zero] at h
  exact h.symm

/-- An erase of a range that ends at or below the start of the second bank returns,
leaves the range erased and does not touch the second bank. -/
theorem vEraseRegion_below_bank2 (cfg : Config) (hwf : cfg.WellFormed)
    (address length : Nat) (st : State) (hlen : 0 < length)
    (hle : address + length ≤ cfg.CODE_REGION_2_START) :
    ∃ st', vEraseRegion cfg address length st = some st' ∧
      Erased st'.flash address length ∧
      (∀ a, cfg.CODE_REGION_2_START ≤ a → st'.flash a = st.flash a) ∧
      ∃ tail, st'.trace = st.trace ++ tail ∧
        ∀ e ∈ tail, ∃ a, e = Event.nrf_nvmc_page_erase a := by
  have hq : (address + length - 1) / cfg.CODE_PAGE_SIZE <
      cfg.CODE_REGION_2_START / cfg.CODE_PAGE_SIZE :=
    div_lt_of_lt_aligned _ _ _ hwf.page_pos hwf.bank2_aligned (by omega)
  have hq0 : address / cfg.CODE_PAGE_SIZE ≤ (address + length - 1) / cfg.CODE_PAGE_SIZE :=
    Nat.div_le_div_right (by omega)
  have hmul : ((address + length - 1) / cfg.CODE_PAGE_SIZE + 1) * cfg.CODE_PAGE_SIZE ≤
      cfg.CODE_REGION_2_START := by
    have := Nat.mul_le_mul_right cfg.CODE_PAGE_SIZE (Nat.succ_le_of_lt hq)
    rwa [bank2_eq_div_mul cfg hwf] at this
  have htop : ((address + length - 1) / cfg.CODE_PAGE_SIZE + 1) * cfg.CODE_PAGE_SIZE <
      4294967296 := by
    have h1 := hwf.bank2_top
    have h2 := hwf.page_pos
    have h3 := hwf.desc_pos
    omega
  refine ⟨_, vEraseRegion_eq cfg hwf.page_pos address length st hlen htop, ?_, ?_, ?_⟩
  · intro a h1 h2
    exact erasePagesFrom_flash_in cfg address length st hlen a h1 h2
  · intro a ha
    apply erasePagesFrom_flash_above
    have h1 : cfg.CODE_REGION_2_START / cfg.CODE_PAGE_SIZE ≤ a / cfg.CODE_PAGE_SIZE :=
      Nat.div_le_div_right ha
    simp only [pagesOverlapping]
    omega
  · refine ⟨_, erasePagesFrom_trace cfg _ _ st, ?_⟩
    intro e he
    simp only [List.mem_map] at he
    obtain ⟨k, _, rfl⟩ := he
    exact ⟨_, rfl⟩

theorem bank2ImageLength_congr (cfg : Config) (f g : Flash)
    (h : ∀ a, cfg.CODE_REGION_2_START ≤ a → f a = g a) :
    bank2ImageLength cfg f = bank2ImageLength cfg g := by
  simp only [bank2ImageLength, ulEndAddress, ulStartAddress]
  rw [readLE_congr f g 4 _ _ (fun i _ => h _ (by omega)),
    readLE_congr f g 4 (cfg.CODE_REGION_2_START + cfg.offsetof_ulStartAddress) _
      (fun i _ => h _ (by omega))]

theorem commitDescriptor_congr (cfg : Config) (f g : Flash)
    (h : ∀ a, cfg.CODE_REGION_2_START ≤ a → f a = g a) :
    commitDescriptor cfg f = commitDescriptor cfg g := by
  have h0 : memcpyDescriptor f cfg.CODE_REGION_2_START =
      memcpyDescriptor g cfg.CODE_REGION_2_START := by
    funext i
    exact h _ (by omega)
  have h1 : ulStartAddress cfg f cfg.CODE_REGION_2_START =
      ulStartAddress cfg g cfg.CODE_REGION_2_START :=
    readLE_congr f g 4 _ _ (fun i _ => h _ (by omega))
  have h2 : ulEndAddress cfg f cfg.CODE_REGION_2_START =
      ulEndAddress cfg g cfg.CODE_REGION_2_START :=
    readLE_congr f g 4 _ _ (fun i _ => h _ (by omega))
  have h3 : ulExecutionAddress cfg f cfg.CODE_REGION_2_START =
      ulExecutionAddress cfg g cfg.CODE_REGION_2_START :=
    readLE_congr f g 4 _ _ (fun i _ => h _ (by omega))
  simp only [commitDescriptor, h0, h1, h2, h3]

theorem sub32_lt (a b : Nat) : sub32 a b < 4294967296 :=
  Nat.mod_lt _ (by decide)

theorem bank2ImageLength_lt (cfg : Config) (f : Flash) :
    bank2ImageLength cfg f < 4294967296 :=
  sub32_lt _ _

/-- What `vCommitSecondBank` does when the staged image fits in the first bank: it
returns, the first bank then holds the relocated descriptor followed by the payload
of the second bank, and the second bank is untouched. -/
theorem vCommitSecondBank_fits (cfg : Config) (env : Env) (hwf : cfg.WellFormed)
    (hprog : env.ProgramsErased) (st : State) (hfits : ImageFits cfg st.flash) :
    ∃ st', vCommitSecondBank cfg env st = some st' ∧
      (∀ i, i < cfg.sizeof_ImageDescriptor_t →
        st'.flash (cfg.CODE_REGION_1_START + i) = commitDescriptor cfg st.flash i) ∧
      (∀ i, i < bank2ImageLength cfg st.flash →
        st'.flash (cfg.CODE_REGION_1_START + cfg.DESCRIPTOR_SIZE + i) =
          st.flash (cfg.CODE_REGION_2_START + cfg.DESCRIPTOR_SIZE + i)) ∧
      (∀ a, cfg.CODE_REGION_2_START ≤ a → st'.flash a = st.flash a) ∧
      ∃ tail, st'.trace = st.trace ++ Event.vCommitSecondBank :: tail ∧
        ∀ e ∈ tail, Event.isFlashMutation e = true := by
  have hfits' := hfits
  simp only [ImageFits] at hfits'
  have htop2 := hwf.bank2_top
  have hD := hwf.desc_pos
  have hsz := hwf.sizeof_le
  have hmod : (cfg.DESCRIPTOR_SIZE + bank2ImageLength cfg st.flash) % 4294967296 =
      cfg.DESCRIPTOR_SIZE + bank2ImageLength cfg st.flash :=
    Nat.mod_eq_of_lt (by omega)
  obtain ⟨st1, he, hE1, hab1, t1, ht1, htail1⟩ := vEraseRegion_below_bank2 cfg hwf
    cfg.CODE_REGION_1_START (cfg.DESCRIPTOR_SIZE + bank2ImageLength cfg st.flash)
    (st.log Event.vCommitSecondBank) (by omega) (by omega)
  have hdesc : commitDescriptor cfg st1.flash = commitDescriptor cfg st.flash :=
    commitDescriptor_congr cfg _ _ hab1
  have hE1d : Erased st1.flash cfg.CODE_REGION_1_START cfg.sizeof_ImageDescriptor_t := by
    intro x h1 h2
    exact hE1 x h1 (by omega)
  have hlen2 : bank2ImageLength cfg
      (nrf_nvmc_write_bytes env cfg.CODE_REGION_1_START (commitDescriptor cfg st.flash)
        cfg.sizeof_ImageDescriptor_t st1).flash = bank2ImageLength cfg st.flash := by
    apply bank2ImageLength_congr
    intro a ha
    rw [write_flash_other env _ _ _ _ a (by omega), hab1 a ha]
    rfl
  have hE2 : Erased (nrf_nvmc_write_bytes env cfg.CODE_REGION_1_START
      (commitDescriptor cfg st.flash) cfg.sizeof_ImageDescriptor_t st1).flash
      (cfg.CODE_REGION_1_START + cfg.DESCRIPTOR_SIZE) (bank2ImageLength cfg st.flash) := by
    intro x h1 h2
    rw [write_flash_other env _ _ _ _ x (by omega)]
    exact hE1 x (by omega) (by omega)
  simp only [vCommitSecondBank, State.log_flash, hmod]
  rw [he]
  simp only [Option.map_some', hdesc, hlen2]
  refine ⟨_, rfl, ?_, ?_, ?_, ?_⟩
  · intro i hi
    rw [write_flash_other env _ _ _ _ _ (by omega),
      write_flash_erased env hprog _ _ _ _ hE1d i hi]
  · intro i hi
    rw [write_flash_erased env hprog _ _ _ _ hE2 i hi,
      write_flash_other env _ _ _ _ _ (by omega), hab1 _ (by omega)]
    rfl
  · intro a ha
    rw [write_flash_other env _ _ _ _ a (by omega),
      write_flash_other env _ _ _ _ a (by omega), hab1 a ha]
    rfl
  · refine ⟨t1 ++ [Event.nrf_nvmc_write_bytes cfg.CODE_REGION_1_START
        cfg.sizeof_ImageDescriptor_t,
      Event.nrf_nvmc_write_bytes (cfg.CODE_REGION_1_START + cfg.DESCRIPTOR_SIZE)
        (bank2ImageLength cfg st.flash)], ?_, ?_⟩
    · rw [write_trace, write_trace, ht1]
      simp [List.append_assoc]
    · intro e he
      simp only [List.mem_append, List.mem_cons, List.mem_singleton, List.not_mem_nil,
        or_false] at he
      rcases he with he | rfl | rfl
      · obtain ⟨a, rfl⟩ := htail1 e he
        rfl
      · rfl
      · rfl

/-- C5: when the destination of the commit does not reach the second bank (the staged
image of length `ulEndAddress - ulStartAddress` fits) and the driver stores what is
written to erased cells, `vCommitSecondBank` returns, and afterwards each of the
payload bytes at `CODE_REGION_1_START + DESCRIPTOR_SIZE` equals the byte at the same
offset from `CODE_REGION_2_START + DESCRIPTOR_SIZE`, which is the byte that was there
before the commit. -/
theorem vCommitSecondBank_payload_roundtrip (cfg : Config) (env : Env)
    (hwf : cfg.WellFormed) (hprog : env.ProgramsErased) (st : State)
    (hfits : cfg.CODE_REGION_1_START + cfg.DESCRIPTOR_SIZE + bank2ImageLength cfg st.flash ≤
      cfg.CODE_REGION_2_START) :
    ∃ st', vCommitSecondBank cfg env st = some st' ∧
      ∀ i, i < bank2ImageLength cfg st.flash →
        st'.flash (cfg.CODE_REGION_1_START + cfg.DESCRIPTOR_SIZE + i) =
          st'.flash (cfg.CODE_REGION_2_START + cfg.DESCRIPTOR_SIZE + i) ∧
        st'.flash (cfg.CODE_REGION_2_START + cfg.DESCRIPTOR_SIZE + i) =
          st.flash (cfg.CODE_REGION_2_START + cfg.DESCRIPTOR_SIZE + i) := by
  obtain ⟨st', h1, _, h3, h4, _⟩ := vCommitSecondBank_fits cfg env hwf hprog st hfits
  refine ⟨st', h1, ?_⟩
  intro i hi
  have hsrc := h4 (cfg.CODE_REGION_2_START + cfg.DESCRIPTOR_SIZE + i) (by omega)
  exact ⟨by rw [h3 i hi, hsrc], hsrc⟩

/-- An instance of `vCommitSecondBank_payload_roundtrip`: one page of payload staged
behind `stagedNew`. -/
theorem vCommitSecondBank_payload_roundtrip_witness :
    sampleCfg.WellFormed ∧ acceptAll.ProgramsErased ∧
    sampleCfg.CODE_REGION_1_START + sampleCfg.DESCRIPTOR_SIZE +
        bank2ImageLength sampleCfg (startState stagedFlash).flash ≤
      sampleCfg.CODE_REGION_2_START ∧
    bank2ImageLength sampleCfg (startState stagedFlash).flash = 0x1000 ∧
    ∃ st', vCommitSecondBank sampleCfg acceptAll (startState stagedFlash) = some st' ∧
      ∀ i, i < bank2ImageLength sampleCfg (startState stagedFlash).flash →
        st'.flash (sampleCfg.CODE_REGION_1_START + sampleCfg.DESCRIPTOR_SIZE + i) =
          st'.flash (sampleCfg.CODE_REGION_2_START + sampleCfg.DESCRIPTOR_SIZE + i) ∧
        st'.flash (sampleCfg.CODE_REGION_2_START + sampleCfg.DESCRIPTOR_SIZE + i) =
          (startState stagedFlash).flash
            (sampleCfg.CODE_REGION_2_START + sampleCfg.DESCRIPTOR_SIZE + i) :=
  ⟨sampleCfg_wellFormed, acceptAll_programsErased, by decide, by decide,
    vCommitSecondBank_payload_roundtrip sampleCfg acceptAll sampleCfg_wellFormed
      acceptAll_programsErased (startState stagedFlash) (by decide)⟩

/-! ## The relocated descriptor -/

theorem readLE_memcpyDescriptor (f : Flash) (base off n : Nat) :
    readLE (memcpyDescriptor f base) off n = readLE f (base + off) n := by
  apply readLE_congr
  intro i _
  simp only [memcpyDescriptor, Nat.add_assoc]

theorem bankOffset_eq (cfg : Config) (hwf : cfg.WellFormed) :
    bankOffset cfg = cfg.CODE_REGION_2_START - cfg.CODE_REGION_1_START := by
  have h1 := hwf.banks
  have h2 := hwf.bank2_top
  have h3 := hwf.page_pos
  simp only [bankOffset]
  omega

theorem sub32_sub32 (e s o : Nat) : sub32 (sub32 e o) (sub32 s o) = sub32 e s := by
  simp only [sub32]
  omega

theorem sub32_mod (a b : Nat) : sub32 a b % 256 ^ 4 = sub32 a b := by
  have h := sub32_lt a b
  rw [show (256 : Nat) ^ 4 = 4294967296 by norm_num]
  exact Nat.mod_eq_of_lt h

theorem commitDescriptor_other (cfg : Config) (g : Flash) (off n : Nat)
    (hS : off + n ≤ cfg.offsetof_ulStartAddress ∨ cfg.offsetof_ulStartAddress + 4 ≤ off)
    (hE : off + n ≤ cfg.offsetof_ulEndAddress ∨ cfg.offsetof_ulEndAddress + 4 ≤ off)
    (hX : off + n ≤ cfg.offsetof_ulExecutionAddress ∨
      cfg.offsetof_ulExecutionAddress + 4 ≤ off) :
    readLE (commitDescriptor cfg g) off n = readLE g (cfg.CODE_REGION_2_START + off) n := by
  simp only [commitDescriptor]
  rw [readLE_assignField_other _ _ _ _ _ _ hX, readLE_assignField_other _ _ _ _ _ _ hE,
    readLE_assignField_other _ _ _ _ _ _ hS, readLE_memcpyDescriptor]

theorem commitDescriptor_start (cfg : Config) (hwf : cfg.WellFormed) (g : Flash) :
    readLE (commitDescriptor cfg g) cfg.offsetof_ulStartAddress 4 =
      sub32 (ulStartAddress cfg g cfg.CODE_REGION_2_START) (bankOffset cfg) := by
  have h1 := hwf.start_end
  have h2 := hwf.start_exec
  simp only [commitDescriptor]
  rw [readLE_assignField_other _ _ _ _ _ _ (by omega),
    readLE_assignField_other _ _ _ _ _ _ (by omega), readLE_assignField_same, sub32_mod]

theorem commitDescriptor_end (cfg : Config) (hwf : cfg.WellFormed) (g : Flash) :
    readLE (commitDescriptor cfg g) cfg.offsetof_ulEndAddress 4 =
      sub32 (ulEndAddress cfg g cfg.CODE_REGION_2_START) (bankOffset cfg) := by
  have h1 := hwf.end_exec
  simp only [commitDescriptor]
  rw [readLE_assignField_other _ _ _ _ _ _ (by omega), readLE_assignField_same, sub32_mod]

theorem commitDescriptor_exec (cfg : Config) (g : Flash) :
    readLE (commitDescriptor cfg g) cfg.offsetof_ulExecutionAddress 4 =
      sub32 (ulExecutionAddress cfg g cfg.CODE_REGION_2_START) (bankOffset cfg) := by
  simp only [commitDescriptor]
  rw [readLE_assignField_same, sub32_mod]

theorem commitDescriptor_flags (cfg : Config) (hwf : cfg.WellFormed) (g : Flash) :
    readLE (commitDescriptor cfg g) cfg.offsetof_usImageFlags cfg.sizeof_usImageFlags =
      usImageFlags cfg g cfg.CODE_REGION_2_START :=
  commitDescriptor_other cfg g _ _ hwf.flags_start hwf.flags_end hwf.flags_exec

/-- C6: the descriptor `vCommitSecondBank` builds from the descriptor of the second bank
found in flash `g` and writes at `CODE_REGION_1_START` has the same bytes outside the
members `ulStartAddress`, `ulEndAddress` and `ulExecutionAddress` (so every member that
does not overlap these three, `usImageFlags` among them, has the same value), and each
of the three members is the value of the second bank minus
`CODE_REGION_2_START - CODE_REGION_1_START` in 32-bit arithmetic; hence
`ulEndAddress - ulStartAddress` is the same for both. When the staged image fits and
the driver stores what is written to erased cells, these are the bytes found at
`CODE_REGION_1_START` after `vCommitSecondBank`. -/
theorem vCommitSecondBank_descriptor (cfg : Config) (hwf : cfg.WellFormed) (g : Flash) :
    (∀ i, (i < cfg.offsetof_ulStartAddress ∨ cfg.offsetof_ulStartAddress + 4 ≤ i) →
      (i < cfg.offsetof_ulEndAddress ∨ cfg.offsetof_ulEndAddress + 4 ≤ i) →
      (i < cfg.offsetof_ulExecutionAddress ∨ cfg.offsetof_ulExecutionAddress + 4 ≤ i) →
      commitDescriptor cfg g i = g (cfg.CODE_REGION_2_START + i)) ∧
    (∀ off n,
      (off + n ≤ cfg.offsetof_ulStartAddress ∨ cfg.offsetof_ulStartAddress + 4 ≤ off) →
      (off + n ≤ cfg.offsetof_ulEndAddress ∨ cfg.offsetof_ulEndAddress + 4 ≤ off) →
      (off + n ≤ cfg.offsetof_ulExecutionAddress ∨
        cfg.offsetof_ulExecutionAddress + 4 ≤ off) →
      readLE (commitDescriptor cfg g) off n = readLE g (cfg.CODE_REGION_2_START + off) n) ∧
    readLE (commitDescriptor cfg g) cfg.offsetof_usImageFlags cfg.sizeof_usImageFlags =
      usImageFlags cfg g cfg.CODE_REGION_2_START ∧
    readLE (commitDescriptor cfg g) cfg.offsetof_ulStartAddress 4 =
      sub32 (ulStartAddress cfg g cfg.CODE_REGION_2_START)
        (cfg.CODE_REGION_2_START - cfg.CODE_REGION_1_START) ∧
    readLE (commitDescriptor cfg g) cfg.offsetof_ulEndAddress 4 =
      sub32 (ulEndAddress cfg g cfg.CODE_REGION_2_START)
        (cfg.CODE_REGION_2_START - cfg.CODE_REGION_1_START) ∧
    readLE (commitDescriptor cfg g) cfg.offsetof_ulExecutionAddress 4 =
      sub32 (ulExecutionAddress cfg g cfg.CODE_REGION_2_START)
        (cfg.CODE_REGION_2_START - cfg.CODE_REGION_1_START) ∧
    sub32 (readLE (commitDescriptor cfg g) cfg.offsetof_ulEndAddress 4)
        (readLE (commitDescriptor cfg g) cfg.offsetof_ulStartAddress 4) =
      sub32 (ulEndAddress cfg g cfg.CODE_REGION_2_START)
        (ulStartAddress cfg g cfg.CODE_REGION_2_START) ∧
    (∀ (env : Env) (st : State), env.ProgramsErased → st.flash = g → ImageFits cfg g →
      ∃ st', vCommitSecondBank cfg env st = some st' ∧
        ∀ i, i < cfg.sizeof_ImageDescriptor_t →
          st'.flash (cfg.CODE_REGION_1_START + i) = commitDescriptor cfg g i) := by
  have hoff := bankOffset_eq cfg hwf
  refine ⟨?_, ?_, commitDescriptor_flags cfg hwf g, ?_, ?_, ?_, ?_, ?_⟩
  · intro i hS hE hX
    simp only [commitDescriptor]
    rw [assignField_other _ _ _ _ _ hX, assignField_other _ _ _ _ _ hE,
      assignField_other _ _ _ _ _ hS]
    rfl
  · intro off n hS hE hX
    exact commitDescriptor_other cfg g off n hS hE hX
  · rw [commitDescriptor_start cfg hwf, hoff]
  · rw [commitDescriptor_end cfg hwf, hoff]
  · rw [commitDescriptor_exec, hoff]
  · rw [commitDescriptor_start cfg hwf, commitDescriptor_end cfg hwf, sub32_sub32]
  · intro env st hprog hst hfits
    subst hst
    obtain ⟨st', h1, h2, _⟩ := vCommitSecondBank_fits cfg env hwf hprog st hfits
    exact ⟨st', h1, h2⟩

/-- An instance of `vCommitSecondBank_descriptor`: `stagedNew` is relocated from
`0x2B000` to `0x27000`, its flags and its length are kept. -/
theorem vCommitSecondBank_descriptor_witness :
    sampleCfg.WellFormed ∧
    readLE (commitDescriptor sampleCfg stagedFlash) sampleCfg.offsetof_usImageFlags
      sampleCfg.sizeof_usImageFlags = 0xFF ∧
    readLE (commitDescriptor sampleCfg stagedFlash) sampleCfg.offsetof_ulStartAddress 4 =
      sub32 0x2B000 0x4000 ∧
    readLE (commitDescriptor sampleCfg stagedFlash) sampleCfg.offsetof_ulExecutionAddress 4 =
      0x27000 ∧
    sub32 (readLE (commitDescriptor sampleCfg stagedFlash) sampleCfg.offsetof_ulEndAddress 4)
        (readLE (commitDescriptor sampleCfg stagedFlash) sampleCfg.offsetof_ulStartAddress 4) =
      0x1000 := by
  obtain ⟨_, _, h3, h4, _, h6, h7, _⟩ :=
    vCommitSecondBank_descriptor sampleCfg sampleCfg_wellFormed stagedFlash
  refine ⟨sampleCfg_wellFormed, ?_, ?_, ?_, ?_⟩
  · rw [h3]; decide
  · rw [h4]; decide
  · rw [h6]; decide
  · rw [h7]; decide

/-! ## The commit path of the boot decision -/

theorem readLE_of_buffer (f : Flash) (base : Nat) (d : Buffer) (size : Nat)
    (h : ∀ i, i < size → f (base + i) = d i) (off n : Nat) (hin : off + n ≤ size) :
    readLE f (base + off) n = readLE d off n := by
  apply readLE_congr
  intro i hi
  rw [Nat.add_assoc]
  exact h (off + i) (by omega)

/-- What `vSetBankFlag( FIRST_BANK, xFlag )` does: it returns, the first bank then
starts with its former descriptor in which `usImageFlags` has been assigned, and the
second bank is untouched. -/
theorem vSetBankFlag_first (cfg : Config) (env : Env) (hwf : cfg.WellFormed)
    (hprog : env.ProgramsErased) (xFlag : Nat) (st : State) :
    ∃ st', vSetBankFlag cfg env cfg.FIRST_BANK xFlag st = some st' ∧
      (∀ i, i < cfg.sizeof_ImageDescriptor_t →
        st'.flash (cfg.CODE_REGION_1_START + i) =
          assignField (memcpyDescriptor st.flash cfg.CODE_REGION_1_START)
            cfg.offsetof_usImageFlags cfg.sizeof_usImageFlags xFlag i) ∧
      (∀ a, cfg.CODE_REGION_2_START ≤ a → st'.flash a = st.flash a) ∧
      st.trace <+: st'.trace := by
  have hbanks := hwf.banks
  have hsz := hwf.sizeof_le
  obtain ⟨st1, he, hE1, hab1, t1, ht1, _⟩ := vEraseRegion_below_bank2 cfg hwf
    cfg.CODE_REGION_1_START cfg.DESCRIPTOR_SIZE
    (st.log (Event.vSetBankFlag cfg.FIRST_BANK xFlag)) hwf.desc_pos hbanks
  have hE1d : Erased st1.flash cfg.CODE_REGION_1_START cfg.sizeof_ImageDescriptor_t := by
    intro x h1 h2
    exact hE1 x h1 (by omega)
  simp only [vSetBankFlag, State.log_flash]
  rw [if_neg hwf.first_ne_second, he]
  simp only [Option.map_some']
  refine ⟨_, rfl, ?_, ?_, ?_⟩
  · intro i hi
    exact write_flash_erased env hprog _ _ _ _ hE1d i hi
  · intro a ha
    rw [write_flash_other env _ _ _ _ a (by omega), hab1 a ha]
    rfl
  · rw [write_trace, ht1, State.log_trace]
    simp only [List.append_assoc]
    exact List.prefix_append _ _

/-- The commit arm of the switch for a staged image that fits: the relocated image is
booted at the relocated execution address, with the descriptor area of the second bank
erased and the flags of the first bank set as lines 344-347 say. -/
theorem commitAndBoot_fits (cfg : Config) (env : Env) (hwf : cfg.WellFormed)
    (hprog : env.ProgramsErased) (st : State) (hfits : ImageFits cfg st.flash)
    (hflags : usImageFlags cfg st.flash cfg.CODE_REGION_2_START = cfg.IMAGE_FLAG_NEW ∨
      usImageFlags cfg st.flash cfg.CODE_REGION_2_START = cfg.IMAGE_FLAG_VALID)
    (hsigA : ∀ st1, vCommitSecondBank cfg env st = some st1 →
      env.xVerifyImageSignature st1.flash cfg.CODE_REGION_1_START = ret_code_t.NRF_SUCCESS) :
    ∃ st', commitAndBoot cfg env st =
        some (vBoot cfg env (sub32 (ulExecutionAddress cfg st.flash cfg.CODE_REGION_2_START)
          (cfg.CODE_REGION_2_START - cfg.CODE_REGION_1_START)) st') ∧
      Erased st'.flash cfg.CODE_REGION_2_START cfg.DESCRIPTOR_SIZE ∧
      (usImageFlags cfg st.flash cfg.CODE_REGION_2_START = cfg.IMAGE_FLAG_NEW →
        usImageFlags cfg st'.flash cfg.CODE_REGION_1_START = cfg.IMAGE_FLAG_COMMIT_PENDING) ∧
      (usImageFlags cfg st.flash cfg.CODE_REGION_2_START = cfg.IMAGE_FLAG_VALID →
        usImageFlags cfg st'.flash cfg.CODE_REGION_1_START = cfg.IMAGE_FLAG_VALID) ∧
      st.trace ++ [Event.vCommitSecondBank] <+: st'.trace := by
  have hbanks := hwf.banks
  have hsz := hwf.sizeof_le
  have hfin := hwf.flags_in
  have hxin := hwf.exec_in
  obtain ⟨st1, hc, hdesc, _, hab, t1, ht1, _⟩ :=
    vCommitSecondBank_fits cfg env hwf hprog st hfits
  have hs := hsigA st1 hc
  have hflags1 : usImageFlags cfg st1.flash cfg.CODE_REGION_2_START =
      usImageFlags cfg st.flash cfg.CODE_REGION_2_START :=
    readLE_congr _ _ _ _ _ (fun i _ => hab _ (by omega))
  have hexec1 : readLE st1.flash (cfg.CODE_REGION_1_START + cfg.offsetof_ulExecutionAddress) 4 =
      sub32 (ulExecutionAddress cfg st.flash cfg.CODE_REGION_2_START)
        (cfg.CODE_REGION_2_START - cfg.CODE_REGION_1_START) := by
    rw [readLE_of_buffer _ _ _ _ hdesc _ _ hxin, commitDescriptor_exec, bankOffset_eq cfg hwf]
  have hpre1 : st.trace ++ [Event.vCommitSecondBank] <+: st1.trace := by
    exact ⟨t1, by rw [ht1]; simp⟩
  simp only [commitAndBoot]
  rw [hc]
  simp only [Option.some_bind, State.log_flash, hs, if_true, hflags1]
  by_cases hnew : usImageFlags cfg st.flash cfg.CODE_REGION_2_START = cfg.IMAGE_FLAG_NEW
  · obtain ⟨st2, hset, hd2, hab2, hpre2⟩ := vSetBankFlag_first cfg env hwf hprog
      cfg.IMAGE_FLAG_COMMIT_PENDING
      (st1.log (Event.xVerifyImageSignature cfg.CODE_REGION_1_START ret_code_t.NRF_SUCCESS))
    rw [if_pos hnew, hset]
    simp only [Option.some_bind, vEraseSecondBank_eq cfg hwf, Option.map_some']
    have hexec : ulExecutionAddress cfg
        (bank2Erased cfg (st2.log Event.vEraseSecondBank)).flash cfg.CODE_REGION_1_START =
        sub32 (ulExecutionAddress cfg st.flash cfg.CODE_REGION_2_START)
          (cfg.CODE_REGION_2_START - cfg.CODE_REGION_1_START) := by
      simp only [ulExecutionAddress]
      rw [readLE_bank2Erased_below cfg hwf _ _ _
          (bank1_member_below_bank2 cfg hwf _ _ hxin), State.log_flash,
        readLE_of_buffer _ _ _ _ hd2 _ _ hxin,
        readLE_assignField_other _ _ _ _ _ _ (by have := hwf.flags_exec; omega),
        readLE_memcpyDescriptor, State.log_flash, hexec1]
      rfl
    refine ⟨_, by rw [hexec], bank2Erased_erased cfg hwf _, ?_, ?_, ?_⟩
    · intro _
      simp only [usImageFlags]
      rw [readLE_bank2Erased_below cfg hwf _ _ _
          (bank1_member_below_bank2 cfg hwf _ _ hfin), State.log_flash,
        readLE_of_buffer _ _ _ _ hd2 _ _ hfin, readLE_assignField_same,
        Nat.mod_eq_of_lt hwf.pending_fits]
    · intro hv
      exact absurd (hnew.symm.trans hv) hwf.new_ne_valid
    · obtain ⟨t3, ht3, _⟩ := bank2Erased_trace cfg (st2.log Event.vEraseSecondBank)
      rw [ht3, State.log_trace, List.append_assoc]
      refine List.IsPrefix.trans (List.IsPrefix.trans hpre1 ?_)
        (List.IsPrefix.trans hpre2 (List.prefix_append _ _))
      rw [State.log_trace]
      exact List.prefix_append _ _
  · have hvalid : usImageFlags cfg st.flash cfg.CODE_REGION_2_START = cfg.IMAGE_FLAG_VALID := by
      rcases hflags with h | h
      · exact absurd h hnew
      · exact h
    rw [if_neg hnew]
    simp only [Option.some_bind, vEraseSecondBank_eq cfg hwf, Option.map_some']
    have hexec : ulExecutionAddress cfg
        (bank2Erased cfg ((st1.log (Event.xVerifyImageSignature cfg.CODE_REGION_1_START
          ret_code_t.NRF_SUCCESS)).log Event.vEraseSecondBank)).flash
          cfg.CODE_REGION_1_START =
        sub32 (ulExecutionAddress cfg st.flash cfg.CODE_REGION_2_START)
          (cfg.CODE_REGION_2_START - cfg.CODE_REGION_1_START) := by
      simp only [ulExecutionAddress]
      rw [readLE_bank2Erased_below cfg hwf _ _ _
          (bank1_member_below_bank2 cfg hwf _ _ hxin), State.log_flash, State.log_flash,
        hexec1]
      rfl
    refine ⟨_, by rw [hexec], bank2Erased_erased cfg hwf _, ?_, ?_, ?_⟩
    · intro h; exact absurd h hnew
    · intro _
      simp only [usImageFlags]
      rw [readLE_bank2Erased_below cfg hwf _ _ _
          (bank1_member_below_bank2 cfg hwf _ _ hfin), State.log_flash, State.log_flash,
        readLE_of_buffer _ _ _ _ hdesc _ _ hfin, commitDescriptor_flags cfg hwf]
      exact hvalid
    · obtain ⟨t3, ht3, _⟩ := bank2Erased_trace cfg
        ((st1.log (Event.xVerifyImageSignature cfg.CODE_REGION_1_START
          ret_code_t.NRF_SUCCESS)).log Event.vEraseSecondBank)
      rw [ht3, State.log_trace, State.log_trace, List.append_assoc, List.append_assoc]
      exact List.IsPrefix.trans hpre1 (List.prefix_append _ _)

/-- C1 (amended): when the header of the second bank is valid, the second bank is not
stale, its signature check passes, its flags are `NEW` or `VALID`, the staged image
fits in the first bank (the destination of the commit does not reach the second bank),
the driver stores what is written to erased cells and the signature check of the first
bank after the commit passes, `main` ends by calling `vBoot` with
`BANK2_DESCRIPTOR->ulExecutionAddress - (CODE_REGION_2_START - CODE_REGION_1_START)`
(32-bit); at that call the descriptor area of the second bank is all `0xFF` and the
flags of the first bank are `COMMIT_PENDING` when the staged flags were `NEW` and
`VALID` when they were `VALID`. `vBoot` does not change flash and starts the
application at that address when the two checked soft-device calls succeed. -/
theorem main_commits_staged_image (cfg : Config) (env : Env) (f : Flash)
    (hwf : cfg.WellFormed) (hprog : env.ProgramsErased)
    (hB : bValidateHeader cfg f cfg.CODE_REGION_2_START = ret_code_t.NRF_SUCCESS)
    (hfresh : ¬ (bValidateHeader cfg f cfg.CODE_REGION_1_START = ret_code_t.NRF_SUCCESS ∧
      ulSequenceNumber cfg f cfg.CODE_REGION_1_START >
        ulSequenceNumber cfg f cfg.CODE_REGION_2_START))
    (hsigB : env.xVerifyImageSignature f cfg.CODE_REGION_2_START = ret_code_t.NRF_SUCCESS)
    (hflags : usImageFlags cfg f cfg.CODE_REGION_2_START = cfg.IMAGE_FLAG_NEW ∨
      usImageFlags cfg f cfg.CODE_REGION_2_START = cfg.IMAGE_FLAG_VALID)
    (hfits : cfg.CODE_REGION_1_START + cfg.DESCRIPTOR_SIZE + bank2ImageLength cfg f ≤
      cfg.CODE_REGION_2_START)
    (hsigA : ∀ st1, vCommitSecondBank cfg env ((startState f).log
        (Event.xVerifyImageSignature cfg.CODE_REGION_2_START ret_code_t.NRF_SUCCESS)) =
          some st1 →
      env.xVerifyImageSignature st1.flash cfg.CODE_REGION_1_START = ret_code_t.NRF_SUCCESS) :
    ∃ st', main cfg env f =
        some (vBoot cfg env (sub32 (ulExecutionAddress cfg f cfg.CODE_REGION_2_START)
          (cfg.CODE_REGION_2_START - cfg.CODE_REGION_1_START)) st') ∧
      Erased st'.flash cfg.CODE_REGION_2_START cfg.DESCRIPTOR_SIZE ∧
      (usImageFlags cfg f cfg.CODE_REGION_2_START = cfg.IMAGE_FLAG_NEW →
        usImageFlags cfg st'.flash cfg.CODE_REGION_1_START = cfg.IMAGE_FLAG_COMMIT_PENDING) ∧
      (usImageFlags cfg f cfg.CODE_REGION_2_START = cfg.IMAGE_FLAG_VALID →
        usImageFlags cfg st'.flash cfg.CODE_REGION_1_START = cfg.IMAGE_FLAG_VALID) ∧
      Event.vCommitSecondBank ∈ st'.trace ∧
      (vBoot cfg env (sub32 (ulExecutionAddress cfg f cfg.CODE_REGION_2_START)
        (cfg.CODE_REGION_2_START - cfg.CODE_REGION_1_START)) st').state.flash = st'.flash ∧
      (env.sd_mbr_command = ret_code_t.NRF_SUCCESS →
        env.sd_softdevice_vector_table_base_set cfg.BOOTLOADER_REGION_START =
          ret_code_t.NRF_SUCCESS →
        (vBoot cfg env (sub32 (ulExecutionAddress cfg f cfg.CODE_REGION_2_START)
          (cfg.CODE_REGION_2_START - cfg.CODE_REGION_1_START)) st').terminal =
          Terminal.startApplication (sub32 (ulExecutionAddress cfg f cfg.CODE_REGION_2_START)
            (cfg.CODE_REGION_2_START - cfg.CODE_REGION_1_START))) := by
  have hfresh' : ¬ (decide (bValidateHeader cfg f cfg.CODE_REGION_1_START =
        ret_code_t.NRF_SUCCESS) = true ∧
      ulSequenceNumber cfg (startState f).flash cfg.CODE_REGION_1_START >
        ulSequenceNumber cfg (startState f).flash cfg.CODE_REGION_2_START) := by
    simpa [startState_flash] using hfresh
  obtain ⟨st', h1, h2, h3, h4, h5⟩ := commitAndBoot_fits cfg env hwf hprog
    ((startState f).log
      (Event.xVerifyImageSignature cfg.CODE_REGION_2_START ret_code_t.NRF_SUCCESS))
    hfits hflags hsigA
  have hmain : main cfg env f = commitAndBoot cfg env ((startState f).log
      (Event.xVerifyImageSignature cfg.CODE_REGION_2_START ret_code_t.NRF_SUCCESS)) := by
    rw [main_eq_evaluateBankB cfg env f hB]
    simp only [evaluateBankB, State.log_flash]
    rw [if_neg hfresh', if_neg (by simpa [startState_flash] using hsigB),
      if_pos (by simpa [startState_flash] using hflags)]
    simp only [startState_flash, hsigB]
  refine ⟨st', by rw [hmain]; exact h1, h2, h3, h4, ?_, vBoot_flash _ _ _ _,
    (vBoot_terminal _ _ _ _).2⟩
  exact h5.subset (by simp)

/-- An instance of `main_commits_staged_image`: the scenario of the spec, a `NEW` staged
image with sequence number 5 over a first bank with sequence number 3. -/
theorem main_commits_staged_image_witness :
    sampleCfg.WellFormed ∧ acceptAll.ProgramsErased ∧
    bValidateHeader sampleCfg stagedFlash sampleCfg.CODE_REGION_2_START =
      ret_code_t.NRF_SUCCESS ∧
    ¬ (bValidateHeader sampleCfg stagedFlash sampleCfg.CODE_REGION_1_START =
        ret_code_t.NRF_SUCCESS ∧
      ulSequenceNumber sampleCfg stagedFlash sampleCfg.CODE_REGION_1_START >
        ulSequenceNumber sampleCfg stagedFlash sampleCfg.CODE_REGION_2_START) ∧
    usImageFlags sampleCfg stagedFlash sampleCfg.CODE_REGION_2_START =
      sampleCfg.IMAGE_FLAG_NEW ∧
    sampleCfg.CODE_REGION_1_START + sampleCfg.DESCRIPTOR_SIZE +
      bank2ImageLength sampleCfg stagedFlash ≤ sampleCfg.CODE_REGION_2_START ∧
    ∃ st', main sampleCfg acceptAll stagedFlash =
        some (vBoot sampleCfg acceptAll 0x27000 st') ∧
      Erased st'.flash sampleCfg.CODE_REGION_2_START sampleCfg.DESCRIPTOR_SIZE ∧
      usImageFlags sampleCfg st'.flash sampleCfg.CODE_REGION_1_START =
        sampleCfg.IMAGE_FLAG_COMMIT_PENDING := by
  refine ⟨sampleCfg_wellFormed, acceptAll_programsErased, by decide, by decide, by decide,
    by decide, ?_⟩
  obtain ⟨st', h1, h2, h3, _⟩ :=
    main_commits_staged_image sampleCfg acceptAll stagedFlash sampleCfg_wellFormed
      acceptAll_programsErased (by decide) (by decide) rfl (Or.inl (by decide))
      (by decide) (fun _ _ => rfl)
  exact ⟨st', h1, h2, h3 (by decide)⟩

/-- C1 (as stated) fails for a staged image that does not fit: the second bank holds a
valid header, sequence number 5 over 3, flags `VALID`, execution address `0x2B000` and
a payload length of `0x3001`, and the verifier accepts every region. The erase at the
start of `vCommitSecondBank` reaches the page of the second bank's descriptor before
that descriptor is copied, so `main` does not hand off at `0x2B000 - 0x4000` but at
`0xFFFFFFFF - 0x4000`, and the flags of the first bank are `COMMIT_PENDING` (`0xFE`),
not `VALID`. -/
theorem main_oversize_image_boots_elsewhere :
    (bValidateHeader sampleCfg (flashWith (some imageA) (some stagedOversize))
        sampleCfg.CODE_REGION_2_START = ret_code_t.NRF_SUCCESS ∧
      ¬ (bValidateHeader sampleCfg (flashWith (some imageA) (some stagedOversize))
          sampleCfg.CODE_REGION_1_START = ret_code_t.NRF_SUCCESS ∧
        ulSequenceNumber sampleCfg (flashWith (some imageA) (some stagedOversize))
            sampleCfg.CODE_REGION_1_START >
          ulSequenceNumber sampleCfg (flashWith (some imageA) (some stagedOversize))
            sampleCfg.CODE_REGION_2_START) ∧
      usImageFlags sampleCfg (flashWith (some imageA) (some stagedOversize))
        sampleCfg.CODE_REGION_2_START = sampleCfg.IMAGE_FLAG_VALID ∧
      ulExecutionAddress sampleCfg (flashWith (some imageA) (some stagedOversize))
        sampleCfg.CODE_REGION_2_START = 0x2B000 ∧
      sampleCfg.CODE_REGION_2_START - sampleCfg.CODE_REGION_1_START = 0x4000) ∧
    (main sampleCfg acceptAll (flashWith (some imageA) (some stagedOversize))).map
        (fun o => (o.terminal, decide (Event.vBoot (0x2B000 - 0x4000) ∈ o.state.trace),
          decide (Event.vBoot (0xFFFFFFFF - 0x4000) ∈ o.state.trace),
          usImageFlags sampleCfg o.state.flash sampleCfg.CODE_REGION_1_START)) =
      some (Terminal.startApplication (0xFFFFFFFF - 0x4000), false, true, 0xFE) := by
  decide

/-! ## vEraseRegion: the pages it erases overlap the range -/

theorem overlap_byte (P address length q : Nat) (hP : 0 < P) (hlen : 0 < length)
    (h0 : address / P ≤ q) (h1 : q ≤ (address + length - 1) / P) :
    ∃ b, address ≤ b ∧ b < address + length ∧ b / P = q := by
  by_cases hq : q = address / P
  · exact ⟨address, Nat.le_refl _, by omega, hq.symm⟩
  · have hlt : address < q * P := by
      have h2 := lt_succ_div_mul address P hP
      have h3 : (address / P + 1) * P ≤ q * P := Nat.mul_le_mul_right _ (by omega)
      omega
    have hle : q * P ≤ address + length - 1 := by
      have h2 : (address + length - 1) / P * P ≤ address + length - 1 :=
        Nat.div_mul_le_self _ _
      have h3 : q * P ≤ (address + length - 1) / P * P := Nat.mul_le_mul_right _ h1
      omega
    exact ⟨q * P, by omega, by omega, Nat.mul_div_cancel _ hP⟩

/-- C19 (amended): for `0 < length`, when the page that holds `address + length - 1`
ends below the top of the 32-bit address space, `vEraseRegion( address, length )`
returns and every page it erases holds at least one byte of
`[address, address + length)`; a byte whose page holds no byte of the range is kept.
`vEraseRegion( address, 0 )` erases nothing when `address` is page-aligned; when
`address` is not page-aligned (and its page ends below the top of the address space)
it erases exactly one page, the page that holds `address`. -/
theorem vEraseRegion_erases_only_overlapping (cfg : Config) (hP : 0 < cfg.CODE_PAGE_SIZE)
    (address length : Nat) (st : State) :
    (0 < length →
      ((address + length - 1) / cfg.CODE_PAGE_SIZE + 1) * cfg.CODE_PAGE_SIZE < 4294967296 →
      ∃ (st' : State) (pages : List Nat), vEraseRegion cfg address length st = some st' ∧
        st'.trace = st.trace ++ pages.map Event.nrf_nvmc_page_erase ∧
        (∀ p ∈ pages, ∃ b, address ≤ b ∧ b < address + length ∧
          b / cfg.CODE_PAGE_SIZE = p / cfg.CODE_PAGE_SIZE) ∧
        (∀ a, (∀ b, address ≤ b → b < address + length →
            b / cfg.CODE_PAGE_SIZE ≠ a / cfg.CODE_PAGE_SIZE) → st'.flash a = st.flash a)) ∧
    (address % cfg.CODE_PAGE_SIZE = 0 → address < 4294967296 →
      vEraseRegion cfg address 0 st = some st) ∧
    (address % cfg.CODE_PAGE_SIZE ≠ 0 →
      (address / cfg.CODE_PAGE_SIZE + 1) * cfg.CODE_PAGE_SIZE < 4294967296 →
      ∃ st', vEraseRegion cfg address 0 st = some st' ∧
        st'.trace = st.trace ++
          [Event.nrf_nvmc_page_erase (address - address % cfg.CODE_PAGE_SIZE)] ∧
        ∀ a, st'.flash a =
          if a / cfg.CODE_PAGE_SIZE = address / cfg.CODE_PAGE_SIZE then 0xFF
          else st.flash a) := by
  refine ⟨?_, ?_, ?_⟩
  · intro hlen htop
    have hq : address / cfg.CODE_PAGE_SIZE ≤ (address + length - 1) / cfg.CODE_PAGE_SIZE :=
      Nat.div_le_div_right (by omega)
    refine ⟨_, (List.range (pagesOverlapping cfg address length)).map
      (fun k => (address / cfg.CODE_PAGE_SIZE + k) * cfg.CODE_PAGE_SIZE),
      vEraseRegion_eq cfg hP address length st hlen htop, ?_, ?_, ?_⟩
    · rw [erasePagesFrom_trace, List.map_map]
      rfl
    · intro p hp
      simp only [List.mem_map, List.mem_range] at hp
      obtain ⟨k, hk, rfl⟩ := hp
      rw [Nat.mul_div_cancel _ hP]
      apply overlap_byte _ _ _ _ hP hlen (by omega)
      simp only [pagesOverlapping] at hk
      omega
    · intro a ha
      simp only [erasePagesFrom, pagesOverlapping]
      rw [if_neg]
      intro hin
      obtain ⟨b, h1, h2, h3⟩ := overlap_byte cfg.CODE_PAGE_SIZE address length
        (a / cfg.CODE_PAGE_SIZE) hP hlen hin.1 (by omega)
      exact ha b h1 h2 h3
  · intro hal hlt
    have hdm := sub_mod_eq_div_mul address cfg.CODE_PAGE_SIZE
    rw [hal, Nat.sub_zero] at hdm
    simp only [vEraseRegion, Nat.add_zero]
    rw [hal, Nat.sub_zero, Nat.mod_eq_of_lt hlt]
    have h := vEraseRegionLoop_eq cfg hP address 0 (address / cfg.CODE_PAGE_SIZE)
      4294967296 st (fun k hk => absurd hk (Nat.not_lt_zero k))
      (by rw [Nat.add_zero, ← hdm]) (by rw [Nat.add_zero, ← hdm]; exact hlt) (by decide)
    rw [← hdm, erasePagesFrom_zero] at h
    exact h
  · intro hal htop
    have hdm := sub_mod_eq_div_mul address cfg.CODE_PAGE_SIZE
    have hpos : 0 < address % cfg.CODE_PAGE_SIZE := Nat.pos_of_ne_zero hal
    have hmodle := Nat.mod_le address cfg.CODE_PAGE_SIZE
    have hlast := lt_succ_div_mul address cfg.CODE_PAGE_SIZE hP
    have hlt : address < 4294967296 := by omega
    have h := vEraseRegionLoop_eq cfg hP address 1 (address / cfg.CODE_PAGE_SIZE)
      4294967296 st (fun k hk => by
        have hk0 : k = 0 := by omega
        subst hk0
        rw [Nat.add_zero]
        omega)
      (Nat.le_of_lt hlast) htop (by decide)
    refine ⟨erasePagesFrom cfg (address / cfg.CODE_PAGE_SIZE) 1 st, ?_, ?_, ?_⟩
    · simp only [vEraseRegion, Nat.add_zero]
      rw [Nat.mod_eq_of_lt hlt, hdm]
      exact h
    · rw [erasePagesFrom_trace, hdm]
      rfl
    · intro a
      simp only [erasePagesFrom]
      by_cases ha : a / cfg.CODE_PAGE_SIZE = address / cfg.CODE_PAGE_SIZE
      · rw [if_pos ha, if_pos (by omega)]
      · rw [if_neg ha, if_neg (by omega)]

/-- An instance of `vEraseRegion_erases_only_overlapping`: with 4 KiB pages, an empty
range at the aligned address `0x26000` erases nothing. -/
theorem vEraseRegion_erases_only_overlapping_witness :
    0 < sampleCfg.CODE_PAGE_SIZE ∧
    vEraseRegion sampleCfg 0x26000 0 (State.mk (fun _ => 0) []) =
      some (State.mk (fun _ => 0) []) :=
  ⟨by decide,
    (vEraseRegion_erases_only_overlapping sampleCfg (by decide) 0x26000 0
      (State.mk (fun _ => 0) [])).2.1 (by decide) (by decide)⟩

/-- C19 (as stated) fails for an empty range at an address that is not page-aligned:
with 4 KiB pages, `vEraseRegion( 0x26800, 0 )` erases the page at `0x26000`, although
no byte belongs to the requested range. -/
theorem vEraseRegion_empty_range_erases_page :
    (0x26800 + 0 < 4294967296 ∧ 0x26800 % sampleCfg.CODE_PAGE_SIZE ≠ 0) ∧
    (vEraseRegion sampleCfg 0x26800 0 (State.mk (fun _ => 0) [])).map
        (fun st => (st.trace, st.flash 0x26000, st.flash 0x26FFF)) =
      some ([Event.nrf_nvmc_page_erase 0x26000], 0xFF, 0xFF) := by
  decide

/-! ## Traces of the bank routines and of `vBoot`, for every configuration -/

theorem vEraseRegionLoop_trace (cfg : Config) (limit : Nat) :
    ∀ (fuel p : Nat) (st st' : State), vEraseRegionLoop cfg limit fuel p st = some st' →
      ∃ tail, st'.trace = st.trace ++ tail ∧
        ∀ e ∈ tail, ∃ a, e = Event.nrf_nvmc_page_erase a := by
  intro fuel
  induction fuel with
  | zero => intro p st st' h; simp [vEraseRegionLoop] at h
  | succ fuel ih =>
    intro p st st' h
    simp only [vEraseRegionLoop] at h
    by_cases hp : p < limit
    · rw [if_pos hp] at h
      obtain ⟨tail, ht, htail⟩ := ih _ _ _ h
      refine ⟨Event.nrf_nvmc_page_erase p :: tail, ?_, ?_⟩
      · rw [ht]
        simp [nrf_nvmc_page_erase]
      · intro e he
        rcases List.mem_cons.1 he with rfl | he
        · exact ⟨p, rfl⟩
        · exact htail e he
    · rw [if_neg hp] at h
      cases h
      exact ⟨[], by simp, by simp⟩

theorem vEraseRegion_trace (cfg : Config) (address length : Nat) (st st' : State)
    (h : vEraseRegion cfg address length st = some st') :
    ∃ tail, st'.trace = st.trace ++ tail ∧
      ∀ e ∈ tail, ∃ a, e = Event.nrf_nvmc_page_erase a :=
  vEraseRegionLoop_trace cfg _ _ _ st st' h

theorem vEraseRegion_trace_routine (cfg : Config) (address length : Nat) (st st' : State)
    (h : vEraseRegion cfg address length st = some st') :
    ∃ tail, st'.trace = st.trace ++ tail ∧ ∀ e ∈ tail, Event.ofBankRoutine e = true := by
  obtain ⟨tail, ht, htail⟩ := vEraseRegion_trace cfg address length st st' h
  refine ⟨tail, ht, ?_⟩
  intro e he
  obtain ⟨a, rfl⟩ := htail e he
  rfl

theorem vEraseSecondBank_trace (cfg : Config) (st st' : State)
    (h : vEraseSecondBank cfg st = some st') :
    ∃ tail, st'.trace = st.trace ++ tail ∧ ∀ e ∈ tail, Event.ofBankRoutine e = true := by
  obtain ⟨tail, ht, htail⟩ := vEraseRegion_trace_routine cfg _ _ _ st' h
  refine ⟨Event.vEraseSecondBank :: tail, by rw [ht]; simp, ?_⟩
  intro e he
  rcases List.mem_cons.1 he with rfl | he
  · rfl
  · exact htail e he

theorem vSetBankFlag_trace (cfg : Config) (env : Env) (usBank xFlag : Nat) (st st' : State)
    (h : vSetBankFlag cfg env usBank xFlag st = some st') :
    ∃ tail, st'.trace = st.trace ++ tail ∧ ∀ e ∈ tail, Event.ofBankRoutine e = true := by
  simp only [vSetBankFlag, Option.map_eq_some'] at h
  obtain ⟨st1, he, rfl⟩ := h
  obtain ⟨tail, ht, htail⟩ := vEraseRegion_trace_routine cfg _ _ _ st1 he
  rw [write_trace, ht, State.log_trace]
  simp only [List.append_assoc]
  refine ⟨_, rfl, ?_⟩
  intro e he
  simp only [List.append_eq, List.mem_cons, List.mem_append, List.mem_singleton,
    List.not_mem_nil, or_false] at he
  rcases he with rfl | he | rfl
  · rfl
  · exact htail e he
  · rfl

theorem vCommitSecondBank_trace (cfg : Config) (env : Env) (st st' : State)
    (h : vCommitSecondBank cfg env st = some st') :
    ∃ tail, st'.trace = st.trace ++ Event.vCommitSecondBank :: tail ∧
      ∀ e ∈ tail, Event.isFlashMutation e = true := by
  simp only [vCommitSecondBank, Option.map_eq_some'] at h
  obtain ⟨st1, he, rfl⟩ := h
  obtain ⟨tail, ht, htail⟩ := vEraseRegion_trace cfg _ _ _ st1 he
  rw [write_trace, write_trace, ht, State.log_trace]
  simp only [List.append_assoc, List.singleton_append]
  refine ⟨_, rfl, ?_⟩
  intro e he
  simp only [List.append_eq, List.mem_cons, List.mem_append, List.mem_singleton,
    List.not_mem_nil, or_false] at he
  rcases he with he | rfl | rfl
  · obtain ⟨a, rfl⟩ := htail e he
    rfl
  · rfl
  · rfl

theorem vCommitSecondBank_trace_routine (cfg : Config) (env : Env) (st st' : State)
    (h : vCommitSecondBank cfg env st = some st') :
    ∃ tail, st'.trace = st.trace ++ tail ∧ ∀ e ∈ tail, Event.ofBankRoutine e = true := by
  obtain ⟨tail, ht, htail⟩ := vCommitSecondBank_trace cfg env st st' h
  refine ⟨Event.vCommitSecondBank :: tail, ht, ?_⟩
  intro e he
  rcases List.mem_cons.1 he with rfl | he
  · rfl
  · have := htail e he
    cases e <;> simp_all [Event.isFlashMutation, Event.ofBankRoutine]

/-- The events of a call of `vBoot`: `vBoot`, `xCryptoUnInit`, `vDisableInterrupts`, then
either the three soft-device calls and `vStartApplication`, which is then the terminal
action, or a reset after a failed soft-device call. -/
theorem vBoot_trace_cases (cfg : Config) (env : Env) (address : Nat) (st : State) :
    ∃ tail, (vBoot cfg env address st).state.trace =
        st.trace ++ Event.vBoot address :: Event.xCryptoUnInit ::
          Event.vDisableInterrupts :: tail ∧
      (((∃ r1 r2 r3, tail = [Event.sd_mbr_command r1,
          Event.sd_softdevice_vector_table_base_set cfg.BOOTLOADER_REGION_START r2,
          Event.sd_softdevice_vector_table_base_set address r3,
          Event.vStartApplication address]) ∧
          (vBoot cfg env address st).terminal = Terminal.startApplication address) ∨
        (∀ a, Event.vStartApplication a ∉ tail)) ∧
      (∀ e ∈ tail, Event.ofBoot e = true ∧ Event.isFlashMutation e = false ∧
        e ≠ Event.vDisableInterrupts ∧ e ≠ Event.xCryptoUnInit ∧
        (∀ a, e ≠ Event.vBoot a) ∧
        ∀ a r, e ≠ Event.xVerifyImageSignature a r) := by
  simp only [vBoot, vDisableInterrupts, app_error_handler, on_error, NVIC_SystemReset,
    vStartApplication, State.log]
  split_ifs <;> simp only [List.append_assoc, List.singleton_append]
  · exact ⟨_, rfl, Or.inr (by simp), by simp [Event.ofBoot, Event.isFlashMutation]⟩
  · exact ⟨_, rfl, Or.inr (by simp), by simp [Event.ofBoot, Event.isFlashMutation]⟩
  · exact ⟨_, rfl, Or.inl ⟨⟨_, _, _, rfl⟩, trivial⟩,
      by simp [Event.ofBoot, Event.isFlashMutation]⟩

/-! ## The shape of every run of `main` -/

theorem isPreTerminal_of_ofBankRoutine (e : Event) (h : Event.ofBankRoutine e = true) :
    Event.isPreTerminal e = true := by
  cases e <;> simp_all [Event.ofBankRoutine, Event.isPreTerminal]

theorem preTerminal_append (l tail : List Event)
    (hl : ∀ e ∈ l, Event.isPreTerminal e = true)
    (ht : ∀ e ∈ tail, Event.ofBankRoutine e = true) :
    ∀ e ∈ l ++ tail, Event.isPreTerminal e = true := by
  intro e he
  rcases List.mem_append.1 he with h | h
  · exact hl e h
  · exact isPreTerminal_of_ofBankRoutine e (ht e h)

theorem preTerminal_log_verify (st : State) (a : Nat) (r : ret_code_t)
    (hl : ∀ e ∈ st.trace, Event.isPreTerminal e = true) :
    ∀ e ∈ (st.log (Event.xVerifyImageSignature a r)).trace,
      Event.isPreTerminal e = true := by
  intro e he
  rw [State.log_trace] at he
  rcases List.mem_append.1 he with h | h
  · exact hl e h
  · rw [List.mem_singleton.1 h]; rfl

theorem startState_preTerminal (f : Flash) :
    ∀ e ∈ (startState f).trace, Event.isPreTerminal e = true := by
  intro e he
  rw [startState_trace] at he
  simp only [List.mem_cons, List.mem_singleton, List.not_mem_nil, or_false] at he
  rcases he with rfl | rfl <;> rfl

theorem evaluateBankA_shape (cfg : Config) (env : Env) (f : Flash) (b : Bool) (st : State)
    (hb : b = false → bValidateHeader cfg f cfg.CODE_REGION_1_START ≠ ret_code_t.NRF_SUCCESS)
    (hpre : ∀ e ∈ st.trace, Event.isPreTerminal e = true) :
    ∃ st', EndsFrom cfg env f (evaluateBankA cfg env b st) st' := by
  cases b
  · have hinv := hb rfl
    by_cases h1 : readLE st.flash (cfg.CODE_REGION_1_START + cfg.DESCRIPTOR_SIZE) 4 =
        cfg.STACK_BEGIN
    · refine ⟨st, hpre, Or.inl ⟨_, ?_, Or.inr ⟨hinv, Or.inl ⟨h1, rfl⟩⟩⟩⟩
      simp [evaluateBankA, h1]
    · by_cases h0 : readLE st.flash cfg.CODE_REGION_1_START 4 = cfg.STACK_BEGIN
      · refine ⟨st, hpre, Or.inl ⟨_, ?_, Or.inr ⟨hinv, Or.inr ⟨h1, h0, rfl⟩⟩⟩⟩
        simp [evaluateBankA, h1, h0]
      · refine ⟨st, hpre, Or.inr (Or.inl ?_)⟩
        simp [evaluateBankA, h1, h0]
  · by_cases hc : env.xVerifyImageSignature st.flash cfg.CODE_REGION_1_START ≠
          ret_code_t.NRF_SUCCESS ∨
        (usImageFlags cfg st.flash cfg.CODE_REGION_1_START ≠ cfg.IMAGE_FLAG_VALID ∧
          usImageFlags cfg st.flash cfg.CODE_REGION_1_START ≠ cfg.IMAGE_FLAG_COMMIT_PENDING)
    · refine ⟨st.log (Event.xVerifyImageSignature cfg.CODE_REGION_1_START
        (env.xVerifyImageSignature st.flash cfg.CODE_REGION_1_START)),
        preTerminal_log_verify st _ _ hpre, Or.inr (Or.inr ?_)⟩
      simp only [evaluateBankA, State.log_flash, if_true]
      rw [if_pos hc]
    · have hs : env.xVerifyImageSignature st.flash cfg.CODE_REGION_1_START =
          ret_code_t.NRF_SUCCESS := by
        by_contra hne
        exact hc (Or.inl hne)
      refine ⟨st.log (Event.xVerifyImageSignature cfg.CODE_REGION_1_START
        (env.xVerifyImageSignature st.flash cfg.CODE_REGION_1_START)),
        preTerminal_log_verify st _ _ hpre, Or.inl ⟨_, ?_, Or.inl ⟨st.trace, [], ?_, ?_, rfl⟩⟩⟩
      · simp only [evaluateBankA, State.log_flash, if_true]
        rw [if_neg hc]
      · rw [State.log_trace, hs]
      · intro e he; cases he

theorem commitAndBoot_shape (cfg : Config) (env : Env) (f : Flash) (st : State) (o : Outcome)
    (hpre : ∀ e ∈ st.trace, Event.isPreTerminal e = true)
    (h : commitAndBoot cfg env st = some o) :
    ∃ st', EndsFrom cfg env f o st' := by
  simp only [commitAndBoot, Option.bind_eq_some] at h
  obtain ⟨st1, hc, h⟩ := h
  obtain ⟨t1, ht1, htail1⟩ := vCommitSecondBank_trace_routine cfg env st st1 hc
  have hpre1 : ∀ e ∈ st1.trace, Event.isPreTerminal e = true := by
    rw [ht1]; exact preTerminal_append _ _ hpre htail1
  simp only [State.log_flash] at h
  by_cases hs : env.xVerifyImageSignature st1.flash cfg.CODE_REGION_1_START =
      ret_code_t.NRF_SUCCESS
  · rw [if_pos hs] at h
    simp only [Option.bind_eq_some, Option.map_eq_some'] at h
    obtain ⟨st2, h2, st3, h3, rfl⟩ := h
    have hmid : ∃ t2, st2.trace = (st1.log (Event.xVerifyImageSignature
        cfg.CODE_REGION_1_START ret_code_t.NRF_SUCCESS)).trace ++ t2 ∧
        ∀ e ∈ t2, Event.ofBankRoutine e = true := by
      rw [hs] at h2
      by_cases hnew : usImageFlags cfg st1.flash cfg.CODE_REGION_2_START = cfg.IMAGE_FLAG_NEW
      · rw [if_pos hnew] at h2
        exact vSetBankFlag_trace cfg env _ _ _ _ h2
      · rw [if_neg hnew] at h2
        cases h2
        exact ⟨[], by simp, by simp⟩
    obtain ⟨t2, ht2, htail2⟩ := hmid
    obtain ⟨t3, ht3, htail3⟩ := vEraseSecondBank_trace cfg st2 st3 h3
    have htr : st3.trace = st1.trace ++ Event.xVerifyImageSignature
        cfg.CODE_REGION_1_START ret_code_t.NRF_SUCCESS :: (t2 ++ t3) := by
      rw [ht3, ht2, State.log_trace]
      simp
    refine ⟨st3, ?_, Or.inl ⟨_, rfl, Or.inl ⟨st1.trace, t2 ++ t3, htr, ?_, rfl⟩⟩⟩
    · intro e he
      rw [htr] at he
      simp only [List.mem_append, List.mem_cons] at he
      rcases he with he | rfl | he | he
      · exact hpre1 e he
      · rfl
      · exact isPreTerminal_of_ofBankRoutine e (htail2 e he)
      · exact isPreTerminal_of_ofBankRoutine e (htail3 e he)
    · intro e he
      rcases List.mem_append.1 he with he | he
      · exact htail2 e he
      · exact htail3 e he
  · rw [if_neg hs] at h
    cases h
    exact ⟨_, preTerminal_log_verify st1 _ _ hpre1, Or.inr (Or.inl rfl)⟩

theorem evaluateBankB_shape (cfg : Config) (env : Env) (f : Flash) (b : Bool) (st : State)
    (o : Outcome)
    (hb : b = false → bValidateHeader cfg f cfg.CODE_REGION_1_START ≠ ret_code_t.NRF_SUCCESS)
    (hpre : ∀ e ∈ st.trace, Event.isPreTerminal e = true)
    (h : evaluateBankB cfg env b st = some o) :
    ∃ st', EndsFrom cfg env f o st' := by
  have herase : ∀ (st0 st1 : State), (∀ e ∈ st0.trace, Event.isPreTerminal e = true) →
      vEraseSecondBank cfg st0 = some st1 →
      ∃ st', EndsFrom cfg env f (evaluateBankA cfg env b st1) st' := by
    intro st0 st1 h0 he
    obtain ⟨t, ht, htail⟩ := vEraseSecondBank_trace cfg st0 st1 he
    exact evaluateBankA_shape cfg env f b st1 hb (by
      rw [ht]; exact preTerminal_append _ _ h0 htail)
  simp only [evaluateBankB, State.log_flash] at h
  split_ifs at h
  · simp only [Option.map_eq_some'] at h
    obtain ⟨st1, he, rfl⟩ := h
    exact herase st st1 hpre he
  · simp only [Option.map_eq_some'] at h
    obtain ⟨st1, he, rfl⟩ := h
    obtain ⟨t, ht, htail⟩ := vEraseRegion_trace_routine cfg _ _ _ st1 he
    exact evaluateBankA_shape cfg env f b st1 hb (by
      rw [ht]; exact preTerminal_append _ _ (preTerminal_log_verify st _ _ hpre) htail)
  · exact commitAndBoot_shape cfg env f _ o (preTerminal_log_verify st _ _ hpre) h
  · simp only [Option.map_eq_some'] at h
    obtain ⟨st1, he, rfl⟩ := h
    exact herase _ st1 (preTerminal_log_verify st _ _ hpre) he
  · simp only [Option.map_eq_some'] at h
    obtain ⟨st1, he, rfl⟩ := h
    exact herase _ st1 (preTerminal_log_verify st _ _ hpre) he
  · cases h
    exact evaluateBankA_shape cfg env f b _ hb (preTerminal_log_verify st _ _ hpre)

/-- Every run of `main` that ends does so from a state whose events are all
pre-terminal, by a call of `vBoot` with a reason, by a reset or by the failure
indication. -/
theorem main_shape (cfg : Config) (env : Env) (f : Flash) (o : Outcome)
    (h : main cfg env f = some o) : ∃ st, EndsFrom cfg env f o st := by
  have hb : decide (bValidateHeader cfg f cfg.CODE_REGION_1_START =
      ret_code_t.NRF_SUCCESS) = false →
      bValidateHeader cfg f cfg.CODE_REGION_1_START ≠ ret_code_t.NRF_SUCCESS := by
    intro hd
    simpa using hd
  simp only [main] at h
  split_ifs at h
  · exact evaluateBankB_shape cfg env f _ _ o hb (startState_preTerminal f) h
  · cases h
    exact evaluateBankA_shape cfg env f _ _ hb (startState_preTerminal f)

/-! ## Temporal properties of every run -/

theorem not_preTerminal_mem (l : List Event) (hl : ∀ e ∈ l, Event.isPreTerminal e = true)
    (e : Event) (he : Event.isPreTerminal e = false) : e ∉ l := by
  intro hmem
  rw [hl e hmem] at he
  cases he

/-- C14: on every run of `main` whose trace holds a handoff `vStartApplication( a )`,
the trace is a sequence of pre-terminal events (start of `main`, verifier calls, bank
routines: every use of the verifier is among them and `xCryptoUnInit` is not) followed
by exactly `vBoot( a )`, `xCryptoUnInit`, `vDisableInterrupts`, the three soft-device
calls and `vStartApplication( a )`, which is the terminal action: `xCryptoUnInit` comes
after the last use of the verifier and before the handoff, as the first action of
`vBoot`. -/
theorem main_handoff_after_xCryptoUnInit (cfg : Config) (env : Env) (f : Flash)
    (o : Outcome) (a : Nat) (h : main cfg env f = some o)
    (hstart : Event.vStartApplication a ∈ o.state.trace) :
    ∃ pre r1 r2 r3, o.state.trace = pre ++ [Event.vBoot a, Event.xCryptoUnInit,
        Event.vDisableInterrupts, Event.sd_mbr_command r1,
        Event.sd_softdevice_vector_table_base_set cfg.BOOTLOADER_REGION_START r2,
        Event.sd_softdevice_vector_table_base_set a r3, Event.vStartApplication a] ∧
      (∀ e ∈ pre, Event.isPreTerminal e = true) ∧
      Event.xCryptoUnInit ∉ pre ∧
      (∀ x r, Event.xVerifyImageSignature x r ∈ o.state.trace →
        Event.xVerifyImageSignature x r ∈ pre) ∧
      o.terminal = Terminal.startApplication a := by
  obtain ⟨st, hpre, hend⟩ := main_shape cfg env f o h
  rcases hend with ⟨a', rfl, _⟩ | rfl | rfl
  · obtain ⟨tail, ht, hcase, _⟩ := vBoot_trace_cases cfg env a' st
    rw [ht] at hstart
    simp only [List.mem_append, List.mem_cons] at hstart
    have hin : Event.vStartApplication a ∈ tail := by
      rcases hstart with hs | hs | hs | hs | hs
      · exact absurd hs (not_preTerminal_mem _ hpre _ rfl)
      · cases hs
      · cases hs
      · cases hs
      · exact hs
    rcases hcase with ⟨⟨r1, r2, r3, rfl⟩, hterm⟩ | hno
    · have ha : a = a' := by
        simp only [List.mem_cons, List.mem_singleton, List.not_mem_nil, or_false] at hin
        rcases hin with hs | hs | hs | hs
        · cases hs
        · cases hs
        · cases hs
        · cases hs; rfl
      subst ha
      refine ⟨st.trace, r1, r2, r3, ht, hpre, not_preTerminal_mem _ hpre _ rfl, ?_, hterm⟩
      intro x r hv
      rw [ht] at hv
      simp only [List.mem_append, List.mem_cons, List.mem_singleton, List.not_mem_nil,
        or_false] at hv
      rcases hv with hs | hs | hs | hs | hs | hs | hs | hs
      · exact hs
      all_goals cases hs
    · exact absurd hin (hno a)
  · simp [NVIC_SystemReset] at hstart
    exact absurd hstart (not_preTerminal_mem _ hpre _ rfl)
  · simp [vBlinkLedsNoCorrectFirmware] at hstart
    exact absurd hstart (not_preTerminal_mem _ hpre _ rfl)

/-- C17: on every run of `main` whose trace holds a call `vBoot( a )`, either the trace
holds a call of the verifier on `CODE_REGION_1_START` that returned `NRF_SUCCESS`,
followed up to that `vBoot` by events of the bank routines only (no later verifier
call), and `a` is the `ulExecutionAddress` of the first bank's descriptor; or the
header of the first bank was invalid at power-on and `a` is one of the two places where
the stack-pointer word was found (`CODE_REGION_1_START + DESCRIPTOR_SIZE` first). -/
theorem main_boot_requires_signature (cfg : Config) (env : Env) (f : Flash)
    (o : Outcome) (a : Nat) (h : main cfg env f = some o)
    (hboot : Event.vBoot a ∈ o.state.trace) :
    (∃ pre mid post, o.state.trace = pre ++
          Event.xVerifyImageSignature cfg.CODE_REGION_1_START ret_code_t.NRF_SUCCESS ::
            mid ++ Event.vBoot a :: post ∧
        (∀ e ∈ mid, (∀ x r, e ≠ Event.xVerifyImageSignature x r) ∧
          Event.ofBankRoutine e = true) ∧
        (∀ e ∈ post, ∀ x, e ≠ Event.vBoot x) ∧
        a = ulExecutionAddress cfg o.state.flash cfg.CODE_REGION_1_START) ∨
    (bValidateHeader cfg f cfg.CODE_REGION_1_START ≠ ret_code_t.NRF_SUCCESS ∧
      ((readLE o.state.flash (cfg.CODE_REGION_1_START + cfg.DESCRIPTOR_SIZE) 4 =
            cfg.STACK_BEGIN ∧ a = cfg.CODE_REGION_1_START + cfg.DESCRIPTOR_SIZE) ∨
        (readLE o.state.flash (cfg.CODE_REGION_1_START + cfg.DESCRIPTOR_SIZE) 4 ≠
            cfg.STACK_BEGIN ∧
          readLE o.state.flash cfg.CODE_REGION_1_START 4 = cfg.STACK_BEGIN ∧
          a = cfg.CODE_REGION_1_START))) := by
  obtain ⟨st, hpre, hend⟩ := main_shape cfg env f o h
  rcases hend with ⟨a', rfl, hreason⟩ | rfl | rfl
  · obtain ⟨tail, ht, _, htail⟩ := vBoot_trace_cases cfg env a' st
    have ha : a = a' := by
      rw [ht] at hboot
      simp only [List.mem_append, List.mem_cons] at hboot
      rcases hboot with hs | hs | hs | hs | hs
      · exact absurd hs (not_preTerminal_mem _ hpre _ rfl)
      · cases hs; rfl
      · cases hs
      · cases hs
      · exact absurd rfl ((htail _ hs).2.2.2.2.1 a)
    subst ha
    rw [vBoot_flash]
    rcases hreason with ⟨pre, mid, hst, hmid, hexec⟩ | hleg
    · refine Or.inl ⟨pre, mid, Event.xCryptoUnInit :: Event.vDisableInterrupts :: tail,
        ?_, ?_, ?_, hexec⟩
      · rw [ht, hst]
      · intro e he
        refine ⟨?_, hmid e he⟩
        intro x r hx
        subst hx
        have := hmid _ he
        cases this
      · intro e he x hx
        subst hx
        simp only [List.mem_cons] at he
        rcases he with hs | hs | hs
        · cases hs
        · cases hs
        · exact absurd rfl ((htail _ hs).2.2.2.2.1 x)
    · exact Or.inr hleg
  · simp [NVIC_SystemReset] at hboot
    exact absurd hboot (not_preTerminal_mem _ hpre _ rfl)
  · simp [vBlinkLedsNoCorrectFirmware] at hboot
    exact absurd hboot (not_preTerminal_mem _ hpre _ rfl)

/-- C15 (amended): on every run of `main` the trace splits into a first part that holds
no `vDisableInterrupts` and a second part that holds no flash mutation, so every page
erase and every write happens while `vDisableInterrupts` has not been called; when
`vDisableInterrupts` is called at all, the second part starts with `vBoot`,
`xCryptoUnInit`, `vDisableInterrupts`: interrupts are disabled by `vBoot` only, after
all flash mutation and before the handoff. -/
theorem main_mutations_precede_vDisableInterrupts (cfg : Config) (env : Env) (f : Flash)
    (o : Outcome) (h : main cfg env f = some o) :
    ∃ pre tail, o.state.trace = pre ++ tail ∧
      Event.vDisableInterrupts ∉ pre ∧
      (∀ e ∈ tail, Event.isFlashMutation e = false) ∧
      (∀ e ∈ o.state.trace, Event.isFlashMutation e = true → e ∈ pre) ∧
      (Event.vDisableInterrupts ∈ o.state.trace →
        ∃ a rest, tail = Event.vBoot a :: Event.xCryptoUnInit ::
          Event.vDisableInterrupts :: rest ∧ Event.vDisableInterrupts ∉ rest) := by
  have hsplit : ∀ (pre tail : List Event), o.state.trace = pre ++ tail →
      (∀ e ∈ tail, Event.isFlashMutation e = false) →
      ∀ e ∈ o.state.trace, Event.isFlashMutation e = true → e ∈ pre := by
    intro pre tail ht htail e he hm
    rw [ht] at he
    rcases List.mem_append.1 he with h1 | h1
    · exact h1
    · rw [htail e h1] at hm
      cases hm
  obtain ⟨st, hpre, hend⟩ := main_shape cfg env f o h
  have hnd : Event.vDisableInterrupts ∉ st.trace := not_preTerminal_mem _ hpre _ rfl
  rcases hend with ⟨a, rfl, _⟩ | rfl | rfl
  · obtain ⟨tail, ht, _, htail⟩ := vBoot_trace_cases cfg env a st
    have hno : ∀ e ∈ Event.vBoot a :: Event.xCryptoUnInit :: Event.vDisableInterrupts :: tail,
        Event.isFlashMutation e = false := by
      intro e he
      simp only [List.mem_cons] at he
      rcases he with rfl | rfl | rfl | he
      · rfl
      · rfl
      · rfl
      · exact (htail e he).2.1
    refine ⟨st.trace, _, ht, hnd, hno, hsplit _ _ ht hno, ?_⟩
    intro _
    refine ⟨a, tail, rfl, ?_⟩
    intro hmem
    exact (htail _ hmem).2.2.1 rfl
  · have ht : (NVIC_SystemReset st).state.trace = st.trace ++ [Event.NVIC_SystemReset] := rfl
    have hno : ∀ e ∈ [Event.NVIC_SystemReset], Event.isFlashMutation e = false := by
      intro e he
      rw [List.mem_singleton.1 he]; rfl
    refine ⟨st.trace, _, ht, hnd, hno, hsplit _ _ ht hno, ?_⟩
    intro hmem
    rw [ht] at hmem
    simp only [List.mem_append, List.mem_singleton] at hmem
    rcases hmem with hs | hs
    · exact absurd hs hnd
    · cases hs
  · have ht : (vBlinkLedsNoCorrectFirmware st).state.trace =
        st.trace ++ [Event.vBlinkLeds LedStatus_t.LED_NO_CORRECT_FIRMWARE] := rfl
    have hno : ∀ e ∈ [Event.vBlinkLeds LedStatus_t.LED_NO_CORRECT_FIRMWARE],
        Event.isFlashMutation e = false := by
      intro e he
      rw [List.mem_singleton.1 he]; rfl
    refine ⟨st.trace, _, ht, hnd, hno, hsplit _ _ ht hno, ?_⟩
    intro hmem
    rw [ht] at hmem
    simp only [List.mem_append, List.mem_singleton] at hmem
    rcases hmem with hs | hs
    · exact absurd hs hnd
    · cases hs

/-- An instance of `main_handoff_after_xCryptoUnInit`: the run on a valid first bank and
an empty second bank hands off at `0x27000`. -/
theorem main_handoff_after_xCryptoUnInit_witness :
    ∃ o, main sampleCfg acceptAll (flashWith (some imageA) none) = some o ∧
      Event.vStartApplication 0x27000 ∈ o.state.trace ∧
      o.state.trace = [Event.vBlinkLeds LedStatus_t.LED_BOOT, Event.xCryptoInit,
        Event.xVerifyImageSignature 0x26000 ret_code_t.NRF_SUCCESS] ++
        [Event.vBoot 0x27000, Event.xCryptoUnInit, Event.vDisableInterrupts,
          Event.sd_mbr_command ret_code_t.NRF_SUCCESS,
          Event.sd_softdevice_vector_table_base_set 0xF0000 ret_code_t.NRF_SUCCESS,
          Event.sd_softdevice_vector_table_base_set 0x27000 ret_code_t.NRF_SUCCESS,
          Event.vStartApplication 0x27000] ∧
      o.terminal = Terminal.startApplication 0x27000 := by
  have hm : main sampleCfg acceptAll (flashWith (some imageA) none) =
      some (evaluateBankA sampleCfg acceptAll true
        (startState (flashWith (some imageA) none))) := rfl
  have hin : Event.vStartApplication 0x27000 ∈
      (evaluateBankA sampleCfg acceptAll true
        (startState (flashWith (some imageA) none))).state.trace := by
    decide
  obtain ⟨_, _, _, _, _, _, _, _, hterm⟩ :=
    main_handoff_after_xCryptoUnInit sampleCfg acceptAll (flashWith (some imageA) none)
      _ 0x27000 hm hin
  exact ⟨_, hm, hin, by decide, hterm⟩

/-- An instance of `main_boot_requires_signature`: the same run calls `vBoot( 0x27000 )`
right after the successful check of the first bank. -/
theorem main_boot_requires_signature_witness :
    ∃ o, main sampleCfg acceptAll (flashWith (some imageA) none) = some o ∧
      Event.vBoot 0x27000 ∈ o.state.trace ∧
      ((∃ pre mid post, o.state.trace = pre ++
            Event.xVerifyImageSignature sampleCfg.CODE_REGION_1_START
              ret_code_t.NRF_SUCCESS :: mid ++ Event.vBoot 0x27000 :: post ∧
          (∀ e ∈ mid, (∀ x r, e ≠ Event.xVerifyImageSignature x r) ∧
            Event.ofBankRoutine e = true) ∧
          (∀ e ∈ post, ∀ x, e ≠ Event.vBoot x) ∧
          0x27000 = ulExecutionAddress sampleCfg o.state.flash
            sampleCfg.CODE_REGION_1_START) ∨
        (bValidateHeader sampleCfg (flashWith (some imageA) none)
            sampleCfg.CODE_REGION_1_START ≠ ret_code_t.NRF_SUCCESS ∧
          ((readLE o.state.flash (sampleCfg.CODE_REGION_1_START +
                sampleCfg.DESCRIPTOR_SIZE) 4 = sampleCfg.STACK_BEGIN ∧
              0x27000 = sampleCfg.CODE_REGION_1_START + sampleCfg.DESCRIPTOR_SIZE) ∨
            (readLE o.state.flash (sampleCfg.CODE_REGION_1_START +
                sampleCfg.DESCRIPTOR_SIZE) 4 ≠ sampleCfg.STACK_BEGIN ∧
              readLE o.state.flash sampleCfg.CODE_REGION_1_START 4 =
                sampleCfg.STACK_BEGIN ∧
              0x27000 = sampleCfg.CODE_REGION_1_START)))) := by
  have hm : main sampleCfg acceptAll (flashWith (some imageA) none) =
      some (evaluateBankA sampleCfg acceptAll true
        (startState (flashWith (some imageA) none))) := rfl
  have hin : Event.vBoot 0x27000 ∈
      (evaluateBankA sampleCfg acceptAll true
        (startState (flashWith (some imageA) none))).state.trace := by
    decide
  exact ⟨_, hm, hin,
    main_boot_requires_signature sampleCfg acceptAll (flashWith (some imageA) none)
      _ 0x27000 hm hin⟩

/-- An instance of `main_mutations_precede_vDisableInterrupts`: the run that erases a
stale second bank and then boots the first bank. -/
theorem main_mutations_precede_vDisableInterrupts_witness :
    ∃ o, main sampleCfg acceptAll (flashWith (some imageA) (some stagedStale)) = some o ∧
      ∃ pre tail, o.state.trace = pre ++ tail ∧
        Event.vDisableInterrupts ∉ pre ∧
        (∀ e ∈ tail, Event.isFlashMutation e = false) ∧
        (∀ e ∈ o.state.trace, Event.isFlashMutation e = true → e ∈ pre) ∧
        (Event.vDisableInterrupts ∈ o.state.trace →
          ∃ a rest, tail = Event.vBoot a :: Event.xCryptoUnInit ::
            Event.vDisableInterrupts :: rest ∧ Event.vDisableInterrupts ∉ rest) := by
  have hs : (main sampleCfg acceptAll
      (flashWith (some imageA) (some stagedStale))).isSome = true := by
    decide
  have hm := (Option.some_get hs).symm
  exact ⟨_, hm,
    main_mutations_precede_vDisableInterrupts sampleCfg acceptAll
      (flashWith (some imageA) (some stagedStale)) _ hm⟩

/-- C15 (as stated) fails: in the run that erases a stale second bank and then boots the
first bank, the page erase of `vEraseSecondBank` is the fourth event, while
`vDisableInterrupts` is called only later, inside `vBoot`. -/
theorem main_erases_before_vDisableInterrupts :
    (main sampleCfg acceptAll (flashWith (some imageA) (some stagedStale))).map
        (fun o => (o.state.trace.take 4, mutatesBeforeDisable o.state.trace,
          decide (Event.vDisableInterrupts ∈ o.state.trace.take 4),
          decide (Event.vDisableInterrupts ∈ o.state.trace))) =
      some ([Event.vBlinkLeds LedStatus_t.LED_BOOT, Event.xCryptoInit,
          Event.vEraseSecondBank, Event.nrf_nvmc_page_erase 0x2A000],
        true, false, true) := by
  decide

/-! ## The first bank without a valid header, and an invalid second bank -/

theorem main_eq_evaluateBankA (cfg : Config) (env : Env) (f : Flash)
    (hB : bValidateHeader cfg f cfg.CODE_REGION_2_START ≠ ret_code_t.NRF_SUCCESS) :
    main cfg env f = some (evaluateBankA cfg env
      (decide (bValidateHeader cfg f cfg.CODE_REGION_1_START = ret_code_t.NRF_SUCCESS))
      (startState f)) := by
  simp [main, hB]

theorem vBoot_events (cfg : Config) (env : Env) (address : Nat) (st : State) :
    ∃ tail, (vBoot cfg env address st).state.trace = st.trace ++ tail ∧
      ∀ e ∈ tail, Event.ofBoot e = true := by
  obtain ⟨tail, ht, _, htail⟩ := vBoot_trace_cases cfg env address st
  refine ⟨_, ht, ?_⟩
  intro e he
  simp only [List.mem_cons] at he
  rcases he with rfl | rfl | rfl | he
  · rfl
  · rfl
  · rfl
  · exact (htail e he).1

theorem ofBoot_facts (e : Event) (h : Event.ofBoot e = true) :
    e ≠ Event.vCommitSecondBank ∧ (∀ a r, e ≠ Event.xVerifyImageSignature a r) ∧
      Event.isFlashMutation e = false := by
  cases e <;> simp_all [Event.ofBoot, Event.isFlashMutation]

/-- C12: the evaluation of the first bank entered with an invalid header adds no
`vCommitSecondBank`, no call of the verifier and no flash mutation to the trace, leaves
flash unchanged, and decides by the stack-pointer word: if the word at
`CODE_REGION_1_START + DESCRIPTOR_SIZE` is `STACK_BEGIN` the run is `vBoot` at that
address; otherwise, if the word at `CODE_REGION_1_START` is `STACK_BEGIN`, the run is
`vBoot` at `CODE_REGION_1_START`; otherwise the only event is `NVIC_SystemReset`, the
terminal action is the reset and nothing is booted. When both headers are invalid at
power-on, this evaluation is all `main` does after `xCryptoInit`. -/
theorem evaluateBankA_invalid_header (cfg : Config) (env : Env) (st : State) :
    (∀ e ∈ eventsSince st (evaluateBankA cfg env false st).state,
      e ≠ Event.vCommitSecondBank ∧ (∀ a r, e ≠ Event.xVerifyImageSignature a r) ∧
        Event.isFlashMutation e = false) ∧
    (evaluateBankA cfg env false st).state.flash = st.flash ∧
    (readLE st.flash (cfg.CODE_REGION_1_START + cfg.DESCRIPTOR_SIZE) 4 = cfg.STACK_BEGIN →
      evaluateBankA cfg env false st =
        vBoot cfg env (cfg.CODE_REGION_1_START + cfg.DESCRIPTOR_SIZE) st) ∧
    (readLE st.flash (cfg.CODE_REGION_1_START + cfg.DESCRIPTOR_SIZE) 4 ≠ cfg.STACK_BEGIN →
      readLE st.flash cfg.CODE_REGION_1_START 4 = cfg.STACK_BEGIN →
      evaluateBankA cfg env false st = vBoot cfg env cfg.CODE_REGION_1_START st) ∧
    (readLE st.flash (cfg.CODE_REGION_1_START + cfg.DESCRIPTOR_SIZE) 4 ≠ cfg.STACK_BEGIN →
      readLE st.flash cfg.CODE_REGION_1_START 4 ≠ cfg.STACK_BEGIN →
      evaluateBankA cfg env false st = NVIC_SystemReset st ∧
        (evaluateBankA cfg env false st).terminal = Terminal.systemReset ∧
        eventsSince st (evaluateBankA cfg env false st).state = [Event.NVIC_SystemReset]) ∧
    (∀ address, (vBoot cfg env address st).terminal ≠ Terminal.blinkForever ∧
      (env.sd_mbr_command = ret_code_t.NRF_SUCCESS →
        env.sd_softdevice_vector_table_base_set cfg.BOOTLOADER_REGION_START =
          ret_code_t.NRF_SUCCESS →
        (vBoot cfg env address st).terminal = Terminal.startApplication address)) ∧
    (∀ f : Flash,
      bValidateHeader cfg f cfg.CODE_REGION_1_START ≠ ret_code_t.NRF_SUCCESS →
      bValidateHeader cfg f cfg.CODE_REGION_2_START ≠ ret_code_t.NRF_SUCCESS →
      main cfg env f = some (evaluateBankA cfg env false (startState f))) := by
  have hev : ∀ (o : Outcome) (tail : List Event), o.state.trace = st.trace ++ tail →
      (∀ e ∈ tail, Event.ofBoot e = true) →
      ∀ e ∈ eventsSince st o.state,
        e ≠ Event.vCommitSecondBank ∧ (∀ a r, e ≠ Event.xVerifyImageSignature a r) ∧
          Event.isFlashMutation e = false := by
    intro o tail ht htail e he
    rw [eventsSince_append st o.state tail ht] at he
    exact ofBoot_facts e (htail e he)
  have h1 : readLE st.flash (cfg.CODE_REGION_1_START + cfg.DESCRIPTOR_SIZE) 4 =
      cfg.STACK_BEGIN →
      evaluateBankA cfg env false st =
        vBoot cfg env (cfg.CODE_REGION_1_START + cfg.DESCRIPTOR_SIZE) st := by
    intro h
    simp [evaluateBankA, h]
  have h2 : readLE st.flash (cfg.CODE_REGION_1_START + cfg.DESCRIPTOR_SIZE) 4 ≠
      cfg.STACK_BEGIN →
      readLE st.flash cfg.CODE_REGION_1_START 4 = cfg.STACK_BEGIN →
      evaluateBankA cfg env false st = vBoot cfg env cfg.CODE_REGION_1_START st := by
    intro h h'
    simp [evaluateBankA, h, h']
  have h3 : readLE st.flash (cfg.CODE_REGION_1_START + cfg.DESCRIPTOR_SIZE) 4 ≠
      cfg.STACK_BEGIN →
      readLE st.flash cfg.CODE_REGION_1_START 4 ≠ cfg.STACK_BEGIN →
      evaluateBankA cfg env false st = NVIC_SystemReset st := by
    intro h h'
    simp [evaluateBankA, h, h']
  refine ⟨?_, evaluateBankA_flash _ _ _ _, h1, h2, ?_, fun address =>
    vBoot_terminal cfg env address st, ?_⟩
  · by_cases c1 : readLE st.flash (cfg.CODE_REGION_1_START + cfg.DESCRIPTOR_SIZE) 4 =
        cfg.STACK_BEGIN
    · rw [h1 c1]
      obtain ⟨tail, ht, htail⟩ := vBoot_events cfg env
        (cfg.CODE_REGION_1_START + cfg.DESCRIPTOR_SIZE) st
      exact hev _ tail ht htail
    · by_cases c0 : readLE st.flash cfg.CODE_REGION_1_START 4 = cfg.STACK_BEGIN
      · rw [h2 c1 c0]
        obtain ⟨tail, ht, htail⟩ := vBoot_events cfg env cfg.CODE_REGION_1_START st
        exact hev _ tail ht htail
      · rw [h3 c1 c0]
        exact hev _ [Event.NVIC_SystemReset] rfl (by simp [Event.ofBoot])
  · intro c1 c0
    refine ⟨h3 c1 c0, by rw [h3 c1 c0]; rfl, ?_⟩
    rw [h3 c1 c0]
    exact eventsSince_append st _ _ rfl
  · intro f hA hB
    rw [main_eq_evaluateBankA cfg env f hB]
    simp [hA]

/-- An instance of `evaluateBankA_invalid_header`: on an erased flash both headers are
invalid and no stack-pointer word is found, so `main` resets. -/
theorem evaluateBankA_invalid_header_witness :
    main sampleCfg acceptAll (flashWith none none) =
      some (evaluateBankA sampleCfg acceptAll false (startState (flashWith none none))) ∧
    (evaluateBankA sampleCfg acceptAll false (startState (flashWith none none))).terminal =
      Terminal.systemReset ∧
    eventsSince (startState (flashWith none none))
      (evaluateBankA sampleCfg acceptAll false (startState (flashWith none none))).state =
      [Event.NVIC_SystemReset] :=
  ⟨(evaluateBankA_invalid_header sampleCfg acceptAll
      (startState (flashWith none none))).2.2.2.2.2.2 (flashWith none none)
      (by decide) (by decide),
   ((evaluateBankA_invalid_header sampleCfg acceptAll
      (startState (flashWith none none))).2.2.2.2.1 (by decide) (by decide)).2.1,
   ((evaluateBankA_invalid_header sampleCfg acceptAll
      (startState (flashWith none none))).2.2.2.2.1 (by decide) (by decide)).2.2⟩

theorem bValidateHeader_congr (cfg : Config) (f g : Flash) (address : Nat)
    (hmag : ∀ i, i < cfg.MAGICK_SIZE → g (address + i) = f (address + i))
    (hhw : ∀ i, i < 4 → g (address + cfg.offsetof_ulHardwareID + i) =
      f (address + cfg.offsetof_ulHardwareID + i)) :
    bValidateHeader cfg g address = bValidateHeader cfg f address := by
  have hh : ulHardwareID cfg g address = ulHardwareID cfg f address :=
    readLE_congr g f 4 _ _ hhw
  have hm : bMagickCorrect cfg g address = bMagickCorrect cfg f address := by
    rw [Bool.eq_iff_iff, bMagickCorrect_iff, bMagickCorrect_iff]
    constructor
    · intro h i hi; rw [← hmag i hi]; exact h i hi
    · intro h i hi; rw [hmag i hi]; exact h i hi
  simp only [bValidateHeader, hh, hm]

theorem evaluateBankA_mem_trace (cfg : Config) (env : Env) (b : Bool) (st : State)
    (e : Event) (he : e ∈ (evaluateBankA cfg env b st).state.trace) :
    e ∈ st.trace ∨ Event.ofBankAEvaluation cfg e = true := by
  obtain ⟨tail, ht, htail⟩ := evaluateBankA_trace cfg env b st
  rw [ht] at he
  rcases List.mem_append.1 he with h | h
  · exact Or.inl h
  · exact Or.inr (htail e h)

/-- C13: when the header of the second bank is invalid, `main` is the evaluation of the
first bank run from the start state: flash at the terminal action is the flash found at
power-on, the trace holds no page erase, no write, no `vCommitSecondBank` and no call
of the verifier on `CODE_REGION_2_START`. The terminal action depends on the first bank
only: a second flash state whose second-bank header is also invalid, that has the same
bytes in `[CODE_REGION_1_START, CODE_REGION_2_START)` and on which the verifier gives
the same verdict on the first bank, leads to the same terminal action (for constants
that place what is read of the first bank inside the first bank). -/
theorem main_invalid_second_bank (cfg : Config) (env : Env) (f : Flash)
    (hne : cfg.CODE_REGION_1_START ≠ cfg.CODE_REGION_2_START)
    (hB : bValidateHeader cfg f cfg.CODE_REGION_2_START ≠ ret_code_t.NRF_SUCCESS) :
    ∃ o, main cfg env f = some o ∧
      o = evaluateBankA cfg env
        (decide (bValidateHeader cfg f cfg.CODE_REGION_1_START = ret_code_t.NRF_SUCCESS))
        (startState f) ∧
      o.state.flash = f ∧
      (∀ e ∈ o.state.trace, Event.isFlashMutation e = false) ∧
      Event.vCommitSecondBank ∉ o.state.trace ∧
      (∀ r, Event.xVerifyImageSignature cfg.CODE_REGION_2_START r ∉ o.state.trace) ∧
      (∀ g : Flash, cfg.FirstBankHoldsReads →
        bValidateHeader cfg g cfg.CODE_REGION_2_START ≠ ret_code_t.NRF_SUCCESS →
        (∀ a, cfg.CODE_REGION_1_START ≤ a → a < cfg.CODE_REGION_2_START → g a = f a) →
        env.xVerifyImageSignature g cfg.CODE_REGION_1_START =
          env.xVerifyImageSignature f cfg.CODE_REGION_1_START →
        ∃ o', main cfg env g = some o' ∧ o'.terminal = o.terminal) := by
  have hstart : ∀ e ∈ (startState f).trace,
      e = Event.vBlinkLeds LedStatus_t.LED_BOOT ∨ e = Event.xCryptoInit := by
    intro e he
    rw [startState_trace] at he
    simpa using he
  refine ⟨_, main_eq_evaluateBankA cfg env f hB, rfl, evaluateBankA_flash _ _ _ _,
    ?_, ?_, ?_, ?_⟩
  · intro e he
    rcases evaluateBankA_mem_trace cfg env _ _ e he with h | h
    · rcases hstart e h with rfl | rfl <;> rfl
    · cases e <;> simp_all [Event.ofBankAEvaluation, Event.isFlashMutation]
  · intro he
    rcases evaluateBankA_mem_trace cfg env _ _ _ he with h | h
    · rcases hstart _ h with h' | h' <;> cases h'
    · simp [Event.ofBankAEvaluation] at h
  · intro r he
    rcases evaluateBankA_mem_trace cfg env _ _ _ he with h | h
    · rcases hstart _ h with h' | h' <;> cases h'
    · simp only [Event.ofBankAEvaluation, beq_iff_eq] at h
      exact hne h.symm
  · intro g hlay hBg hcontent hsig
    obtain ⟨l1, l2, l3, l4, l5⟩ := hlay
    have hhdr : bValidateHeader cfg g cfg.CODE_REGION_1_START =
        bValidateHeader cfg f cfg.CODE_REGION_1_START :=
      bValidateHeader_congr cfg f g _
        (fun i hi => hcontent _ (by omega) (by omega))
        (fun i hi => hcontent _ (by omega) (by omega))
    refine ⟨_, main_eq_evaluateBankA cfg env g hBg, ?_⟩
    rw [hhdr]
    apply evaluateBankA_terminal_congr cfg env _ _ _ hsig
    · exact readLE_congr _ _ _ _ _ (fun i hi => hcontent _ (by omega) (by omega))
    · exact readLE_congr _ _ _ _ _ (fun i hi => hcontent _ (by omega) (by omega))
    · intro _
      exact readLE_congr _ _ _ _ _ (fun i hi => hcontent _ (by omega) (by omega))
    · intro _
      exact readLE_congr _ _ _ _ _ (fun i hi => hcontent _ (by omega) (by omega))

/-- An instance of `main_invalid_second_bank`: with `imageA` in the first bank, an
erased second bank and a second bank that starts with a zero byte both lead to the
start of the application at `0x27000`. -/
theorem main_invalid_second_bank_witness :
    sampleCfg.CODE_REGION_1_START ≠ sampleCfg.CODE_REGION_2_START ∧
    bValidateHeader sampleCfg (flashWith (some imageA) none)
      sampleCfg.CODE_REGION_2_START ≠ ret_code_t.NRF_SUCCESS ∧
    ∃ o, main sampleCfg acceptAll (flashWith (some imageA) none) = some o ∧
      o.terminal = Terminal.startApplication 0x27000 ∧
      (∀ e ∈ o.state.trace, Event.isFlashMutation e = false) ∧
      ∃ o', main sampleCfg acceptAll garbageSecondBank = some o' ∧
        o'.terminal = o.terminal := by
  refine ⟨by decide, by decide, ?_⟩
  obtain ⟨o, h1, h2, _, h4, _, _, h7⟩ :=
    main_invalid_second_bank sampleCfg acceptAll (flashWith (some imageA) none)
      (by decide) (by decide)
  refine ⟨o, h1, by rw [h2]; decide, h4, ?_⟩
  refine h7 garbageSecondBank ⟨by decide, by decide, by decide, by decide, by decide⟩
    (by decide) ?_ rfl
  intro a h1a h2a
  have h2a' : a < 0x2A000 := h2a
  simp only [garbageSecondBank]
  rw [if_neg (by omega)]

/-! ## The commit whose result fails the signature check -/

theorem acceptSecondOnly_rejects_first (g : Flash) :
    acceptSecondOnly.xVerifyImageSignature g sampleCfg.CODE_REGION_1_START ≠
      ret_code_t.NRF_SUCCESS := by
  intro h
  simp [acceptSecondOnly, sampleCfg] at h

theorem acceptSecondOnly_programsErased : acceptSecondOnly.ProgramsErased := by
  intro b
  simp [acceptSecondOnly, acceptAll]

/-- C11 (amended): when the commit of the second bank has run and returned and the
signature check of the first bank after it fails, `main` ends with `NVIC_SystemReset`
right after that check: the terminal action is the reset, flash is as the commit left
it, and the trace holds no `vBoot`, no `vStartApplication`, no failure indication, no
`vSetBankFlag` and no `vEraseSecondBank`. When moreover the staged image fits in the
first bank, every byte from `CODE_REGION_2_START` on (descriptor and payload of the
second bank) is what it was at power-on. -/
theorem main_commit_integrity_failure (cfg : Config) (env : Env) (f : Flash) (st1 : State)
    (hB : bValidateHeader cfg f cfg.CODE_REGION_2_START = ret_code_t.NRF_SUCCESS)
    (hfresh : ¬ (bValidateHeader cfg f cfg.CODE_REGION_1_START = ret_code_t.NRF_SUCCESS ∧
      ulSequenceNumber cfg f cfg.CODE_REGION_1_START >
        ulSequenceNumber cfg f cfg.CODE_REGION_2_START))
    (hsigB : env.xVerifyImageSignature f cfg.CODE_REGION_2_START = ret_code_t.NRF_SUCCESS)
    (hflags : usImageFlags cfg f cfg.CODE_REGION_2_START = cfg.IMAGE_FLAG_NEW ∨
      usImageFlags cfg f cfg.CODE_REGION_2_START = cfg.IMAGE_FLAG_VALID)
    (hcommit : vCommitSecondBank cfg env ((startState f).log
        (Event.xVerifyImageSignature cfg.CODE_REGION_2_START ret_code_t.NRF_SUCCESS)) =
      some st1)
    (hsigA : env.xVerifyImageSignature st1.flash cfg.CODE_REGION_1_START ≠
      ret_code_t.NRF_SUCCESS) :
    ∃ o, main cfg env f = some o ∧
      o = NVIC_SystemReset (st1.log (Event.xVerifyImageSignature cfg.CODE_REGION_1_START
        (env.xVerifyImageSignature st1.flash cfg.CODE_REGION_1_START))) ∧
      o.terminal = Terminal.systemReset ∧
      o.state.flash = st1.flash ∧
      (∀ a, Event.vBoot a ∉ o.state.trace) ∧
      (∀ a, Event.vStartApplication a ∉ o.state.trace) ∧
      Event.vBlinkLeds LedStatus_t.LED_NO_CORRECT_FIRMWARE ∉ o.state.trace ∧
      (∀ b x, Event.vSetBankFlag b x ∉ o.state.trace) ∧
      Event.vEraseSecondBank ∉ o.state.trace ∧
      (cfg.WellFormed → env.ProgramsErased → ImageFits cfg f →
        ∀ a, cfg.CODE_REGION_2_START ≤ a → o.state.flash a = f a) := by
  have hfresh' : ¬ (decide (bValidateHeader cfg f cfg.CODE_REGION_1_START =
        ret_code_t.NRF_SUCCESS) = true ∧
      ulSequenceNumber cfg (startState f).flash cfg.CODE_REGION_1_START >
        ulSequenceNumber cfg (startState f).flash cfg.CODE_REGION_2_START) := by
    simpa [startState_flash] using hfresh
  have hmain : main cfg env f = commitAndBoot cfg env ((startState f).log
      (Event.xVerifyImageSignature cfg.CODE_REGION_2_START ret_code_t.NRF_SUCCESS)) := by
    rw [main_eq_evaluateBankB cfg env f hB]
    simp only [evaluateBankB, State.log_flash]
    rw [if_neg hfresh', if_neg (by simpa [startState_flash] using hsigB),
      if_pos (by simpa [startState_flash] using hflags)]
    simp only [startState_flash, hsigB]
  have hres : commitAndBoot cfg env ((startState f).log
      (Event.xVerifyImageSignature cfg.CODE_REGION_2_START ret_code_t.NRF_SUCCESS)) =
      some (NVIC_SystemReset (st1.log (Event.xVerifyImageSignature cfg.CODE_REGION_1_START
        (env.xVerifyImageSignature st1.flash cfg.CODE_REGION_1_START)))) := by
    simp only [commitAndBoot]
    rw [hcommit]
    simp only [Option.some_bind, State.log_flash]
    rw [if_neg hsigA]
  obtain ⟨tail, ht, htail⟩ := vCommitSecondBank_trace cfg env _ st1 hcommit
  have htrace : ∀ e ∈ (NVIC_SystemReset (st1.log (Event.xVerifyImageSignature
      cfg.CODE_REGION_1_START
      (env.xVerifyImageSignature st1.flash cfg.CODE_REGION_1_START)))).state.trace,
      Event.isPreTerminal e = true ∧ Event.ofBankRoutine e = false ∨
        e = Event.vCommitSecondBank ∨ Event.isFlashMutation e = true ∨
        e = Event.NVIC_SystemReset := by
    intro e he
    simp only [NVIC_SystemReset, State.log_trace, ht, startState_trace, List.mem_append,
      List.mem_cons, List.mem_singleton, List.not_mem_nil, or_false] at he
    rcases he with ((((rfl | rfl) | rfl) | rfl | he) | rfl) | rfl
    · exact Or.inl ⟨rfl, rfl⟩
    · exact Or.inl ⟨rfl, rfl⟩
    · exact Or.inl ⟨rfl, rfl⟩
    · exact Or.inr (Or.inl rfl)
    · exact Or.inr (Or.inr (Or.inl (htail e he)))
    · exact Or.inl ⟨rfl, rfl⟩
    · exact Or.inr (Or.inr (Or.inr rfl))
  have hnot : ∀ e : Event, Event.isPreTerminal e = false → Event.isFlashMutation e = false →
      e ≠ Event.vCommitSecondBank → e ≠ Event.NVIC_SystemReset →
      e ∉ (NVIC_SystemReset (st1.log (Event.xVerifyImageSignature
        cfg.CODE_REGION_1_START
        (env.xVerifyImageSignature st1.flash cfg.CODE_REGION_1_START)))).state.trace := by
    intro e h1 h2 h3 h4 hmem
    rcases htrace e hmem with h | h | h | h
    · rw [h.1] at h1; cases h1
    · exact h3 h
    · rw [h] at h2; cases h2
    · exact h4 h
  have hnotR : ∀ e : Event, Event.ofBankRoutine e = true → Event.isFlashMutation e = false →
      e ≠ Event.vCommitSecondBank →
      e ∉ (NVIC_SystemReset (st1.log (Event.xVerifyImageSignature
        cfg.CODE_REGION_1_START
        (env.xVerifyImageSignature st1.flash cfg.CODE_REGION_1_START)))).state.trace := by
    intro e h1 h2 h3 hmem
    rcases htrace e hmem with h | h | h | h
    · rw [h.2] at h1; cases h1
    · exact h3 h
    · rw [h] at h2; cases h2
    · subst h; cases h1
  refine ⟨_, by rw [hmain]; exact hres, rfl, rfl, rfl, ?_, ?_, ?_, ?_, ?_, ?_⟩
  · intro a
    exact hnot _ rfl rfl (by intro h; cases h) (by intro h; cases h)
  · intro a
    exact hnot _ rfl rfl (by intro h; cases h) (by intro h; cases h)
  · exact hnot _ rfl rfl (by intro h; cases h) (by intro h; cases h)
  · intro b x
    exact hnotR _ rfl rfl (by intro h; cases h)
  · exact hnotR _ rfl rfl (by intro h; cases h)
  · intro hwf hprog hfits a ha
    obtain ⟨st', hc, _, _, hab, _⟩ := vCommitSecondBank_fits cfg env hwf hprog
      ((startState f).log
        (Event.xVerifyImageSignature cfg.CODE_REGION_2_START ret_code_t.NRF_SUCCESS))
      hfits
    rw [hcommit] at hc
    cases hc
    exact hab a ha

/-- An instance of `main_commit_integrity_failure`: the staged image of `stagedFlash`
fits, the verifier accepts the second bank and rejects the first bank after the
commit; `main` resets and the second bank is intact. -/
theorem main_commit_integrity_failure_witness :
    bValidateHeader sampleCfg stagedFlash sampleCfg.CODE_REGION_2_START =
      ret_code_t.NRF_SUCCESS ∧
    acceptSecondOnly.xVerifyImageSignature stagedFlash sampleCfg.CODE_REGION_2_START =
      ret_code_t.NRF_SUCCESS ∧
    usImageFlags sampleCfg stagedFlash sampleCfg.CODE_REGION_2_START =
      sampleCfg.IMAGE_FLAG_NEW ∧
    ∃ o, main sampleCfg acceptSecondOnly stagedFlash = some o ∧
      o.terminal = Terminal.systemReset ∧
      Event.vEraseSecondBank ∉ o.state.trace ∧
      ∀ a, sampleCfg.CODE_REGION_2_START ≤ a → o.state.flash a = stagedFlash a := by
  refine ⟨by decide, by decide, by decide, ?_⟩
  obtain ⟨st1, hc, _⟩ := vCommitSecondBank_fits sampleCfg acceptSecondOnly
    sampleCfg_wellFormed acceptSecondOnly_programsErased
    ((startState stagedFlash).log
      (Event.xVerifyImageSignature sampleCfg.CODE_REGION_2_START ret_code_t.NRF_SUCCESS))
    (by unfold ImageFits; decide)
  obtain ⟨o, h1, _, h3, _, _, _, _, _, h9, h10⟩ :=
    main_commit_integrity_failure sampleCfg acceptSecondOnly stagedFlash st1
      (by decide) (by decide) (by decide) (Or.inl (by decide)) hc
      (acceptSecondOnly_rejects_first _)
  exact ⟨o, h1, h3, h9,
    h10 sampleCfg_wellFormed acceptSecondOnly_programsErased
      (by unfold ImageFits; decide)⟩

/-- C11 (as stated) fails for a staged image that does not fit: with the oversize staged
image and a verifier that accepts the second bank and rejects the first bank after the
commit, `main` resets without `vEraseSecondBank`, but the erase at the start of
`vCommitSecondBank` has already wiped the descriptor of the second bank (its first
byte was `0x40` and is `0xFF` at the reset, and its header is no longer valid). -/
theorem main_oversize_commit_wipes_second_bank :
    (bValidateHeader sampleCfg (flashWith (some imageA) (some stagedOversize))
        sampleCfg.CODE_REGION_2_START = ret_code_t.NRF_SUCCESS ∧
      flashWith (some imageA) (some stagedOversize) sampleCfg.CODE_REGION_2_START = 0x40) ∧
    (main sampleCfg acceptSecondOnly (flashWith (some imageA) (some stagedOversize))).map
        (fun o => (o.terminal, decide (Event.vCommitSecondBank ∈ o.state.trace),
          decide (Event.xVerifyImageSignature sampleCfg.CODE_REGION_1_START
            ret_code_t.NRF_ERROR_OTHER ∈ o.state.trace),
          decide (Event.vEraseSecondBank ∈ o.state.trace),
          o.state.flash sampleCfg.CODE_REGION_2_START,
          bValidateHeader sampleCfg o.state.flash sampleCfg.CODE_REGION_2_START)) =
      some (Terminal.systemReset, true, true, false, 0xFF,
        ret_code_t.NRF_ERROR_INVALID_DATA) := by
  decide

/-! ## A staged image whose flags are none of the four image flags -/

/-- C18 fails on the code: the second bank holds a valid header, sequence number 5 over
3 and flags `0x00`, which is none of the four labels of the switch, and the verifier
accepts it. `main` reaches the evaluation of the first bank (it boots `0x27000`)
without any page erase, without a commit, and the header of the second bank is still
valid at the terminal action. -/
theorem main_unknown_flags_keeps_second_bank :
    (bValidateHeader sampleCfg (flashWith (some imageA) (some stagedUnknownFlags))
        sampleCfg.CODE_REGION_2_START = ret_code_t.NRF_SUCCESS ∧
      usImageFlags sampleCfg (flashWith (some imageA) (some stagedUnknownFlags))
        sampleCfg.CODE_REGION_2_START = 0x00) ∧
    (main sampleCfg acceptAll (flashWith (some imageA) (some stagedUnknownFlags))).map
        (fun o => (o.state.trace.take 4, o.terminal,
          o.state.trace.any Event.isFlashMutation,
          decide (Event.vCommitSecondBank ∈ o.state.trace),
          bValidateHeader sampleCfg o.state.flash sampleCfg.CODE_REGION_2_START,
          o.state.flash sampleCfg.CODE_REGION_2_START)) =
      some ([Event.vBlinkLeds LedStatus_t.LED_BOOT, Event.xCryptoInit,
          Event.xVerifyImageSignature 0x2A000 ret_code_t.NRF_SUCCESS,
          Event.xVerifyImageSignature 0x26000 ret_code_t.NRF_SUCCESS],
        Terminal.startApplication 0x27000, false, false, ret_code_t.NRF_SUCCESS, 0x40) := by
  decide

/-! ## The frame of vSetBankFlag -/

/-- An erase of a page-aligned range whose length is a positive multiple of the page
size erases exactly that range. -/
theorem vEraseRegion_aligned (cfg : Config) (hP : 0 < cfg.CODE_PAGE_SIZE)
    (base length : Nat) (st : State) (hlen : 0 < length)
    (hbase : base % cfg.CODE_PAGE_SIZE = 0) (hlength : length % cfg.CODE_PAGE_SIZE = 0)
    (htop : base + length < 4294967296) :
    ∃ st', vEraseRegion cfg base length st = some st' ∧
      (∀ a, st'.flash a = if base ≤ a ∧ a < base + length then 0xFF else st.flash a) ∧
      ∃ tail, st'.trace = st.trace ++ tail ∧
        ∀ e ∈ tail, ∃ a, e = Event.nrf_nvmc_page_erase a := by
  have hb := sub_mod_eq_div_mul base cfg.CODE_PAGE_SIZE
  rw [hbase, Nat.sub_zero] at hb
  have hl := sub_mod_eq_div_mul length cfg.CODE_PAGE_SIZE
  rw [hlength, Nat.sub_zero] at hl
  have hqd : 0 < length / cfg.CODE_PAGE_SIZE := by
    rcases Nat.eq_zero_or_pos (length / cfg.CODE_PAGE_SIZE) with h0 | h0
    · rw [h0, Nat.zero_mul] at hl
      omega
    · exact h0
  have hsum : base + length =
      (base / cfg.CODE_PAGE_SIZE + length / cfg.CODE_PAGE_SIZE) * cfg.CODE_PAGE_SIZE := by
    rw [Nat.add_mul, ← hb, ← hl]
  have hpos : 1 ≤ base / cfg.CODE_PAGE_SIZE + length / cfg.CODE_PAGE_SIZE :=
    Nat.le_trans hqd (Nat.le_add_left _ _)
  have hlast : (base + length - 1) / cfg.CODE_PAGE_SIZE =
      base / cfg.CODE_PAGE_SIZE + length / cfg.CODE_PAGE_SIZE - 1 := by
    apply Nat.div_eq_of_lt_le
    · have h1 : (base / cfg.CODE_PAGE_SIZE + length / cfg.CODE_PAGE_SIZE - 1 + 1) *
          cfg.CODE_PAGE_SIZE = base + length := by
        rw [Nat.sub_add_cancel hpos, hsum]
      rw [Nat.add_mul, Nat.one_mul] at h1
      omega
    · rw [Nat.sub_add_cancel hpos, ← hsum]
      omega
  have hcount : base / cfg.CODE_PAGE_SIZE + pagesOverlapping cfg base length =
      base / cfg.CODE_PAGE_SIZE + length / cfg.CODE_PAGE_SIZE := by
    have harith : ∀ qb qd : Nat, 0 < qd → qb + (qb + qd - 1 - qb + 1) = qb + qd := by
      intro qb qd h
      omega
    simp only [pagesOverlapping, hlast]
    exact harith _ _ hqd
  have htop' : ((base + length - 1) / cfg.CODE_PAGE_SIZE + 1) * cfg.CODE_PAGE_SIZE <
      4294967296 := by
    rw [hlast, Nat.sub_add_cancel hpos, ← hsum]
    exact htop
  refine ⟨_, vEraseRegion_eq cfg hP base length st hlen htop', ?_,
    _, erasePagesFrom_trace cfg _ _ st, ?_⟩
  · intro a
    simp only [erasePagesFrom]
    rw [hcount]
    have h1 : base / cfg.CODE_PAGE_SIZE ≤ a / cfg.CODE_PAGE_SIZE ↔ base ≤ a := by
      rw [Nat.le_div_iff_mul_le hP, ← hb]
    have h2 : a / cfg.CODE_PAGE_SIZE <
        base / cfg.CODE_PAGE_SIZE + length / cfg.CODE_PAGE_SIZE ↔ a < base + length := by
      rw [Nat.div_lt_iff_lt_mul hP, ← hsum]
    by_cases hin : base ≤ a ∧ a < base + length
    · rw [if_pos hin, if_pos ⟨h1.2 hin.1, h2.2 hin.2⟩]
    · rw [if_neg hin, if_neg (fun h => hin ⟨h1.1 h.1, h2.1 h.2⟩)]
  · intro e he
    simp only [List.mem_map] at he
    obtain ⟨k, _, rfl⟩ := he
    exact ⟨_, rfl⟩

/-- The frame of `vSetBankFlag` on a bank whose base and descriptor area are
page-aligned: the descriptor is the former one with `usImageFlags` assigned, the rest
of the descriptor area is erased, every other byte of flash is unchanged. -/
theorem vSetBankFlag_aligned (cfg : Config) (env : Env) (hP : 0 < cfg.CODE_PAGE_SIZE)
    (hprog : env.ProgramsErased) (usBank xFlag base : Nat) (st : State)
    (hbank : base = if usBank = cfg.SECOND_BANK then cfg.CODE_REGION_2_START
      else cfg.CODE_REGION_1_START)
    (hD : 0 < cfg.DESCRIPTOR_SIZE) (hsz : cfg.sizeof_ImageDescriptor_t ≤ cfg.DESCRIPTOR_SIZE)
    (hbase : base % cfg.CODE_PAGE_SIZE = 0)
    (hlength : cfg.DESCRIPTOR_SIZE % cfg.CODE_PAGE_SIZE = 0)
    (htop : base + cfg.DESCRIPTOR_SIZE < 4294967296) :
    ∃ st', vSetBankFlag cfg env usBank xFlag st = some st' ∧
      (∀ i, i < cfg.sizeof_ImageDescriptor_t → st'.flash (base + i) =
        assignField (memcpyDescriptor st.flash base)
          cfg.offsetof_usImageFlags cfg.sizeof_usImageFlags xFlag i) ∧
      (∀ a, base + cfg.sizeof_ImageDescriptor_t ≤ a → a < base + cfg.DESCRIPTOR_SIZE →
        st'.flash a = 0xFF) ∧
      (∀ a, a < base ∨ base + cfg.DESCRIPTOR_SIZE ≤ a → st'.flash a = st.flash a) ∧
      ∃ tail, st'.trace = st.trace ++ Event.vSetBankFlag usBank xFlag :: tail := by
  obtain ⟨st1, he, hfl, t1, ht1, _⟩ := vEraseRegion_aligned cfg hP base cfg.DESCRIPTOR_SIZE
    (st.log (Event.vSetBankFlag usBank xFlag)) hD hbase hlength htop
  have hE : Erased st1.flash base cfg.sizeof_ImageDescriptor_t := by
    intro x h1 h2
    rw [hfl x, if_pos ⟨h1, by omega⟩]
  simp only [vSetBankFlag, State.log_flash, ← hbank]
  rw [he]
  simp only [Option.map_some']
  refine ⟨_, rfl, ?_, ?_, ?_, ?_⟩
  · intro i hi
    exact write_flash_erased env hprog _ _ _ _ hE i hi
  · intro a h1 h2
    rw [write_flash_other env _ _ _ _ a (Or.inr h1), hfl a, if_pos ⟨by omega, h2⟩]
  · intro a ha
    rw [write_flash_other env _ _ _ _ a (by omega), hfl a, if_neg (by omega)]
    rfl
  · refine ⟨t1 ++ [Event.nrf_nvmc_write_bytes base cfg.sizeof_ImageDescriptor_t], ?_⟩
    rw [write_trace, ht1, State.log_trace]
    simp only [List.append_assoc, List.singleton_append, List.cons_append,
      List.nil_append]

/-- The commit arm of the switch for a `NEW` staged image that fits, with a page-aligned
first bank and descriptor area: between the signature check after the commit and the
call of `vBoot` the first bank changes in `usImageFlags` only. -/
theorem commitAndBoot_new_intact (cfg : Config) (env : Env) (hwf : cfg.WellFormed)
    (hprog : env.ProgramsErased)
    (hR1 : cfg.CODE_REGION_1_START % cfg.CODE_PAGE_SIZE = 0)
    (hDP : cfg.DESCRIPTOR_SIZE % cfg.CODE_PAGE_SIZE = 0)
    (st : State) (hfits : ImageFits cfg st.flash)
    (hnew : usImageFlags cfg st.flash cfg.CODE_REGION_2_START = cfg.IMAGE_FLAG_NEW)
    (hsigA : ∀ st1, vCommitSecondBank cfg env st = some st1 →
      env.xVerifyImageSignature st1.flash cfg.CODE_REGION_1_START = ret_code_t.NRF_SUCCESS) :
    ∃ (st1 : State) (st' : State), vCommitSecondBank cfg env st = some st1 ∧
      commitAndBoot cfg env st =
        some (vBoot cfg env (ulExecutionAddress cfg st'.flash cfg.CODE_REGION_1_START) st') ∧
      Event.vSetBankFlag cfg.FIRST_BANK cfg.IMAGE_FLAG_COMMIT_PENDING ∈ st'.trace ∧
      (∀ i, i < cfg.sizeof_ImageDescriptor_t →
        i < cfg.offsetof_usImageFlags ∨
          cfg.offsetof_usImageFlags + cfg.sizeof_usImageFlags ≤ i →
        st'.flash (cfg.CODE_REGION_1_START + i) = st1.flash (cfg.CODE_REGION_1_START + i)) ∧
      (∀ a, cfg.CODE_REGION_1_START + cfg.DESCRIPTOR_SIZE ≤ a → a < cfg.CODE_REGION_2_START →
        st'.flash a = st1.flash a) := by
  have hbanks := hwf.banks
  have hsz := hwf.sizeof_le
  have htop2 := hwf.bank2_top
  have hP := hwf.page_pos
  obtain ⟨st1, hc, _, _, hab, _⟩ := vCommitSecondBank_fits cfg env hwf hprog st hfits
  have hs := hsigA st1 hc
  have hflags1 : usImageFlags cfg st1.flash cfg.CODE_REGION_2_START =
      usImageFlags cfg st.flash cfg.CODE_REGION_2_START :=
    readLE_congr _ _ _ _ _ (fun i _ => hab _ (by omega))
  obtain ⟨st2, hset, hdesc, _, hframe, t2, ht2⟩ := vSetBankFlag_aligned cfg env hwf.page_pos
    hprog cfg.FIRST_BANK cfg.IMAGE_FLAG_COMMIT_PENDING cfg.CODE_REGION_1_START
    (st1.log (Event.xVerifyImageSignature cfg.CODE_REGION_1_START ret_code_t.NRF_SUCCESS))
    (by rw [if_neg hwf.first_ne_second]) hwf.desc_pos hsz hR1 hDP (by omega)
  refine ⟨st1, bank2Erased cfg (st2.log Event.vEraseSecondBank), hc, ?_, ?_, ?_, ?_⟩
  · simp only [commitAndBoot]
    rw [hc]
    simp only [Option.some_bind, State.log_flash, hs, if_true, hflags1]
    rw [if_pos hnew, hset]
    simp only [Option.some_bind, vEraseSecondBank_eq cfg hwf, Option.map_some']
  · obtain ⟨t3, ht3, _⟩ := bank2Erased_trace cfg (st2.log Event.vEraseSecondBank)
    rw [ht3, State.log_trace, ht2]
    simp
  · intro i hi hout
    rw [bank2Erased_below cfg hwf _ _ (by omega), State.log_flash, hdesc i hi,
      assignField_other _ _ _ _ _ hout]
    rfl
  · intro a h1 h2
    rw [bank2Erased_below cfg hwf _ a h2, State.log_flash, hframe a (Or.inr h1),
      State.log_flash]

/-- C16 (as stated) fails when `DESCRIPTOR_SIZE` is not a multiple of `CODE_PAGE_SIZE`:
with a descriptor area of `0x100` bytes in pages of `0x1000` bytes,
`vSetBankFlag( FIRST_BANK, IMAGE_FLAG_COMMIT_PENDING )` erases the whole first page of
the bank, so the payload byte at bank base + `DESCRIPTOR_SIZE` = `0x26100`, `0x55`
before the call, is `0xFF` after it. In a run of `main` that commits a `NEW` staged
image the byte at `0x26100` is `0x55` when the signature check after the commit
passes and `0xFF` when `main` starts the application. -/
theorem vSetBankFlag_small_descriptor_erases_payload :
    smallDescriptorFlash 0x26100 = 0x55 ∧
    (vSetBankFlag smallDescriptorCfg acceptAll smallDescriptorCfg.FIRST_BANK
      smallDescriptorCfg.IMAGE_FLAG_COMMIT_PENDING (State.mk smallDescriptorFlash [])).map
        (fun st => st.flash 0x26100) = some 0xFF ∧
    (vCommitSecondBank smallDescriptorCfg acceptAll ((startState smallDescriptorStaged).log
      (Event.xVerifyImageSignature 0x2A000 ret_code_t.NRF_SUCCESS))).map
        (fun st => st.flash 0x26100) = some 0x55 ∧
    (main smallDescriptorCfg acceptAll smallDescriptorStaged).map
      (fun o => (o.terminal, o.state.flash 0x26100,
        decide (Event.vSetBankFlag 0 0xFE ∈ o.state.trace))) =
      some (Terminal.startApplication 0x27000, 0xFF, true) := by
  decide

/-- C16 (amended): for every bank and every flag, when the configuration is well-formed,
the base of the first bank and `DESCRIPTOR_SIZE` are multiples of `CODE_PAGE_SIZE` and
the driver stores what is written to erased cells, `vSetBankFlag( bank, flag )`
returns; afterwards the member `usImageFlags` of the bank's descriptor is `flag`
(truncated to the width of the member), every other byte of the descriptor is
unchanged, and every byte from bank base + `DESCRIPTOR_SIZE` onward is unchanged. In
particular, in a run of `main` that commits a `NEW` staged image that fits, `main`
calls `vBoot` after `vSetBankFlag( FIRST_BANK, IMAGE_FLAG_COMMIT_PENDING )` in a state
in which the first bank differs from what the signature check after the commit saw in
`usImageFlags` only: the other bytes of the descriptor and the payload up to the second
bank are the same, and `vBoot` does not change flash. -/
theorem vSetBankFlag_frame (cfg : Config) (env : Env) (usBank xFlag base : Nat)
    (st : State) (f : Flash) (hwf : cfg.WellFormed) (hprog : env.ProgramsErased)
    (hR1 : cfg.CODE_REGION_1_START % cfg.CODE_PAGE_SIZE = 0)
    (hDP : cfg.DESCRIPTOR_SIZE % cfg.CODE_PAGE_SIZE = 0)
    (hbank : base = if usBank = cfg.SECOND_BANK then cfg.CODE_REGION_2_START
      else cfg.CODE_REGION_1_START) :
    (∃ st', vSetBankFlag cfg env usBank xFlag st = some st' ∧
      usImageFlags cfg st'.flash base = xFlag % 256 ^ cfg.sizeof_usImageFlags ∧
      (∀ i, i < cfg.sizeof_ImageDescriptor_t →
        i < cfg.offsetof_usImageFlags ∨
          cfg.offsetof_usImageFlags + cfg.sizeof_usImageFlags ≤ i →
        st'.flash (base + i) = st.flash (base + i)) ∧
      (∀ a, base + cfg.DESCRIPTOR_SIZE ≤ a → st'.flash a = st.flash a)) ∧
    (bValidateHeader cfg f cfg.CODE_REGION_2_START = ret_code_t.NRF_SUCCESS →
      ¬ (bValidateHeader cfg f cfg.CODE_REGION_1_START = ret_code_t.NRF_SUCCESS ∧
        ulSequenceNumber cfg f cfg.CODE_REGION_1_START >
          ulSequenceNumber cfg f cfg.CODE_REGION_2_START) →
      env.xVerifyImageSignature f cfg.CODE_REGION_2_START = ret_code_t.NRF_SUCCESS →
      usImageFlags cfg f cfg.CODE_REGION_2_START = cfg.IMAGE_FLAG_NEW →
      cfg.CODE_REGION_1_START + cfg.DESCRIPTOR_SIZE + bank2ImageLength cfg f ≤
        cfg.CODE_REGION_2_START →
      (∀ st1, vCommitSecondBank cfg env ((startState f).log
          (Event.xVerifyImageSignature cfg.CODE_REGION_2_START ret_code_t.NRF_SUCCESS)) =
            some st1 →
        env.xVerifyImageSignature st1.flash cfg.CODE_REGION_1_START =
          ret_code_t.NRF_SUCCESS) →
      ∃ (st1 : State) (st' : State),
        vCommitSecondBank cfg env ((startState f).log
          (Event.xVerifyImageSignature cfg.CODE_REGION_2_START ret_code_t.NRF_SUCCESS)) =
            some st1 ∧
        main cfg env f = some
          (vBoot cfg env (ulExecutionAddress cfg st'.flash cfg.CODE_REGION_1_START) st') ∧
        Event.vSetBankFlag cfg.FIRST_BANK cfg.IMAGE_FLAG_COMMIT_PENDING ∈ st'.trace ∧
        (∀ i, i < cfg.sizeof_ImageDescriptor_t →
          i < cfg.offsetof_usImageFlags ∨
            cfg.offsetof_usImageFlags + cfg.sizeof_usImageFlags ≤ i →
          st'.flash (cfg.CODE_REGION_1_START + i) =
            st1.flash (cfg.CODE_REGION_1_START + i)) ∧
        (∀ a, cfg.CODE_REGION_1_START + cfg.DESCRIPTOR_SIZE ≤ a →
          a < cfg.CODE_REGION_2_START → st'.flash a = st1.flash a) ∧
        (vBoot cfg env (ulExecutionAddress cfg st'.flash cfg.CODE_REGION_1_START)
          st').state.flash = st'.flash) := by
  have hbanks := hwf.banks
  have htop2 := hwf.bank2_top
  have hP := hwf.page_pos
  constructor
  · have hbase : base % cfg.CODE_PAGE_SIZE = 0 := by
      rw [hbank]
      split_ifs
      · exact hwf.bank2_aligned
      · exact hR1
    have htop : base + cfg.DESCRIPTOR_SIZE < 4294967296 := by
      rw [hbank]
      split_ifs <;> omega
    obtain ⟨st', hset, hdesc, _, hframe, _⟩ := vSetBankFlag_aligned cfg env hP hprog
      usBank xFlag base st hbank hwf.desc_pos hwf.sizeof_le hbase hDP htop
    refine ⟨st', hset, ?_, ?_, ?_⟩
    · simp only [usImageFlags]
      rw [readLE_of_buffer _ _ _ _ hdesc _ _ hwf.flags_in, readLE_assignField_same]
    · intro i hi hout
      rw [hdesc i hi, assignField_other _ _ _ _ _ hout]
      rfl
    · intro a ha
      exact hframe a (Or.inr ha)
  · intro hB hfresh hsigB hnew hfits hsigA
    have hfresh' : ¬ (decide (bValidateHeader cfg f cfg.CODE_REGION_1_START =
          ret_code_t.NRF_SUCCESS) = true ∧
        ulSequenceNumber cfg (startState f).flash cfg.CODE_REGION_1_START >
          ulSequenceNumber cfg (startState f).flash cfg.CODE_REGION_2_START) := by
      simpa [startState_flash] using hfresh
    have hmain : main cfg env f = commitAndBoot cfg env ((startState f).log
        (Event.xVerifyImageSignature cfg.CODE_REGION_2_START ret_code_t.NRF_SUCCESS)) := by
      rw [main_eq_evaluateBankB cfg env f hB]
      simp only [evaluateBankB, State.log_flash]
      rw [if_neg hfresh', if_neg (by simpa [startState_flash] using hsigB),
        if_pos (by simpa [startState_flash] using Or.inl hnew)]
      simp only [startState_flash, hsigB]
    obtain ⟨st1, st', hc, hboot, hev, hdesc, hpay⟩ := commitAndBoot_new_intact cfg env hwf
      hprog hR1 hDP ((startState f).log
        (Event.xVerifyImageSignature cfg.CODE_REGION_2_START ret_code_t.NRF_SUCCESS))
      hfits hnew hsigA
    exact ⟨st1, st', hc, by rw [hmain]; exact hboot, hev, hdesc, hpay, vBoot_flash _ _ _ _⟩

/-- An instance of `vSetBankFlag_frame`: in `sampleCfg`, where the banks and the
descriptor area are page-aligned, setting `COMMIT_PENDING` on the first bank of
`stagedFlash` leaves every byte from `0x27000` onward as it was, and the run of `main`
on `stagedFlash` boots a first bank whose payload is what the signature check saw. -/
theorem vSetBankFlag_frame_witness :
    sampleCfg.WellFormed ∧ acceptAll.ProgramsErased ∧
    sampleCfg.CODE_REGION_1_START % sampleCfg.CODE_PAGE_SIZE = 0 ∧
    sampleCfg.DESCRIPTOR_SIZE % sampleCfg.CODE_PAGE_SIZE = 0 ∧
    (∃ st', vSetBankFlag sampleCfg acceptAll sampleCfg.FIRST_BANK
        sampleCfg.IMAGE_FLAG_COMMIT_PENDING (State.mk stagedFlash []) = some st' ∧
      usImageFlags sampleCfg st'.flash 0x26000 = 0xFE ∧
      (∀ a, 0x27000 ≤ a → st'.flash a = stagedFlash a)) ∧
    ∃ (st1 : State) (st' : State),
      vCommitSecondBank sampleCfg acceptAll ((startState stagedFlash).log
        (Event.xVerifyImageSignature sampleCfg.CODE_REGION_2_START
          ret_code_t.NRF_SUCCESS)) = some st1 ∧
      main sampleCfg acceptAll stagedFlash = some
        (vBoot sampleCfg acceptAll
          (ulExecutionAddress sampleCfg st'.flash sampleCfg.CODE_REGION_1_START) st') ∧
      (∀ a, 0x27000 ≤ a → a < 0x2A000 → st'.flash a = st1.flash a) := by
  have h := vSetBankFlag_frame sampleCfg acceptAll sampleCfg.FIRST_BANK
    sampleCfg.IMAGE_FLAG_COMMIT_PENDING 0x26000 (State.mk stagedFlash []) stagedFlash
    sampleCfg_wellFormed acceptAll_programsErased (by decide) (by decide) (by decide)
  refine ⟨sampleCfg_wellFormed, acceptAll_programsErased, by decide, by decide, ?_, ?_⟩
  · obtain ⟨st', h1, h2, _, h4⟩ := h.1
    exact ⟨st', h1, h2, h4⟩
  · obtain ⟨st1, st', h1, h2, _, _, h5, _⟩ :=
      h.2 (by decide) (by decide) rfl (by decide) (by decide) (fun _ _ => rfl)
    exact ⟨st1, st', h1, h2, h5⟩

end Bootloader
